import Mathlib

/-! # Hotel back office: the guest check-in lifecycle

A shallow embedding of the check-in services of the hotel backend
(`services/booking_service.go`, `services/bookinginfo_service.go`,
`controllers/booking_controller.go`, `controllers/bookinginfo_controller.go`,
`utils/checkin_utils.go`) together with the properties proved about them.

Modelling conventions.

* The relational store is a record of tables; a table is the list of its rows in
  the order in which `ORDER BY id` visits them, so `First` is the first row of
  the list that satisfies the `WHERE` clause.
* `time.Time` is a natural number of nanoseconds, a nil `*time.Time` is `none`.
  The audit columns `created_at` and `updated_at` are left out.
* SQL string comparison is exact equality of strings.
* A Go string is the text it holds, and its length the number of bytes of the
  UTF-8 encoding of that text. `ToUpper`, `ToLower` and `EqualFold` map the
  letters whose image is an ASCII letter and leave every other character, which
  is the behaviour of the Go library on ASCII text. The case tables of the
  library for the other characters are not part of the repository: the
  definitions with the suffix `With` take the table as a parameter, give the
  result of the formatter as bytes, and are the functions on any text.
* A Go `error` is a value of `GoError`; a nil error is `none`.
* A `float64` that is not negative is a dyadic rational; conversions and
  arithmetic round to the nearest number of 53 binary digits, ties to even.
* Everything a request takes from outside the store (clock readings, entropy,
  environment variables, the outcome of the mail delivery and the failures of
  the database driver) is read from an explicit `Env`.
-/

namespace HotelBackend

/-! ## Strings -/

/-- Length of a Go string: the number of bytes of its UTF-8 encoding. -/
def goLen (s : List Char) : Nat := (s.map (fun c => c.utf8Size)).sum

/-- The white space of `unicode.IsSpace`. -/
def isSpace (c : Char) : Bool :=
  let n := c.toNat
  n == 0x09 || n == 0x0A || n == 0x0B || n == 0x0C || n == 0x0D || n == 0x20 ||
  n == 0x85 || n == 0xA0 || n == 0x1680 || (0x2000 ≤ n && n ≤ 0x200A) ||
  n == 0x2028 || n == 0x2029 || n == 0x202F || n == 0x205F || n == 0x3000

/-- Go `strings.TrimSpace` on the characters of a string. -/
def trimSpaceChars (s : List Char) : List Char :=
  ((s.dropWhile isSpace).reverse.dropWhile isSpace).reverse

/-- Go `strings.TrimSpace`. -/
def TrimSpace (s : String) : String := ⟨trimSpaceChars s.data⟩

/-- Lower-case mapping of `unicode.ToLower` for every character whose image is
an ASCII letter (`A`-`Z`, the Kelvin sign and the dotted capital I); other
characters are left as they are. -/
def toLowerChar (c : Char) : Char :=
  if c.toNat = 0x212A then 'k'
  else if c.toNat = 0x130 then 'i'
  else if 'A'.toNat ≤ c.toNat ∧ c.toNat ≤ 'Z'.toNat then Char.ofNat (c.toNat + 32)
  else c

/-- Upper-case mapping of `unicode.ToUpper` for every character whose image is
an ASCII letter (`a`-`z`, the dotless i and the long s); other characters are
left as they are. -/
def toUpperChar (c : Char) : Char :=
  if c.toNat = 0x131 then 'I'
  else if c.toNat = 0x17F then 'S'
  else if 'a'.toNat ≤ c.toNat ∧ c.toNat ≤ 'z'.toNat then Char.ofNat (c.toNat - 32)
  else c

/-- Go `strings.ToLower` on text whose letters have an ASCII image; a letter
outside ASCII that the library would lower-case to another letter outside ASCII
is left as it is. -/
def ToLower (s : String) : String := ⟨s.data.map toLowerChar⟩

/-- Go `strings.ToUpper` on text whose letters have an ASCII image; a letter
outside ASCII that the library would upper-case to another letter outside ASCII
is left as it is. `ToUpperWith` is the function on any text. -/
def ToUpper (s : String) : String := ⟨s.data.map toUpperChar⟩

/-- Representative of the simple case-folding orbit of a character, for the
orbits that contain an ASCII letter. -/
def foldChar (c : Char) : Char :=
  if c.toNat = 0x212A then 'k'
  else if c.toNat = 0x17F then 's'
  else if 'A'.toNat ≤ c.toNat ∧ c.toNat ≤ 'Z'.toNat then Char.ofNat (c.toNat + 32)
  else c

/-- Go `strings.EqualFold`: equality under simple case folding. -/
def EqualFold (s t : String) : Bool := s.data.map foldChar == t.data.map foldChar

/-- Whether the characters `p` open the characters `s`. -/
def startsWith : List Char → List Char → Bool
  | [], _ => true
  | _ :: _, [] => false
  | a :: p, b :: s => a == b && startsWith p s

/-- Whether `sub` occurs in `s` as a contiguous block. -/
def containsChars (s sub : List Char) : Bool :=
  match s with
  | [] => sub.isEmpty
  | c :: cs => startsWith sub (c :: cs) || containsChars cs sub

/-- Go `strings.Contains`. -/
def Contains (s sub : String) : Bool := containsChars s.data sub.data

/-! ## Errors -/

/-- A Go `error` value as the services produce it. -/
inductive GoError where
  /-- The sentinel `gorm.ErrRecordNotFound`. -/
  | recordNotFound
  /-- The sentinel `gorm.ErrMissingWhereClause`. -/
  | missingWhereClause
  /-- An error reported by the database driver, with its message. -/
  | driver (msg : String)
  /-- An error of the mail delivery or of the entropy source, with its message. -/
  | external (msg : String)
  /-- A value made by `errors.New` or by `fmt.Errorf` without `%w`. -/
  | new (msg : String)
  /-- A value made by `fmt.Errorf(pre + "%w", inner)`. -/
  | wrap (pre : String) (inner : GoError)
  deriving DecidableEq, Repr

namespace GoError

/-- The method `Error()`: the message of an error. -/
def Error : GoError → String
  | recordNotFound => "record not found"
  | missingWhereClause => "WHERE conditions required"
  | driver msg => msg
  | external msg => msg
  | new msg => msg
  | wrap pre inner => pre ++ inner.Error

/-- The test `errors.Is(err, gorm.ErrRecordNotFound)`. -/
def isRecordNotFound : GoError → Bool
  | recordNotFound => true
  | wrap _ inner => inner.isRecordNotFound
  | _ => false

end GoError

/-! ## Data model (`models/*.go`) -/

/-- An instant: nanoseconds since the epoch. -/
abbrev Time := Nat

/-- A row of `customers`. -/
structure Customer where
  ID : Nat := 0
  DeletedAt : Option Time := none
  FullName : String := ""
  Email : String := ""
  deriving DecidableEq, Repr, Inhabited

/-- A row of `rooms`. -/
structure Room where
  ID : Nat := 0
  DeletedAt : Option Time := none
  RoomTypeID : Option Nat := none
  RoomNumber : String := ""
  RoomCode : String := ""
  /-- The column `type`. -/
  Type_ : String := ""
  Status : String := ""
  deriving DecidableEq, Repr, Inhabited

/-- A row of `booking_rooms`. -/
structure BookingRoom where
  ID : Nat := 0
  DeletedAt : Option Time := none
  BookingID : Nat := 0
  RoomID : Nat := 0
  Nights : Int := 0
  Hours : Option Int := none
  Status : String := ""
  deriving DecidableEq, Repr, Inhabited

/-- A row of `bookings`. -/
structure Booking where
  ID : Nat := 0
  DeletedAt : Option Time := none
  RoomID : Option Nat := none
  CustomerID : Nat := 0
  ReferenceCode : String := ""
  Status : String := ""
  CheckIn : Option Time := none
  CheckOut : Option Time := none
  CheckInDate : Option Time := none
  CheckOutDate : Option Time := none
  Nights : Int := 0
  NumberOfGuests : Int := 0
  CheckinCompleted : Bool := false
  CheckedInAt : Option Time := none
  Adults : Int := 1
  Children : Int := 0
  AccompanyingGuests : String := ""
  deriving DecidableEq, Repr, Inhabited

/-- A row of `booking_infos`: a check-in session. -/
structure BookingInfo where
  ID : Nat := 0
  DeletedAt : Option Time := none
  BookingID : Nat := 0
  Token : String := ""
  CheckinCode : String := ""
  Status : String := ""
  EmailStatus : String := ""
  EmailError : String := ""
  ExpiresAt : Option Time := none
  CodeExpiresAt : Option Time := none
  GuestEmail : String := ""
  GuestLastName : String := ""
  deriving DecidableEq, Repr, Inhabited

/-- A row of `guests`. The association field `Booking` of the Go struct is
tagged `json:"-"`, so it is the zero value in every submitted guest and is not
saved along with the guest. -/
structure Guest where
  ID : Nat := 0
  BookingID : Option Nat := none
  FullName : String := ""
  IsMainGuest : Bool := false
  DateOfBirth : Option Time := none
  Gender : String := ""
  Nationality : String := ""
  CurrentAddress : String := ""
  IDType : String := ""
  IDNumber : String := ""
  IDIssuedCountry : String := ""
  FaceImagePath : String := ""
  DocumentImagePath : String := ""
  Email : String := ""
  deriving DecidableEq, Repr, Inhabited

/-- A consent template as submitted with a check-in. -/
structure Consent where
  ID : Nat := 0
  Slug : String := ""
  Title : String := ""
  Description : String := ""
  EffectiveFrom : Option Time := none
  Version : String := ""
  DeletedAt : Option Time := none
  deriving DecidableEq, Repr, Inhabited

/-- A row of `consent_logs`. -/
structure ConsentLog where
  ID : Nat := 0
  BookingID : Option Nat := none
  BookingToken : Option String := none
  ConsentID : Nat := 0
  GuestID : Option Nat := none
  AcceptedAt : Time := 0
  AcceptedBy : String := ""
  Status : String := ""
  Action : String := ""
  DeletedAt : Option Time := none
  deriving DecidableEq, Repr, Inhabited

/-- The relational store. -/
structure Store where
  customers : List Customer := []
  rooms : List Room := []
  bookings : List Booking := []
  bookingRooms : List BookingRoom := []
  bookingInfos : List BookingInfo := []
  guests : List Guest := []
  consentLogs : List ConsentLog := []
  deriving DecidableEq, Repr, Inhabited

/-! ## The world outside the store -/

/-- The database operations of the services during which the driver can fail. -/
inductive DbOp where
  | begin
  | commit
  /-- Finalize: the session looked up by token. -/
  | findSessionByToken
  /-- Finalize: the booking row read `FOR UPDATE`. -/
  | lockBooking
  /-- Finalize: the update of the booking. -/
  | updateBooking
  /-- Finalize: the insert of the `i`-th guest. -/
  | createGuest (i : Nat)
  /-- Finalize: the insert of the consent log of the `i`-th guest and `j`-th consent. -/
  | createConsentLog (i j : Nat)
  /-- Finalize: the update of the session. -/
  | updateSession
  /-- Initiate: the booking read with its relations. -/
  | loadBooking
  /-- Initiate: the look-up of a session that is still running. -/
  | findActiveSession
  /-- Initiate: the insert of the session at the given attempt. -/
  | createSession (attempt : Nat)
  /-- Initiate: the update of the delivery status. -/
  | updateEmailStatus
  /-- Checkout: the booking read with its room assignments. -/
  | loadBookingRooms
  /-- Checkout: the update of the booking. -/
  | checkoutBooking
  /-- Checkout: the forced expiry of the sessions. -/
  | expireSessions
  /-- Checkout: the release of the `i`-th assigned room. -/
  | releaseRoom (i : Nat)
  /-- Verify: the session looked up by token. -/
  | verifySession
  /-- Verify: the booking read through its session, with its relations. -/
  | verifyBooking
  /-- Validate by code and query: the look-up of the session. -/
  | validateCode
  /-- Find by code: the look-up among the sessions whose code has not expired. -/
  | findCodeActive
  /-- Find by code: the look-up among all sessions. -/
  | findCodeAny
  /-- Extend: the session read by key. -/
  | extendFind
  /-- Extend: the write of the session. -/
  | extendSave
  deriving DecidableEq, Repr

/-- Everything one request reads from outside the store. -/
structure Env where
  /-- The reading of `time.Now().UTC()` with which the operation starts. -/
  now : Time := 0
  /-- The message of the driver error raised at an operation, if any. -/
  fault : DbOp → Option String := fun _ => none
  /-- The process environment, `os.Getenv`. -/
  getenv : String → String := fun _ => ""
  /-- Initiate: the clock reading taken for the token expiry at an attempt. -/
  tokenNow : Nat → Time := fun _ => 0
  /-- Initiate: the clock reading taken for the code expiry at an attempt. -/
  codeNow : Nat → Time := fun _ => 0
  /-- Initiate: what `rand.Read` delivers at an attempt: the message of its
  error, or the stream of bytes (every entry is taken modulo 256). -/
  randRead : Nat → Except String (Nat → Nat) := fun _ => .ok (fun _ => 0)
  /-- Initiate: what the `i`-th call of `rand.Int` delivers at an attempt: the
  message of its error, or a number (taken modulo the bound). -/
  randInt : Nat → Nat → Except String Nat := fun _ _ => .ok 0
  /-- The error message of the mail delivery, `none` when it succeeds. -/
  mail : Option String := none

/-- The driver works during the whole request. -/
def Env.NoFault (env : Env) : Prop := ∀ op, env.fault op = none

/-! ## Store primitives (GORM on MySQL) -/

/-- The value an `AUTO_INCREMENT` key takes on insert: one more than every key
of the table. -/
def nextID (ids : List Nat) : Nat := ids.foldl max 0 + 1

/-- The driver error raised at an operation, if the environment has one. -/
def dbFault (env : Env) (op : DbOp) : Except GoError Unit :=
  match env.fault op with
  | some msg => .error (.driver msg)
  | none => .ok ()

/-- The result of `First`: the first row of the selection, or
`gorm.ErrRecordNotFound`; a driver failure takes precedence. -/
def queryFirst {α : Type} (env : Env) (op : DbOp) (found : Option α) : Except GoError α :=
  match env.fault op with
  | some msg => .error (.driver msg)
  | none =>
    match found with
    | some row => .ok row
    | none => .error .recordNotFound

/-- The token of a session is usable at `now`:
`expires_at IS NULL OR expires_at > now`. -/
def tokenUnexpired (now : Time) (bi : BookingInfo) : Bool :=
  match bi.ExpiresAt with
  | none => true
  | some e => decide (now < e)

/-- The code of a session is usable at `now`:
`code_expires_at IS NULL OR code_expires_at > now`. -/
def codeUnexpired (now : Time) (bi : BookingInfo) : Bool :=
  match bi.CodeExpiresAt with
  | none => true
  | some e => decide (now < e)

/-- The selection
`WHERE token = ? AND (expires_at IS NULL OR expires_at > ?)` on `booking_infos`
with the soft-delete scope of GORM, `deleted_at IS NULL`. -/
def sessionByToken (token : String) (now : Time) (bi : BookingInfo) : Bool :=
  decide (bi.Token = token) && tokenUnexpired now bi && decide (bi.DeletedAt = none)

/-- The selection `WHERE id = ?` on `bookings` with the soft-delete scope. -/
def bookingByID (id : Nat) (b : Booking) : Bool :=
  decide (b.ID = id) && decide (b.DeletedAt = none)

/-- The statement `tx.Model(&row).Updates(...)` on a table with soft delete:
the rows `WHERE id = row.ID AND deleted_at IS NULL` are rewritten by `f`;
without a primary key GORM refuses with `ErrMissingWhereClause`. -/
def updateByID {α : Type} (env : Env) (op : DbOp) (getID : α → Nat)
    (getDeleted : α → Option Time) (id : Nat) (f : α → α) (rows : List α) :
    Except GoError (List α) :=
  match env.fault op with
  | some msg => .error (.driver msg)
  | none =>
    if id = 0 then .error .missingWhereClause
    else .ok (rows.map (fun r => if getID r = id ∧ getDeleted r = none then f r else r))

/-- The MySQL message for a violated primary or unique key. -/
def duplicateEntry (key : String) : GoError :=
  .driver ("Error 1062 (23000): Duplicate entry for key " ++ key)

/-- The effect of `tx.Create(&guest)`: a guest without key gets the next
`AUTO_INCREMENT` key, a guest that carries a key is inserted under it unless
the key is taken. Returns the store and the guest as written. -/
def createGuest (env : Env) (i : Nat) (tx : Store) (g : Guest) : Except GoError (Store × Guest) :=
  match env.fault (.createGuest i) with
  | some msg => .error (.driver msg)
  | none =>
    if g.ID = 0 then
      let row := { g with ID := nextID (tx.guests.map (fun r => r.ID)) }
      .ok ({ tx with guests := tx.guests ++ [row] }, row)
    else if tx.guests.any (fun r => r.ID = g.ID) then
      .error (duplicateEntry "guests.PRIMARY")
    else .ok ({ tx with guests := tx.guests ++ [g] }, g)

/-- The effect of `tx.Create(&logEntry)` for an entry without key. -/
def createConsentLog (env : Env) (i j : Nat) (tx : Store) (l : ConsentLog) :
    Except GoError Store :=
  match env.fault (.createConsentLog i j) with
  | some msg => .error (.driver msg)
  | none =>
    let row := { l with ID := nextID (tx.consentLogs.map (fun r => r.ID)) }
    .ok { tx with consentLogs := tx.consentLogs ++ [row] }

/-- The method `db.Transaction(fc)`: the writes of `fc` are kept when `fc`
returns nil and the commit succeeds, and are rolled back otherwise. -/
def Transaction (env : Env) (s : Store) (fc : Store → Except GoError Store) :
    Option GoError × Store :=
  match env.fault .begin with
  | some msg => (some (.driver msg), s)
  | none =>
    match fc s with
    | .error err => (some err, s)
    | .ok tx =>
      match env.fault .commit with
      | some msg => (some (.driver msg), s)
      | none => (none, tx)

/-! ## `FinalizeCheckInTransaction` (`services/booking_service.go`) -/

/-- The loop `for i := range guests`: binds each guest to the booking, inserts
it and collects the keys. `i` is the index of the head of the list. -/
def insertGuests (env : Env) (bookingID : Nat) :
    List Guest → Nat → Store → List Nat → Except GoError (Store × List Nat)
  | [], _, tx, ids => .ok (tx, ids)
  | g :: gs, i, tx, ids =>
    match createGuest env i tx { g with BookingID := some bookingID } with
    | .error err => .error err
    | .ok (tx1, row) => insertGuests env bookingID gs (i + 1) tx1 (ids ++ [row.ID])

/-- The consent log written for a guest and a consent, as the struct literal
of type `models.ConsentLog` in the loop builds it. -/
def consentLogFor (bookingID : Nat) (now : Time) (gid : Nat) (c : Consent) : ConsentLog :=
  { BookingID := some bookingID, ConsentID := c.ID, GuestID := some gid,
    AcceptedAt := now, Status := "accepted" }

/-- The inner loop `for _, c := range consents` for the guest `gid`. -/
def insertConsentLogsFor (env : Env) (bookingID : Nat) (now : Time) (i : Nat) (gid : Nat) :
    List Consent → Nat → Store → Except GoError Store
  | [], _, tx => .ok tx
  | c :: cs, j, tx =>
    match createConsentLog env i j tx (consentLogFor bookingID now gid c) with
    | .error err => .error err
    | .ok tx1 => insertConsentLogsFor env bookingID now i gid cs (j + 1) tx1

/-- The outer loop `for _, gid := range insertedGuestIDs`. -/
def insertConsentLogs (env : Env) (bookingID : Nat) (now : Time) (consents : List Consent) :
    List Nat → Nat → Store → Except GoError Store
  | [], _, tx => .ok tx
  | gid :: gids, i, tx =>
    match insertConsentLogsFor env bookingID now i gid consents 0 tx with
    | .error err => .error err
    | .ok tx1 => insertConsentLogs env bookingID now consents gids (i + 1) tx1

/-- The function passed to `s.DB.Transaction` by `FinalizeCheckInTransaction`. -/
def finalizeBody (env : Env) (token : String) (guests : List Guest) (consents : List Consent)
    (tx : Store) : Except GoError Store :=
  let now := env.now
  match queryFirst env .findSessionByToken (tx.bookingInfos.find? (sessionByToken token now)) with
  | .error err =>
    if err.isRecordNotFound then .error (.new "invalid_or_expired_token") else .error err
  | .ok bookingInfo =>
    -- idempotent
    if bookingInfo.Status = "COMPLETED" then .ok tx
    else
      let bookingID := bookingInfo.BookingID
      match queryFirst env .lockBooking (tx.bookings.find? (bookingByID bookingID)) with
      | .error err => .error err
      | .ok booking =>
        if booking.CheckedInAt ≠ none ∨ booking.CheckinCompleted = true then .ok tx
        else
          match updateByID env .updateBooking (fun b => b.ID) (fun b => b.DeletedAt) booking.ID
              (fun b => { b with Status := "Checked-In", CheckIn := some now,
                                 CheckedInAt := some now, CheckinCompleted := true,
                                 NumberOfGuests := (guests.length : Int) })
              tx.bookings with
          | .error err => .error err
          | .ok bookings1 =>
            match insertGuests env bookingID guests 0 { tx with bookings := bookings1 } [] with
            | .error err => .error err
            | .ok (tx2, insertedGuestIDs) =>
              match insertConsentLogs env bookingID now consents insertedGuestIDs 0 tx2 with
              | .error err => .error err
              | .ok tx3 =>
                match updateByID env .updateSession (fun r => r.ID) (fun r => r.DeletedAt)
                    bookingInfo.ID (fun r => { r with Status := "COMPLETED" })
                    tx3.bookingInfos with
                | .error err => .error err
                | .ok infos1 => .ok { tx3 with bookingInfos := infos1 }

/-- The service `FinalizeCheckInTransaction(token, guests, consents)`: the
returned error and the store it leaves. -/
def FinalizeCheckInTransaction (env : Env) (s : Store) (token : String) (guests : List Guest)
    (consents : List Consent) : Option GoError × Store :=
  Transaction env s (finalizeBody env token guests consents)

/-- The status code with which the handler `ConfirmCheckIn` answers the outcome
of `FinalizeCheckInTransaction` for a payload that binds
(`controllers/booking_controller.go`). -/
def ConfirmCheckIn (result : Option GoError) : Nat :=
  match result with
  | some err =>
    if Contains err.Error "invalid_or_expired_token" then 401
    else 500
  | none => 200

/-! ## Token and code generators (`utils/checkin_utils.go`) -/

/-- The constant `checkinCharset`. -/
def checkinCharset : List Char := "ABCDEFGHIJKLMNOPQRSTUVWXYZ0123456789".data

/-- The digits of `encoding/hex`. -/
def hexDigits : List Char := "0123456789abcdef".data

/-- The function `hex.EncodeToString` on a list of bytes. -/
def hexEncode : List Nat → List Char
  | [] => []
  | b :: bs => hexDigits.getD (b / 16 % 16) '0' :: hexDigits.getD (b % 16) '0' :: hexEncode bs

/-- The function `GenerateSecureToken(length)`, reading `rand.Read` from `rd`. -/
def GenerateSecureToken (length : Int) (rd : Except String (Nat → Nat)) : Except GoError String :=
  if length ≤ 0 then .error (.new "invalid token length")
  else
    match rd with
    | .error msg => .error (.external msg)
    | .ok src => .ok ⟨hexEncode ((List.range length.toNat).map (fun i => src i % 256))⟩

/-- The loop of `GenerateCheckinCode`: `k` characters are still to be drawn,
`i` is the index of the next draw and `sb` the builder. -/
def generateCodeLoop (draw : Nat → Except String Nat) :
    Nat → Nat → List Char → Except GoError (List Char)
  | 0, _, sb => .ok sb
  | k + 1, i, sb =>
    match draw i with
    | .error msg => .error (.external msg)
    | .ok num => generateCodeLoop draw k (i + 1) (sb ++ [checkinCharset.getD (num % 36) 'A'])

/-- The function `GenerateCheckinCode(n)`, reading `rand.Int` from `draw`. -/
def GenerateCheckinCode (n : Int) (draw : Nat → Except String Nat) : Except GoError String :=
  if n ≤ 0 then .error (.new "invalid length")
  else
    match generateCodeLoop draw n.toNat 0 [] with
    | .error err => .error err
    | .ok sb => .ok ⟨sb⟩

/-- The bytes `s[:n]` of a Go string, for `n` on a character boundary; a
character that straddles byte `n` is left to `dropBytes`. -/
def takeBytes : Nat → List Char → List Char
  | _, [] => []
  | n, c :: cs => if c.utf8Size ≤ n then c :: takeBytes (n - c.utf8Size) cs else []

/-- The bytes `s[n:]` of a Go string, for `n` on a character boundary. -/
def dropBytes : Nat → List Char → List Char
  | _, [] => []
  | n, c :: cs => if c.utf8Size ≤ n then dropBytes (n - c.utf8Size) cs else c :: cs

/-- The function `GenerateFormattedCheckinCode(raw)` as `createWithRetries`
calls it, on the ASCII text of `GenerateCheckinCode`. On text outside ASCII the
function is `GenerateFormattedCheckinCodeWith`, which takes the case table of the
library and returns bytes; the two agree on ASCII text
(`GenerateFormattedCheckinCode_ascii`). -/
def GenerateFormattedCheckinCode (raw : String) : Except GoError String :=
  let raw1 := ToUpper (TrimSpace raw)
  let raw2 := raw1.data.filter (fun c => c ≠ '-')
  if goLen raw2 ≠ 8 then .error (.new "raw must be length 8")
  else .ok ⟨takeBytes 4 raw2 ++ '-' :: dropBytes 4 raw2⟩

/-- The character class `[A-Z0-9]`. -/
def isUpperAlnum (c : Char) : Bool :=
  ('A'.toNat ≤ c.toNat && c.toNat ≤ 'Z'.toNat) || ('0'.toNat ≤ c.toNat && c.toNat ≤ '9'.toNat)

/-- The function `NormalizeCheckinCode(code)`, with the case mapping of
`ToUpper`; `NormalizeCheckinCodeWith` is the function on any text. -/
def NormalizeCheckinCode (code : String) : String :=
  ⟨(ToUpper (TrimSpace code)).data.filter isUpperAlnum⟩

/-- The function `EnvOrDefault(key, def)`. -/
def EnvOrDefault (env : Env) (key dflt : String) : String :=
  let v := env.getenv key
  if TrimSpace v = "" then dflt else v

/-! ## `InitiateCheckInProcess` (`services/booking_service.go`) -/

/-- A booking as `Preload("Rooms.Room.RoomType").Preload("Customer").First`
fills the Go struct: the row, the customer, the room assignments, and the
association `Room`, which this query does not preload. -/
structure LoadedBooking where
  row : Booking := {}
  Room : Room := {}
  Customer : Customer := {}
  Rooms : List BookingRoom := []
  deriving DecidableEq, Repr, Inhabited

/-- The rows read by
`Preload("Rooms.Room.RoomType").Preload("Customer").First(&booking, bookingID)`;
relations under soft delete are read with `deleted_at IS NULL`, and a zero
foreign key is not looked up. -/
def loadBooking (s : Store) (bookingID : Nat) : Option LoadedBooking :=
  match s.bookings.find? (bookingByID bookingID) with
  | none => none
  | some b =>
    some { row := b
           Room := {}
           Customer :=
             if b.CustomerID = 0 then {}
             else (s.customers.find? (fun c => c.ID = b.CustomerID ∧ c.DeletedAt = none)).getD {}
           Rooms := s.bookingRooms.filter (fun br => br.BookingID = b.ID ∧ br.DeletedAt = none) }

/-- The selection
`(expires_at IS NULL OR expires_at > ?) AND booking_id = ? AND deleted_at IS NULL`
on `booking_infos`. -/
def activeSessionOf (bookingID : Nat) (now : Time) (bi : BookingInfo) : Bool :=
  tokenUnexpired now bi && decide (bi.BookingID = bookingID) && decide (bi.DeletedAt = none)

/-- The effect of `s.DB.Create(&bookingInfo)`: both `token` and `checkin_code`
carry a unique index. Returns the store and the session as written. -/
def createBookingInfo (env : Env) (attempt : Nat) (s : Store) (bi : BookingInfo) :
    Except GoError (Store × BookingInfo) :=
  match env.fault (.createSession attempt) with
  | some msg => .error (.driver msg)
  | none =>
    if s.bookingInfos.any (fun r => r.Token = bi.Token) then
      .error (duplicateEntry "booking_infos.idx_booking_infos_token")
    else if s.bookingInfos.any (fun r => r.CheckinCode = bi.CheckinCode) then
      .error (duplicateEntry "booking_infos.idx_booking_infos_checkin_code")
    else
      let row := { bi with ID := nextID (s.bookingInfos.map (fun r => r.ID)) }
      .ok ({ s with bookingInfos := s.bookingInfos ++ [row] }, row)

/-- The test that sends a failed `Create` into another attempt. -/
def isCollision (createErr : GoError) : Bool :=
  let lc := ToLower createErr.Error
  Contains lc "duplicate" || Contains lc "unique" || Contains lc "constraint"

/-- The constant `time.Hour` in nanoseconds. -/
def hour : Nat := 3600 * 1000000000

/-- The session that an attempt of `InitiateCheckInProcess` builds from the
generated token and code: the token expires 24 hours and the code 7 days after
the clock readings of the attempt, unless `CHECKIN_CODE_NEVER_EXPIRE` is set. -/
def newSession (env : Env) (booking : LoadedBooking) (bookingID : Nat) (attempt : Nat)
    (token formatted : String) : BookingInfo :=
  let expiresAt := env.tokenNow attempt + 24 * hour
  let codeExp : Option Time :=
    if ToLower (EnvOrDefault env "CHECKIN_CODE_NEVER_EXPIRE" "false") = "true" then none
    else some (env.codeNow attempt + 7 * 24 * hour)
  { BookingID := bookingID, Token := token, CheckinCode := formatted,
    Status := "INITIATED", EmailStatus := "PENDING",
    ExpiresAt := some expiresAt, CodeExpiresAt := codeExp,
    GuestEmail := booking.Customer.Email,
    GuestLastName := booking.Customer.FullName }

/-- The loop `for attempt := 0; attempt < maxRetries; attempt++` together with
the test `createErr != nil` that follows it: `n` attempts are left, `attempt`
is the loop counter and `createErr` the error of the last `Create`. -/
def createWithRetries (env : Env) (booking : LoadedBooking) (bookingID : Nat) :
    Nat → Nat → Option GoError → Store → Except GoError (BookingInfo × Store)
  | 0, _, createErr, s =>
    match createErr with
    | some err => .error (.wrap "failed to create booking info after retries: " err)
    | none => .ok ({}, s)
  | n + 1, attempt, _, s =>
    match GenerateSecureToken 32 (env.randRead attempt) with
    | .error gErr => .error (.wrap "failed to generate token: " gErr)
    | .ok token =>
      match GenerateCheckinCode 8 (env.randInt attempt) with
      | .error cErr => .error (.wrap "failed to generate checkin code: " cErr)
      | .ok rawCode =>
        match GenerateFormattedCheckinCode rawCode with
        | .error fErr => .error (.wrap "failed to format checkin code: " fErr)
        | .ok formatted =>
          match createBookingInfo env attempt s
              (newSession env booking bookingID attempt token formatted) with
          | .ok (s1, row) => .ok (row, s1)
          | .error createErr =>
            if isCollision createErr then
              createWithRetries env booking bookingID n (attempt + 1) (some createErr) s
            else .error (.wrap "failed to create booking info: " createErr)

/-- What `InitiateCheckInProcess` hands back: the session, the error and the
store it leaves. -/
structure InitiateResult where
  session : BookingInfo
  err : Option GoError
  store : Store
  deriving DecidableEq, Repr

/-- The statement
`_ = s.DB.Model(&bookingInfo).Where("id = ?", bookingInfo.ID).Updates(...)`:
the error is dropped, so a failed update leaves the store as it is. -/
def updateEmailStatus (env : Env) (s : Store) (id : Nat) (f : BookingInfo → BookingInfo) : Store :=
  match updateByID env .updateEmailStatus (fun r => r.ID) (fun r => r.DeletedAt) id f
      s.bookingInfos with
  | .error _ => s
  | .ok infos => { s with bookingInfos := infos }

/-- The block `// validations` of `InitiateCheckInProcess`: the error with
which a loaded booking is turned away, `none` when it may go on. -/
def validateBooking (booking : LoadedBooking) : Option GoError :=
  if booking.Customer.ID = 0 then some (.new "missing customer")
  else if booking.Rooms.length = 0 ∧ booking.Room.ID = 0 then some (.new "missing room")
  else if TrimSpace booking.Customer.Email = "" then some (.new "customer_email_missing")
  else if EqualFold booking.row.Status "Checked-In" ∨
      EqualFold booking.row.Status "Checkedin" ∨
      EqualFold booking.row.Status "Checked in" then
    some (.new "already_checked_in")
  else if booking.row.CheckedInAt ≠ none then some (.new "already_checked_in")
  else if EqualFold (TrimSpace booking.row.Status) "Checked-Out" then
    some (.new "booking_checked_out")
  else none

/-- The block `// send email (best-effort) and update email status` of
`InitiateCheckInProcess`: the mail is composed from the loaded booking and
handed to the delivery, whose outcome is `env.mail`; the delivery status is
written to the struct and, if the driver works, to the row. -/
def deliver (env : Env) (s1 : Store) (bookingInfo : BookingInfo) : InitiateResult :=
  match env.mail with
  | some msg =>
    let mailErr := GoError.external msg
    let upd := fun (r : BookingInfo) =>
      { r with EmailStatus := "FAILED", EmailError := mailErr.Error }
    ⟨upd bookingInfo, some (.wrap "email_send_failed: " mailErr),
      updateEmailStatus env s1 bookingInfo.ID upd⟩
  | none =>
    let upd := fun (r : BookingInfo) => { r with EmailStatus := "SENT" }
    ⟨upd bookingInfo, none, updateEmailStatus env s1 bookingInfo.ID upd⟩

/-- The service `InitiateCheckInProcess(bookingID)`. -/
def InitiateCheckInProcess (env : Env) (s : Store) (bookingID : Nat) : InitiateResult :=
  match queryFirst env .loadBooking (loadBooking s bookingID) with
  | .error err =>
    if err.isRecordNotFound then ⟨{}, some (.new "booking_not_found"), s⟩
    else ⟨{}, some (.wrap "failed to find booking: " err), s⟩
  | .ok booking =>
    match validateBooking booking with
    | some err => ⟨{}, some err, s⟩
    | none =>
      -- check existing non-expired booking_info
      let now := env.now
      match queryFirst env .findActiveSession
          (s.bookingInfos.reverse.find? (activeSessionOf bookingID now)) with
      | .ok _ => ⟨{}, some (.new "checkin_already_initiated"), s⟩
      | .error err =>
        if !err.isRecordNotFound then
          ⟨{}, some (.wrap "failed to check existing booking info: " err), s⟩
        else
          -- create booking_info with retries on unique collision
          match createWithRetries env booking bookingID 5 0 none s with
          | .error err => ⟨{}, some err, s⟩
          | .ok (bookingInfo, s1) => deliver env s1 bookingInfo

/-- The status code with which the handler `InitiateCheckIn` answers the
outcome of `InitiateCheckInProcess` for a payload that binds
(`controllers/booking_controller.go`). -/
def InitiateCheckIn (result : Option GoError) : Nat :=
  match result with
  | none => 200
  | some err =>
    if Contains err.Error "booking_not_found" then 404
    else if Contains err.Error "already_checked_in" then 409
    else if Contains err.Error "checkin_already_initiated" then 409
    else if Contains err.Error "booking_checked_out" then 410
    else if Contains err.Error "email_send_failed" then 206
    else 500

/-! ## `CheckoutBooking` (`services/booking_service.go`) -/

/-- The loop `for _, br := range booking.Rooms` of `CheckoutBooking`: every
assigned room that is not soft-deleted becomes `Available`. -/
def releaseRooms (env : Env) : List BookingRoom → Nat → List Room → Except GoError (List Room)
  | [], _, rooms => .ok rooms
  | br :: brs, i, rooms =>
    match env.fault (.releaseRoom i) with
    | some msg => .error (.driver msg)
    | none =>
      releaseRooms env brs (i + 1)
        (rooms.map (fun r =>
          if r.ID = br.RoomID ∧ r.DeletedAt = none then { r with Status := "Available" } else r))

/-- The function passed to `s.DB.Transaction` by `CheckoutBooking`. -/
def checkoutBody (env : Env) (bookingID : Nat) (tx : Store) : Except GoError Store :=
  match queryFirst env .loadBookingRooms (tx.bookings.find? (bookingByID bookingID)) with
  | .error err =>
    if err.isRecordNotFound then .error (.new "booking_not_found") else .error err
  | .ok booking =>
    let rooms := tx.bookingRooms.filter (fun br => br.BookingID = booking.ID ∧ br.DeletedAt = none)
    if booking.Status ≠ "Checked-In" then .error (.new "not_checked_in")
    else
      let now := env.now
      match updateByID env .checkoutBooking (fun b => b.ID) (fun b => b.DeletedAt) booking.ID
          (fun b => { b with Status := "Checked-Out", CheckOut := some now }) tx.bookings with
      | .error err => .error err
      | .ok bookings1 =>
        match dbFault env .expireSessions with
        | .error err => .error err
        | .ok _ =>
          let infos1 := tx.bookingInfos.map (fun r =>
            if r.BookingID = bookingID ∧ r.DeletedAt = none then
              { r with ExpiresAt := some now, Status := "EXPIRED" }
            else r)
          match releaseRooms env rooms 0 tx.rooms with
          | .error err => .error err
          | .ok rooms1 =>
            .ok { tx with bookings := bookings1, bookingInfos := infos1, rooms := rooms1 }

/-- The service `CheckoutBooking(bookingID)`: the returned error and the store
it leaves. -/
def CheckoutBooking (env : Env) (s : Store) (bookingID : Nat) : Option GoError × Store :=
  Transaction env s (checkoutBody env bookingID)

/-! ## Descriptions used in the statements -/

/-- The rewrite of the booking row by a completed check-in. -/
def checkedIn (now : Time) (n : Nat) (b : Booking) : Booking :=
  { b with Status := "Checked-In", CheckIn := some now, CheckedInAt := some now,
           CheckinCompleted := true, NumberOfGuests := (n : Int) }

/-- The store a check-in that runs to its end leaves behind: the booking is
rewritten, the rows `rows` and `logs` are appended and the session is completed. -/
def finalizedStore (tx : Store) (now : Time) (bi : BookingInfo) (n : Nat) (rows : List Guest)
    (logs : List ConsentLog) : Store :=
  { tx with
    bookings := tx.bookings.map (fun r =>
      if r.ID = bi.BookingID ∧ r.DeletedAt = none then checkedIn now n r else r)
    guests := tx.guests ++ rows
    consentLogs := tx.consentLogs ++ logs
    bookingInfos := tx.bookingInfos.map (fun r =>
      if r.ID = bi.ID ∧ r.DeletedAt = none then { r with Status := "COMPLETED" } else r) }

/-- No session of the store answers to `token` at `now`: no row that is not
soft-deleted carries the token with a token expiry that is null or later than
`now`. -/
def NoUsableSession (s : Store) (token : String) (now : Time) : Prop :=
  ∀ bi ∈ s.bookingInfos,
    ¬(bi.DeletedAt = none ∧ bi.Token = token ∧
      (bi.ExpiresAt = none ∨ ∃ e, bi.ExpiresAt = some e ∧ now < e))

/-- The error comes from the driver: it is a failure raised by the environment
or the key violation of a guest insert. -/
def FromDriver (env : Env) (err : GoError) : Prop :=
  err = .recordNotFound ∨ err = .missingWhereClause ∨ err = duplicateEntry "guests.PRIMARY" ∨
    ∃ op msg, env.fault op = some msg ∧ err = .driver msg

/-! ## The life cycle as a transition system -/

/-- The states that the three operations reach from the store `s0`: a store
together with the current instant. Every request starts at or after the instant
of the state it meets, and time may pass between requests. -/
inductive Reachable (s0 : Store) : Store → Time → Prop where
  | start (t : Time) : Reachable s0 s0 t
  | wait {s : Store} {t : Time} (t2 : Time) :
      Reachable s0 s t → t ≤ t2 → Reachable s0 s t2
  | createSession {s : Store} {t : Time} (env : Env) (bookingID : Nat) :
      Reachable s0 s t → t ≤ env.now →
      Reachable s0 (InitiateCheckInProcess env s bookingID).store env.now
  | finalizeCheckIn {s : Store} {t : Time} (env : Env) (token : String) (guests : List Guest)
      (consents : List Consent) :
      Reachable s0 s t → t ≤ env.now →
      Reachable s0 (FinalizeCheckInTransaction env s token guests consents).2 env.now
  | checkout {s : Store} {t : Time} (env : Env) (bookingID : Nat) :
      Reachable s0 s t → t ≤ env.now →
      Reachable s0 (CheckoutBooking env s bookingID).2 env.now

/-- A session that is not terminal at `now` in the sense of the invariant as
claimed: it is not soft-deleted, has status `INITIATED`, and its token or its
code has not expired. -/
def nonTerminal (now : Time) (bi : BookingInfo) : Bool :=
  decide (bi.DeletedAt = none) && decide (bi.Status = "INITIATED") &&
    (tokenUnexpired now bi || codeUnexpired now bi)

/-- A session that is running at `now`: it is not soft-deleted, has status
`INITIATED`, and its token has not expired. -/
def running (now : Time) (bi : BookingInfo) : Bool :=
  decide (bi.DeletedAt = none) && decide (bi.Status = "INITIATED") && tokenUnexpired now bi

/-! ## Worked examples -/

/-- A store with one confirmed booking of a customer with an address, one
assigned room and one running session. -/
def demoStore : Store :=
  { customers := [{ ID := 1, FullName := "Ann Lee", Email := "ann@example.com" }]
    rooms := [{ ID := 3, RoomNumber := "101", Status := "Reserved" }]
    bookings := [{ ID := 1, CustomerID := 1, ReferenceCode := "BK-1", Status := "Confirmed" }]
    bookingRooms := [{ ID := 1, BookingID := 1, RoomID := 3, Status := "Reserved" }]
    bookingInfos := [{ ID := 1, BookingID := 1, Token := "tok", CheckinCode := "ABCD-1234",
                       Status := "INITIATED", EmailStatus := "SENT", ExpiresAt := some 100,
                       CodeExpiresAt := some 700 }] }

/-- The session of `demoStore`. -/
def demoSession : BookingInfo :=
  { ID := 1, BookingID := 1, Token := "tok", CheckinCode := "ABCD-1234",
    Status := "INITIATED", EmailStatus := "SENT", ExpiresAt := some 100,
    CodeExpiresAt := some 700 }

/-- The booking of `demoStore`. -/
def demoBooking : Booking :=
  { ID := 1, CustomerID := 1, ReferenceCode := "BK-1", Status := "Confirmed" }

/-- Two submitted guests; the second one names another booking. -/
def demoGuests : List Guest :=
  [{ FullName := "Ann Lee", IsMainGuest := true }, { FullName := "Bo Lee", BookingID := some 9 }]

/-- One accepted consent. -/
def demoConsents : List Consent := [{ ID := 7, Slug := "checkin-general" }]

/-- A request at instant 5 during which the driver works. -/
def demoEnv : Env := { now := 5 }

/-- A request at instant 5 during which the insert of the second guest's
consent log fails. -/
def demoEnvFailing : Env :=
  { now := 5
    fault := fun op => if op = DbOp.createConsentLog 1 0 then some "driver: bad connection" else none }

/-- A request at instant 200, after the token of `demoStore` has expired. -/
def demoEnvLate : Env := { now := 200 }

/-- A request at instant 5 with an entropy source that works. -/
def demoEnvInitiate : Env :=
  { now := 5
    tokenNow := fun _ => 6
    codeNow := fun _ => 7
    randRead := fun _ => .ok (fun i => 37 * i + 11)
    randInt := fun _ i => .ok (i * 5 + 3) }

/-- The store `demoStore` before any session was made. -/
def demoStoreFresh : Store := { demoStore with bookingInfos := [] }

/-- The booking of `demoStore` as `InitiateCheckInProcess` loads it. -/
def demoLoaded : LoadedBooking :=
  { row := demoBooking
    Customer := { ID := 1, FullName := "Ann Lee", Email := "ann@example.com" }
    Rooms := [{ ID := 1, BookingID := 1, RoomID := 3, Status := "Reserved" }] }

/-- A store whose only booking has the room of the column `room_id` and no row
in `booking_rooms`, for a customer whose address is blank. -/
def legacyRoomStore : Store :=
  { customers := [{ ID := 1, FullName := "Ann Lee", Email := "  " }]
    rooms := [{ ID := 3, RoomNumber := "101", Status := "Reserved" }]
    bookings := [{ ID := 1, CustomerID := 1, RoomID := some 3, ReferenceCode := "BK-1",
                   Status := "Confirmed" }] }

/-- The store `legacyRoomStore` with the same room assigned through
`booking_rooms`. -/
def assignedRoomStore : Store :=
  { legacyRoomStore with
    bookingRooms := [{ ID := 1, BookingID := 1, RoomID := 3, Status := "Reserved" }] }

/-- The store that `demoStore` becomes through a check-in at instant 5 and a
checkout at instant 50. -/
def checkedOutStore : Store :=
  (CheckoutBooking { now := 50 }
    (FinalizeCheckInTransaction demoEnv demoStore "tok" demoGuests demoConsents).2 1).2

/-- The first request of the example: at instant 5, with the clock readings 6
and 7 for the two expiries. -/
def demoEnvFirst : Env := demoEnvInitiate

/-- The second request of the example: 25 hours after the first one, when the
first token has expired, with another outcome of the entropy source. -/
def demoEnvSecond : Env :=
  { now := 5 + 25 * hour
    tokenNow := fun _ => 6 + 25 * hour
    codeNow := fun _ => 7 + 25 * hour
    randRead := fun _ => .ok (fun i => 91 * i + 5)
    randInt := fun _ i => .ok (i * 7 + 1) }

/-- The store after the two requests for booking 1. -/
def twoSessionsStore : Store :=
  (InitiateCheckInProcess demoEnvSecond
    (InitiateCheckInProcess demoEnvFirst demoStoreFresh 1).store 1).store

/-- The message of MySQL for a violated foreign key. -/
def foreignKeyFailure : String :=
  "Error 1452 (23000): Cannot add or update a child row: a foreign key constraint fails"

/-- A request at instant 5 during which the first insert of the session fails
with the foreign-key message; attempt `k` reads the clock at `6 + k`. -/
def demoEnvForeignKey : Env :=
  { demoEnvInitiate with
    tokenNow := fun k => 6 + k
    fault := fun op => if op = DbOp.createSession 0 then some foreignKeyFailure else none }

/-- A request at instant 5 during which every insert of the session fails with
the foreign-key message. -/
def demoEnvForeignKeyAlways : Env :=
  { demoEnvInitiate with
    fault := fun op =>
      match op with
      | DbOp.createSession _ => some foreignKeyFailure
      | _ => none }

/-- A request at instant 5 during which the first insert of the session fails
with a message that names no constraint. -/
def demoEnvBadConnection : Env :=
  { demoEnvInitiate with
    fault := fun op => if op = DbOp.createSession 0 then some "driver: bad connection" else none }

/-- A request 25 hours after the one of `demoEnvFirst` whose entropy source
repeats the outcome of that request at every attempt. -/
def demoEnvRepeat : Env :=
  { demoEnvInitiate with now := 5 + 25 * hour }

/-- The answer of the handler `InitiateCheckIn` to the outcome of
`InitiateCheckInProcess` for a payload that binds: the status code and, in the
two answers that carry it, the object `data` with the key, the token and the
check-in code of the session (`controllers/booking_controller.go`). -/
def InitiateCheckInAnswer (r : InitiateResult) : Nat × Option (Nat × String × String) :=
  match r.err with
  | some err =>
    if Contains err.Error "booking_not_found" then (404, none)
    else if Contains err.Error "already_checked_in" then (409, none)
    else if Contains err.Error "checkin_already_initiated" then (409, none)
    else if Contains err.Error "booking_checked_out" then (410, none)
    else if Contains err.Error "email_send_failed" then
      (206, some (r.session.ID, r.session.Token, r.session.CheckinCode))
    else (500, none)
  | none => (200, some (r.session.ID, r.session.Token, r.session.CheckinCode))

/-- A request at instant 5 whose mail delivery fails. -/
def demoEnvMailFails : Env :=
  { demoEnvInitiate with mail := some "dial tcp: connection refused" }

/-- The room assignments of a booking that `Preload("Rooms")` reads: the rows
of `booking_rooms` of the booking that are not soft-deleted. -/
def assignmentsOf (s : Store) (bookingID : Nat) : List BookingRoom :=
  s.bookingRooms.filter (fun br => br.BookingID = bookingID ∧ br.DeletedAt = none)

/-- The store a checkout that goes through leaves behind. -/
def checkedOutOf (s : Store) (now : Time) (bookingID : Nat) : Store :=
  { s with
    bookings := s.bookings.map (fun r =>
      if r.ID = bookingID ∧ r.DeletedAt = none then
        { r with Status := "Checked-Out", CheckOut := some now }
      else r)
    bookingInfos := s.bookingInfos.map (fun r =>
      if r.BookingID = bookingID ∧ r.DeletedAt = none then
        { r with ExpiresAt := some now, Status := "EXPIRED" }
      else r)
    rooms := s.rooms.map (fun r =>
      if r.DeletedAt = none ∧ (assignmentsOf s bookingID).any (fun br => br.RoomID = r.ID) then
        { r with Status := "Available" }
      else r) }

/-! ## `VerifyToken` (`controllers/booking_controller.go`) -/

/-- The call `strings.SplitN(s, " ", 2)` when it yields two parts: the text
before the first space and the text after it. -/
def splitFirstSpace : List Char → Option (List Char × List Char)
  | [] => none
  | c :: cs =>
    if c = ' ' then some ([], cs)
    else (splitFirstSpace cs).map (fun p => (c :: p.1, p.2))

/-- The token of a request to `VerifyToken`: the query parameter `token`, or
else the credentials of an `Authorization` header with scheme `Bearer`. An
absent parameter or header is the empty string. -/
def requestToken (query authHeader : String) : String :=
  if query ≠ "" then query
  else if authHeader ≠ "" then
    match splitFirstSpace authHeader.data with
    | some (scheme, rest) => if EqualFold ⟨scheme⟩ "Bearer" then ⟨rest⟩ else ""
    | none => ""
  else ""

/-- The answer of `VerifyToken`: the HTTP status, the code (`error.code` of an
error, the field `status` of a 200) and the two keys of the data of a 200 that
identify the session and the booking. The descriptive fields of the data
(stay, customer, rooms, guests) are not modelled. -/
structure VerifyAnswer where
  status : Nat
  code : String
  bookingInfoId : Nat := 0
  bookingId : Nat := 0
  deriving DecidableEq, Repr

/-- The selection of the booking in `VerifyToken`:
`JOIN booking_infos bi ON bi.booking_id = bookings.id WHERE bi.token = ?` with
the soft-delete scope on `bookings`; the joined table is not scoped. -/
def bookingByToken (s : Store) (token : String) (b : Booking) : Bool :=
  s.bookingInfos.any (fun bi => decide (bi.BookingID = b.ID) && decide (bi.Token = token)) &&
    decide (b.DeletedAt = none)

/-- The handler `VerifyToken` on the query parameter `token` and the header
`Authorization` of the request. The preloads of the booking fail with the
query that carries them. -/
def VerifyToken (env : Env) (s : Store) (query authHeader : String) : VerifyAnswer :=
  let token := requestToken query authHeader
  if token = "" then { status := 400, code := "error.missingToken" }
  else
    let token := TrimSpace token
    let now := env.now
    match queryFirst env .verifySession (s.bookingInfos.find? (sessionByToken token now)) with
    | .error err =>
      if err.isRecordNotFound then { status := 401, code := "error.invalidOrExpiredToken" }
      else { status := 500, code := "error.internal" }
    | .ok bi =>
      match queryFirst env .verifyBooking (s.bookings.find? (bookingByToken s token)) with
      | .error _ => { status := 500, code := "error.bookingFetchFailed" }
      | .ok booking =>
        if EqualFold (TrimSpace booking.Status) "Checked-Out" then
          { status := 410, code := "error.bookingCheckedOut" }
        else if booking.CheckinCompleted ∨ booking.CheckedInAt ≠ none then
          { status := 200, code := "already_checked_in", bookingId := booking.ID }
        else
          { status := 200, code := "success", bookingInfoId := bi.ID, bookingId := bi.BookingID }

/-- The store that `demoStore` becomes through a check-in at instant 5. -/
def checkedInStore : Store :=
  (FinalizeCheckInTransaction demoEnv demoStore "tok" demoGuests demoConsents).2

/-! ## `ValidateCheckinCodeByBooking` (`services/booking_service.go`) -/

/-- The escape character of a MySQL `LIKE` pattern, the backslash. -/
def likeEscape : Char := Char.ofNat 92

/-- The final segments of a list, the list itself first. -/
def tails : List Char → List (List Char)
  | [] => [[]]
  | c :: cs => (c :: cs) :: tails cs

/-- The MySQL operator `s LIKE p` on the characters of pattern and string: `%`
stands for any run of characters, `_` for any one character, and the backslash
makes the character after it stand for itself (a backslash that ends the
pattern stands for itself). Characters are compared exactly. -/
def likeMatch : List Char → List Char → Bool
  | [], s => s.isEmpty
  | c :: p, s =>
    if c = '%' then (tails s).any (fun t => likeMatch p t)
    else if c = '_' then
      match s with
      | [] => false
      | _ :: s1 => likeMatch p s1
    else if c = likeEscape then
      match p with
      | [] => s == [c]
      | d :: p1 =>
        match s with
        | [] => false
        | e :: s1 => e == d && likeMatch p1 s1
    else
      match s with
      | [] => false
      | e :: s1 => e == c && likeMatch p s1

/-- The condition on the code in the validation queries:
`checkin_code = ? OR checkin_code = ?`. -/
def codeIs (c1 c2 : String) (bi : BookingInfo) : Bool :=
  decide (bi.CheckinCode = c1) || decide (bi.CheckinCode = c2)

/-- The condition on booking and customer in `ValidateCheckinCodeByBooking`:
the session joins a booking and its customer (inner joins on the keys, without
soft-delete scope) with
`LOWER(customers.full_name) LIKE '%q%' OR LOWER(bookings.reference_code) = q`. -/
def queryMatches (s : Store) (qLower : String) (bi : BookingInfo) : Bool :=
  s.bookings.any (fun b => decide (b.ID = bi.BookingID) &&
    s.customers.any (fun c => decide (c.ID = b.CustomerID) &&
      (likeMatch ('%' :: qLower.data ++ ['%']) (ToLower c.FullName).data ||
        decide (ToLower b.ReferenceCode = qLower))))

/-- The service `ValidateCheckinCodeByBooking(code, query)`: the session it
returns and the error. The second query of the source, made when nothing is
found, only writes a log line and is not modelled. -/
def ValidateCheckinCodeByBooking (env : Env) (s : Store) (code query : String) :
    BookingInfo × Option GoError :=
  let now := env.now
  let norm := NormalizeCheckinCode code
  if goLen norm.data ≠ 8 then ({}, some (.new "invalid_or_expired_code"))
  else
    let formatted := ToUpper ⟨takeBytes 4 norm.data ++ '-' :: dropBytes 4 norm.data⟩
    let qLower := ToLower (TrimSpace query)
    if qLower = "" then ({}, some (.new "invalid_query"))
    else
      match queryFirst env .validateCode (s.bookingInfos.find? (fun bi =>
          codeIs formatted (ToUpper code) bi && queryMatches s qLower bi &&
            codeUnexpired now bi && decide (bi.DeletedAt = none))) with
      | .error err =>
        if err.isRecordNotFound then ({}, some (.new "invalid_or_expired_code"))
        else ({}, some (.wrap "failed to validate code: " err))
      | .ok bi => (bi, none)

/-- The uncalled handler `BookingController.ValidateCheckinCode` on the result
of the service: the status of its answer. -/
def BookingController.ValidateCheckinCode (err : Option GoError) : Nat :=
  match err with
  | some e =>
    if Contains e.Error "booking_checked_out" then 410
    else if Contains e.Error "invalid_or_expired_code" ∨ Contains e.Error "invalid_or_expired" then
      401
    else 500
  | none => 200

/-! ## The routed validation by code (`services/bookinginfo_service.go`,
`controllers/bookinginfo_controller.go`) -/

/-- The selection shared by the two queries of `FindByCodeWithExpiry`: the
session joins a booking and its customer (inner joins on the keys), carries one
of the two codes and is not soft-deleted. -/
def sessionByCode (s : Store) (c cNo : String) (bi : BookingInfo) : Bool :=
  s.bookings.any (fun b => decide (b.ID = bi.BookingID) &&
    s.customers.any (fun cu => decide (cu.ID = b.CustomerID))) &&
  codeIs c cNo bi && decide (bi.DeletedAt = none)

/-- The service `FindByCodeWithExpiry(code, codeNoDash)`: the session, the flag
`expired` and the error. -/
def FindByCodeWithExpiry (env : Env) (s : Store) (code codeNoDash : String) :
    BookingInfo × Bool × Option GoError :=
  let now := env.now
  let c := ToUpper (TrimSpace code)
  let cNo := ToUpper (TrimSpace codeNoDash)
  match queryFirst env .findCodeActive
      (s.bookingInfos.find? (fun bi => sessionByCode s c cNo bi && codeUnexpired now bi)) with
  | .ok bi => (bi, false, none)
  | .error err =>
    if ¬ err.isRecordNotFound then ({}, false, some err)
    else
      match queryFirst env .findCodeAny (s.bookingInfos.find? (sessionByCode s c cNo)) with
      | .ok any => (any, true, none)
      | .error err2 =>
        if err2.isRecordNotFound then ({}, false, some .recordNotFound)
        else ({}, false, some err2)

/-- The body of a request to `POST /checkin/validate` as bound by
`ShouldBindJSON`; an absent field is the empty string. -/
structure ValidateRequest where
  CheckinCode : String := ""
  Query : String := ""
  deriving DecidableEq, Repr

/-- The answer of `POST /checkin/validate`: the HTTP status and the fields of
the JSON body, `none` for a field that the body does not have. The field
`expiresAt` holds the code expiry as `Format(time.RFC3339)` shows it, to the
second: the number of whole seconds since the epoch, or `none` for JSON null. -/
structure ValidateAnswer where
  status : Nat
  error : Option String := none
  state : Option String := none
  bookingInfoId : Option Nat := none
  bookingId : Option Nat := none
  checkinCode : Option String := none
  token : Option String := none
  expiresAt : Option (Option Nat) := none
  deriving DecidableEq, Repr

/-- The handler `BookingInfoController.ValidateCheckinCode`, routed at
`POST /checkin/validate`; `req` is `none` when the body cannot be bound. -/
def BookingInfoController.ValidateCheckinCode (env : Env) (s : Store)
    (req : Option ValidateRequest) : ValidateAnswer :=
  match req with
  | none => { status := 400, error := some "invalid request" }
  | some req =>
    let codeRaw := TrimSpace req.CheckinCode
    if codeRaw = "" then { status := 400, error := some "checkinCode required" }
    else
      let norm := NormalizeCheckinCode codeRaw
      if goLen norm.data ≠ 8 then { status := 400, error := some "invalid checkin code format" }
      else
        let formatted := ToUpper ⟨takeBytes 4 norm.data ++ '-' :: dropBytes 4 norm.data⟩
        let noDash := ToUpper norm
        match FindByCodeWithExpiry env s formatted noDash with
        | (_, _, some _) => { status := 404, error := some "confirmation code not found" }
        | (bi, true, none) =>
          { status := 410, error := some "confirmation code expired", bookingInfoId := some bi.ID,
            expiresAt := some (bi.CodeExpiresAt.map (fun e => e / 1000000000)) }
        | (bi, false, none) =>
          { status := 200, state := some "ok", bookingInfoId := some bi.ID,
            bookingId := some bi.BookingID, checkinCode := some bi.CheckinCode,
            token := some bi.Token }

/-! ## `ExtendExpiry` (`services/bookinginfo_service.go`) -/

/-- The value of a Go `int64` computation: the representative of `n` modulo
`2^64` in the range of the type. -/
def int64 (n : Int) : Int := (n + 2 ^ 63) % 2 ^ 64 - 2 ^ 63

/-- The constant `time.Minute` in nanoseconds. -/
def minute : Nat := 60 * 1000000000

/-- The service `ExtendExpiry(bookingInfoId, minutes)`: the new expiry it
returns, the error and the store it leaves. `Save` rewrites the row under the
key of the session that was read; for a session with key zero it inserts a row,
which the unique index on the token of the row read refuses. An instant before
the epoch is shown as 0. -/
def ExtendExpiry (env : Env) (s : Store) (bookingInfoId : Nat) (minutes : Int) :
    Option Time × Option GoError × Store :=
  match queryFirst env .extendFind (s.bookingInfos.find? (fun bi =>
      decide (bi.ID = bookingInfoId) && decide (bi.DeletedAt = none))) with
  | .error err => (none, some err, s)
  | .ok bi =>
    let newExpiry := ((env.now : Int) + int64 (int64 minutes * minute)).toNat
    let bi1 := { bi with CodeExpiresAt := some newExpiry }
    match dbFault env .extendSave with
    | .error err => (none, some err, s)
    | .ok _ =>
      if bi1.ID = 0 then (none, some (duplicateEntry "booking_infos.idx_booking_infos_token"), s)
      else
        (some newExpiry, none,
          { s with bookingInfos := s.bookingInfos.map (fun r =>
              if r.ID = bi1.ID ∧ r.DeletedAt = none then bi1 else r) })

/-- The store that `demoStoreFresh` becomes through the request `demoEnvInitiate`
for booking 1: it holds the session that the request has made. -/
def invitedStore : Store := (InitiateCheckInProcess demoEnvInitiate demoStoreFresh 1).store

/-! ## The format test of a check-in code (`utils/checkin_utils.go`) -/

/-- The character class `[A-Za-z0-9]`. -/
def isAlnum (c : Char) : Bool :=
  ('A'.toNat ≤ c.toNat && c.toNat ≤ 'Z'.toNat) || ('a'.toNat ≤ c.toNat && c.toNat ≤ 'z'.toNat) ||
    ('0'.toNat ≤ c.toNat && c.toNat ≤ '9'.toNat)

/-- The function `IsValidCheckinCodeFormat(code)`: the trimmed code matches
`^[A-Za-z0-9]{8}$` or `^[A-Za-z0-9]{4}-[A-Za-z0-9]{4}$`. -/
def IsValidCheckinCodeFormat (code : String) : Bool :=
  if code = "" then false
  else
    let c := (TrimSpace code).data
    let match1 := c.length == 8 && c.all isAlnum
    let match2 := c.length == 9 && (c.take 4).all isAlnum && c.getD 4 ' ' == '-' &&
      (c.drop 5).all isAlnum
    match1 || match2

/-- The store `checkedInStore` with a second session of its booking that has a
usable token and status `INITIATED`, as a request to `POST /booking-info`
(`SaveBookingInfo`) stores it. -/
def staleSessionStore : Store :=
  { checkedInStore with
    bookingInfos := checkedInStore.bookingInfos ++
      [{ ID := 2, BookingID := 1, Token := "tok2", CheckinCode := "WXYZ-5678",
         Status := "INITIATED", EmailStatus := "SENT", ExpiresAt := some 100,
         CodeExpiresAt := some 700 }] }

/-- A character that stands for itself in a `LIKE` pattern. -/
def isLikeLiteral (c : Char) : Bool := c ≠ '%' && c ≠ '_' && c ≠ likeEscape

/-- The store `demoStore` with the code of its session kept without hyphen, the
way `BookingInfoService.InitiateCheckIn` stores the 8 characters of
`GenerateCheckinCode` and the way a request to `POST /booking-info` can store
them. -/
def plainCodeStore : Store :=
  { demoStore with bookingInfos := [{ demoSession with CheckinCode := "ABCD1234" }] }

/-! ## `calculateNights` (`controllers/booking_controller.go`) -/

/-- The number of binary digits of `n`, counted with `fuel` halvings at most. -/
def bitLengthAux : Nat → Nat → Nat
  | 0, _ => 0
  | fuel + 1, n => if n = 0 then 0 else bitLengthAux fuel (n / 2) + 1

/-- The number of binary digits of `n`. -/
def bitLength (n : Nat) : Nat := bitLengthAux n n

/-- A finite `float64` that is not negative: the number `num / 2 ^ exp`. -/
structure Float64 where
  num : Nat
  exp : Nat
  deriving DecidableEq, Repr

/-- The `float64` nearest to the quotient `n / d` of two natural numbers
(`d` positive), ties to the even significand, as IEEE 754 prescribes for
conversions and arithmetic: the quotient is scaled by `2 ^ k` so that its whole
part `q` has at least 55 binary digits, the significand `m` is the leading 53
digits of `q`, and it is rounded up when the digits cut off, together with the
remainder `r` of the division, exceed half a unit of `m`, or equal it and `m` is
odd. Overflow and subnormal numbers are out of the range used here. -/
def roundRatio (n d : Nat) : Float64 :=
  if n = 0 then ⟨0, 0⟩
  else
    let k := 55 + bitLength d - bitLength n
    let q := n * 2 ^ k / d
    let r := n * 2 ^ k % d
    let sh := bitLength q - 53
    let m := q / 2 ^ sh
    let rem := q % 2 ^ sh
    let half := 2 ^ (sh - 1)
    let up := decide (half < rem) || (decide (rem = half) && (decide (r ≠ 0) || decide (m % 2 = 1)))
    ⟨(m + if up then 1 else 0) * 2 ^ sh, k⟩

namespace Float64

/-- The conversion `float64(n)` of an integer that is not negative. -/
def ofNat (n : Nat) : Float64 := roundRatio n 1

/-- The sum `a + b` of two `float64`. -/
def add (a b : Float64) : Float64 :=
  roundRatio (a.num * 2 ^ b.exp + b.num * 2 ^ a.exp) (2 ^ (a.exp + b.exp))

/-- The quotient `a / b` of two `float64`, `b` not zero. -/
def div (a b : Float64) : Float64 :=
  roundRatio (a.num * 2 ^ b.exp) (b.num * 2 ^ a.exp)

/-- The conversion `int(a)`: the whole part. -/
def toInt (a : Float64) : Int := ((a.num / 2 ^ a.exp : Nat) : Int)

end Float64

/-- The method `Duration.Hours` of the Go library on a duration of `d`
nanoseconds, `d` not negative:
`float64(d / Hour) + float64(d % Hour) / (60 * 60 * 1e9)`. -/
def Hours (d : Nat) : Float64 :=
  (Float64.ofNat (d / hour)).add ((Float64.ofNat (d % hour)).div (Float64.ofNat 3600000000000))

/-- The largest `time.Duration`, `1<<63 - 1` nanoseconds. -/
def maxDuration : Nat := 2 ^ 63 - 1

/-- The function `calculateNights(checkIn, checkOut)`. The method `Sub` yields
the difference of the two instants, or the largest duration when the difference
exceeds it. -/
def calculateNights (checkIn checkOut : Option Time) : Int :=
  match checkIn, checkOut with
  | some ci, some co =>
    if co < ci then 0
    else
      let diff := (Hours (min (co - ci) maxDuration)).div (Float64.ofNat 24)
      let nights := diff.toInt
      if nights ≤ 0 then 1 else nights
  | _, _ => 0
/-- The rational number that a `float64` stands for. -/
def Float64.val (a : Float64) : ℚ := (a.num : ℚ) / 2 ^ a.exp

/-! ## The code helpers on text outside ASCII (`utils/checkin_utils.go`) -/

/-- The UTF-8 encoding of a character, as a list of bytes. -/
def utf8EncodeChar (c : Char) : List Nat :=
  let v := c.toNat
  if v ≤ 0x7F then [v]
  else if v ≤ 0x7FF then [0xC0 + v / 0x40, 0x80 + v % 0x40]
  else if v ≤ 0xFFFF then [0xE0 + v / 0x1000, 0x80 + v / 0x40 % 0x40, 0x80 + v % 0x40]
  else [0xF0 + v / 0x40000, 0x80 + v / 0x1000 % 0x40, 0x80 + v / 0x40 % 0x40, 0x80 + v % 0x40]

/-- The bytes of the Go string that holds the text `s`. -/
def utf8Encode (s : List Char) : List Nat := s.flatMap utf8EncodeChar

/-- The function `unicode.ToUpper` of the Go library. A character of ASCII is
mapped by the code of the function itself (`a`-`z` move down by 32, the others
stay); every other character is looked up in the case table of the library
(`unicode.To(unicode.UpperCase, r)`), which is not part of the repository and
enters as the parameter `upper`. -/
def unicodeToUpper (upper : Char → Char) (c : Char) : Char :=
  if c.toNat ≤ 0x7F then
    if 'a'.toNat ≤ c.toNat ∧ c.toNat ≤ 'z'.toNat then Char.ofNat (c.toNat - 32) else c
  else upper c

/-- Go `strings.ToUpper` on any text, with the case table `upper` of the
library: every character is mapped by `unicode.ToUpper`. -/
def ToUpperWith (upper : Char → Char) (s : String) : String :=
  ⟨s.data.map (unicodeToUpper upper)⟩

/-- The function `GenerateFormattedCheckinCode(raw)` on any text, with the case
table `upper` of the library. The result is a Go string given by its bytes:
`len(raw)` counts the bytes of the UTF-8 encoding, and `raw[:4]` and `raw[4:]`
cut that encoding after its fourth byte, also where that byte lies inside a
character. -/
def GenerateFormattedCheckinCodeWith (upper : Char → Char) (raw : String) :
    Except GoError (List Nat) :=
  let raw1 := ToUpperWith upper (TrimSpace raw)
  let raw2 := utf8Encode (raw1.data.filter (fun c => c ≠ '-'))
  if raw2.length ≠ 8 then .error (.new "raw must be length 8")
  else .ok (raw2.take 4 ++ '-'.toNat :: raw2.drop 4)

/-- The function `NormalizeCheckinCode(code)` on any text, with the case table
`upper` of the library: of the upper-cased, trimmed text the characters of
`[A-Z0-9]` stay. -/
def NormalizeCheckinCodeWith (upper : Char → Char) (code : String) : String :=
  ⟨(ToUpperWith upper (TrimSpace code)).data.filter isUpperAlnum⟩

/-- A case table that holds the entry of `unicode.CaseRanges` for U+0250, whose
upper-case form is U+2C6F, and no other. -/
def upperTurnedA (c : Char) : Char := if c.toNat = 0x250 then Char.ofNat 0x2C6F else c

/-! # Properties -/

/-! ## Effects of the store primitives -/

theorem createGuest_ok (env : Env) (i : Nat) (tx tx1 : Store) (g row : Guest)
    (h : createGuest env i tx g = .ok (tx1, row)) :
    tx1 = { tx with guests := tx.guests ++ [row] } ∧ row = { g with ID := row.ID } := by
  unfold createGuest at h
  split at h
  · simp at h
  · split at h
    · simp only [Except.ok.injEq, Prod.mk.injEq] at h
      obtain ⟨rfl, rfl⟩ := h
      exact ⟨rfl, rfl⟩
    · split at h
      · simp [duplicateEntry] at h
      · simp only [Except.ok.injEq, Prod.mk.injEq] at h
        obtain ⟨rfl, rfl⟩ := h
        exact ⟨rfl, rfl⟩

theorem insertGuests_ok (env : Env) (bid : Nat) :
    ∀ (guests : List Guest) (i : Nat) (tx : Store) (ids : List Nat) (tx2 : Store)
      (ids2 : List Nat), insertGuests env bid guests i tx ids = .ok (tx2, ids2) →
      ∃ rows : List Guest,
        tx2 = { tx with guests := tx.guests ++ rows } ∧
        ids2 = ids ++ rows.map (fun r => r.ID) ∧
        List.Forall₂ (fun g r => r = { g with ID := r.ID, BookingID := some bid }) guests rows := by
  intro guests
  induction guests with
  | nil =>
    intro i tx ids tx2 ids2 h
    simp only [insertGuests, Except.ok.injEq, Prod.mk.injEq] at h
    obtain ⟨rfl, rfl⟩ := h
    exact ⟨[], by simp, by simp, List.Forall₂.nil⟩
  | cons g gs ih =>
    intro i tx ids tx2 ids2 h
    unfold insertGuests at h
    cases hc : createGuest env i tx { g with BookingID := some bid } with
    | error e => simp [hc] at h
    | ok p =>
      obtain ⟨tx1, row⟩ := p
      simp only [hc] at h
      obtain ⟨rows, h1, h2, h3⟩ := ih (i + 1) tx1 (ids ++ [row.ID]) tx2 ids2 h
      obtain ⟨e1, e2⟩ := createGuest_ok env i tx tx1 _ row hc
      refine ⟨row :: rows, ?_, ?_, List.Forall₂.cons ?_ h3⟩
      · rw [h1, e1]; simp
      · rw [h2]; simp
      · rw [e2]

theorem createConsentLog_ok (env : Env) (i j : Nat) (tx tx1 : Store) (l : ConsentLog)
    (h : createConsentLog env i j tx l = .ok tx1) :
    ∃ row : ConsentLog, tx1 = { tx with consentLogs := tx.consentLogs ++ [row] } ∧
      row = { l with ID := row.ID } := by
  unfold createConsentLog at h
  split at h
  · simp at h
  · simp only [Except.ok.injEq] at h
    exact ⟨_, h.symm, rfl⟩

theorem insertConsentLogsFor_ok (env : Env) (bid : Nat) (now : Time) (i gid : Nat) :
    ∀ (consents : List Consent) (j : Nat) (tx tx1 : Store),
      insertConsentLogsFor env bid now i gid consents j tx = .ok tx1 →
      ∃ logs : List ConsentLog,
        tx1 = { tx with consentLogs := tx.consentLogs ++ logs } ∧
        List.Forall₂ (fun c l => l = { consentLogFor bid now gid c with ID := l.ID })
          consents logs := by
  intro consents
  induction consents with
  | nil =>
    intro j tx tx1 h
    simp only [insertConsentLogsFor, Except.ok.injEq] at h
    subst h
    exact ⟨[], by simp, List.Forall₂.nil⟩
  | cons c cs ih =>
    intro j tx tx1 h
    unfold insertConsentLogsFor at h
    split at h
    · simp at h
    · rename_i tx0 hc
      obtain ⟨logs, h1, h2⟩ := ih (j + 1) tx0 tx1 h
      obtain ⟨row, e1, e2⟩ := createConsentLog_ok env i j tx tx0 _ hc
      refine ⟨row :: logs, ?_, List.Forall₂.cons ?_ h2⟩
      · rw [h1, e1]; simp
      · exact e2

theorem insertConsentLogs_ok (env : Env) (bid : Nat) (now : Time) (consents : List Consent) :
    ∀ (gids : List Nat) (i : Nat) (tx tx1 : Store),
      insertConsentLogs env bid now consents gids i tx = .ok tx1 →
      ∃ logs : List ConsentLog,
        tx1 = { tx with consentLogs := tx.consentLogs ++ logs } ∧
        List.Forall₂ (fun t l => l = { t with ID := l.ID })
          (gids.flatMap (fun gid => consents.map (consentLogFor bid now gid))) logs := by
  intro gids
  induction gids with
  | nil =>
    intro i tx tx1 h
    simp only [insertConsentLogs, Except.ok.injEq] at h
    subst h
    exact ⟨[], by simp, by simp⟩
  | cons gid gids ih =>
    intro i tx tx1 h
    unfold insertConsentLogs at h
    split at h
    · simp at h
    · rename_i tx0 hc
      obtain ⟨logs, h1, h2⟩ := ih (i + 1) tx0 tx1 h
      obtain ⟨logs0, e1, e2⟩ := insertConsentLogsFor_ok env bid now i gid consents 0 tx tx0 hc
      refine ⟨logs0 ++ logs, ?_, ?_⟩
      · rw [h1, e1]; simp
      · rw [List.flatMap_cons]
        exact List.rel_append (List.forall₂_map_left_iff.mpr e2) h2

theorem updateByID_ok {α : Type} (env : Env) (op : DbOp) (getID : α → Nat)
    (getDeleted : α → Option Time) (id : Nat) (f : α → α) (rows rows1 : List α)
    (h : updateByID env op getID getDeleted id f rows = .ok rows1) :
    id ≠ 0 ∧ rows1 = rows.map (fun r => if getID r = id ∧ getDeleted r = none then f r else r) := by
  unfold updateByID at h
  split at h
  · simp at h
  · split at h
    · simp at h
    · rename_i hid
      simp only [Except.ok.injEq] at h
      exact ⟨hid, h.symm⟩

theorem queryFirst_ok {α : Type} (env : Env) (op : DbOp) (found : Option α) (row : α)
    (h : queryFirst env op found = .ok row) : found = some row := by
  unfold queryFirst at h
  split at h
  · simp at h
  · split at h
    · simp only [Except.ok.injEq] at h; subst h; rfl
    · simp at h

theorem bookingByID_id {id : Nat} {b : Booking} {l : List Booking}
    (h : l.find? (bookingByID id) = some b) : b.ID = id ∧ b.DeletedAt = none := by
  have := List.find?_some h
  simpa [bookingByID] using this

/-- The three ways in which the transaction body of a check-in returns nil. -/
theorem finalizeBody_ok (env : Env) (token : String) (guests : List Guest)
    (consents : List Consent) (tx tx1 : Store)
    (h : finalizeBody env token guests consents tx = .ok tx1) :
    ∃ bi, tx.bookingInfos.find? (sessionByToken token env.now) = some bi ∧
      ((bi.Status = "COMPLETED" ∧ tx1 = tx) ∨
       (bi.Status ≠ "COMPLETED" ∧
        ∃ b, tx.bookings.find? (bookingByID bi.BookingID) = some b ∧
          (((b.CheckedInAt ≠ none ∨ b.CheckinCompleted = true) ∧ tx1 = tx) ∨
           (b.CheckedInAt = none ∧ b.CheckinCompleted = false ∧
            ∃ rows logs,
              List.Forall₂ (fun g r => r = { g with ID := r.ID, BookingID := some bi.BookingID })
                guests rows ∧
              List.Forall₂ (fun t l => l = { t with ID := l.ID })
                ((rows.map (fun r => r.ID)).flatMap
                  (fun gid => consents.map (consentLogFor bi.BookingID env.now gid))) logs ∧
              tx1 = finalizedStore tx env.now bi guests.length rows logs)))) := by
  unfold finalizeBody at h
  simp only at h
  split at h
  · split at h <;> simp at h
  · rename_i bi hbi
    refine ⟨bi, queryFirst_ok _ _ _ _ hbi, ?_⟩
    split at h
    · rename_i hst
      simp only [Except.ok.injEq] at h
      exact Or.inl ⟨hst, h.symm⟩
    · rename_i hst
      refine Or.inr ⟨hst, ?_⟩
      split at h
      · simp at h
      · rename_i b hb
        have hb1 := queryFirst_ok _ _ _ _ hb
        refine ⟨b, hb1, ?_⟩
        obtain ⟨hbid, -⟩ := bookingByID_id hb1
        split at h
        · rename_i hchk
          simp only [Except.ok.injEq] at h
          exact Or.inl ⟨hchk, h.symm⟩
        · rename_i hchk
          have hchk1 : b.CheckedInAt = none ∧ b.CheckinCompleted = false := by
            constructor
            · by_contra hc; exact hchk (Or.inl hc)
            · cases hcc : b.CheckinCompleted with
              | false => rfl
              | true => exact absurd (Or.inr hcc) hchk
          refine Or.inr ⟨hchk1.1, hchk1.2, ?_⟩
          split at h
          · simp at h
          · rename_i bookings1 hu
            obtain ⟨-, hu1⟩ := updateByID_ok _ _ _ _ _ _ _ _ hu
            split at h
            · simp at h
            · rename_i tx2 ids hg
              obtain ⟨rows, g1, g2, g3⟩ := insertGuests_ok _ _ _ _ _ _ _ _ hg
              split at h
              · simp at h
              · rename_i tx3 hl
                obtain ⟨logs, l1, l2⟩ := insertConsentLogs_ok _ _ _ _ _ _ _ _ hl
                split at h
                · simp at h
                · rename_i infos1 hs
                  obtain ⟨-, hs1⟩ := updateByID_ok _ _ _ _ _ _ _ _ hs
                  simp only [Except.ok.injEq] at h
                  refine ⟨rows, logs, g3, ?_, ?_⟩
                  · simpa [g2] using l2
                  · subst h
                    rw [hs1, l1, g1, hu1, hbid]
                    rfl

/-! ## The transaction wrapper -/

theorem Transaction_error (env : Env) (s : Store) (fc : Store → Except GoError Store)
    (err : GoError) (h : (Transaction env s fc).1 = some err) : (Transaction env s fc).2 = s := by
  unfold Transaction at h ⊢
  split
  · rfl
  · split
    · rfl
    · split
      · rfl
      · rename_i h1 _ _ h2 _ h3
        simp [h1, h2, h3] at h

theorem Transaction_ok (env : Env) (s : Store) (fc : Store → Except GoError Store)
    (h : (Transaction env s fc).1 = none) : fc s = .ok (Transaction env s fc).2 := by
  unfold Transaction at h ⊢
  split
  · rename_i h1; simp [h1] at h
  · rename_i h1
    split
    · rename_i h2; simp [h1, h2] at h
    · rename_i tx h2
      split
      · rename_i h3; simp [h1, h2, h3] at h
      · exact h2

theorem Transaction_of_ok (env : Env) (s tx : Store) (fc : Store → Except GoError Store)
    (hb : env.fault .begin = none) (hc : env.fault .commit = none) (h : fc s = .ok tx) :
    Transaction env s fc = (none, tx) := by
  simp [Transaction, hb, hc, h]

theorem Transaction_snd (env : Env) (s : Store) (fc : Store → Except GoError Store) :
    (Transaction env s fc).2 = s ∨ fc s = .ok (Transaction env s fc).2 := by
  cases h : (Transaction env s fc).1 with
  | none => exact Or.inr (Transaction_ok env s fc h)
  | some err => exact Or.inl (Transaction_error env s fc err h)

/-- C4: `FinalizeCheckInTransaction` is atomic. Whenever the call returns an error,
whichever step raised it (the booking update, a guest insert, a consent-log
insert, the session update or the commit), the store it leaves is the store
it started from. -/
theorem FinalizeCheckInTransaction_atomic (env : Env) (s : Store) (token : String)
    (guests : List Guest) (consents : List Consent) (err : GoError)
    (h : (FinalizeCheckInTransaction env s token guests consents).1 = some err) :
    (FinalizeCheckInTransaction env s token guests consents).2 = s :=
  Transaction_error env s _ err h

/-! ## Looking a session up by its token -/

theorem tokenUnexpired_mono {now now2 : Time} {bi : BookingInfo} (h : now ≤ now2)
    (h2 : tokenUnexpired now2 bi = true) : tokenUnexpired now bi = true := by
  unfold tokenUnexpired at h2 ⊢
  cases he : bi.ExpiresAt with
  | none => rfl
  | some e =>
    rw [he] at h2
    simp only [decide_eq_true_eq] at h2 ⊢
    exact Nat.lt_of_le_of_lt h h2

theorem sessionByToken_mono {token : String} {now now2 : Time} {bi : BookingInfo}
    (h : now ≤ now2) (h2 : sessionByToken token now2 bi = true) :
    sessionByToken token now bi = true := by
  unfold sessionByToken at h2 ⊢
  simp only [Bool.and_eq_true] at h2 ⊢
  exact ⟨⟨h2.1.1, tokenUnexpired_mono h h2.1.2⟩, h2.2⟩

/-- A session found at `now` whose token is still usable at a later instant is
the session found at that instant. -/
theorem find_session_later {token : String} {now now2 : Time} {bi : BookingInfo}
    (hle : now ≤ now2) (hun : tokenUnexpired now2 bi = true) :
    ∀ (l : List BookingInfo), l.find? (sessionByToken token now) = some bi →
      l.find? (sessionByToken token now2) = some bi := by
  intro l
  induction l with
  | nil => intro h; simp at h
  | cons r rs ih =>
    intro h
    rw [List.find?_cons] at h ⊢
    cases hr : sessionByToken token now r with
    | true =>
      rw [hr] at h
      simp only [Option.some.injEq] at h
      subst h
      have : sessionByToken token now2 r = true := by
        unfold sessionByToken at hr ⊢
        simp only [Bool.and_eq_true] at hr ⊢
        exact ⟨⟨hr.1.1, hun⟩, hr.2⟩
      rw [this]
    | false =>
      rw [hr] at h
      have : sessionByToken token now2 r = false := by
        cases h2 : sessionByToken token now2 r with
        | false => rfl
        | true => rw [sessionByToken_mono hle h2] at hr; exact absurd hr (by simp)
      rw [this]
      exact ih h

/-- Completing a session does not move it in the look-up by token. -/
theorem find_session_completed (token : String) (now : Time) (id : Nat) :
    ∀ (l : List BookingInfo) (bi : BookingInfo),
      l.find? (sessionByToken token now) = some bi →
      (l.map (fun r => if r.ID = id ∧ r.DeletedAt = none then { r with Status := "COMPLETED" }
        else r)).find? (sessionByToken token now) =
        some (if bi.ID = id ∧ bi.DeletedAt = none then { bi with Status := "COMPLETED" } else bi) := by
  intro l
  induction l with
  | nil => intro bi h; simp at h
  | cons r rs ih =>
    intro bi h
    rw [List.map_cons, List.find?_cons]
    rw [List.find?_cons] at h
    have hp : sessionByToken token now
        (if r.ID = id ∧ r.DeletedAt = none then { r with Status := "COMPLETED" } else r) =
        sessionByToken token now r := by
      split <;> rfl
    rw [hp]
    cases hr : sessionByToken token now r with
    | true =>
      rw [hr] at h
      simp only [Option.some.injEq] at h
      subst h
      rfl
    | false =>
      rw [hr] at h
      exact ih bi h

theorem sessionByToken_deleted {token : String} {now : Time} {bi : BookingInfo}
    {l : List BookingInfo} (h : l.find? (sessionByToken token now) = some bi) :
    bi.DeletedAt = none := by
  have := List.find?_some h
  unfold sessionByToken at this
  simp only [Bool.and_eq_true, decide_eq_true_eq] at this
  exact this.2

/-- A check-in transaction that meets a completed session, or a booking that is
already checked in, writes nothing, and returns nil when the driver works. -/
theorem finalizeBody_noop (env : Env) (token : String) (guests : List Guest)
    (consents : List Consent) (tx : Store) (bi : BookingInfo)
    (hbi : tx.bookingInfos.find? (sessionByToken token env.now) = some bi)
    (hdone : bi.Status = "COMPLETED" ∨
      ∃ b, tx.bookings.find? (bookingByID bi.BookingID) = some b ∧
        (b.CheckedInAt ≠ none ∨ b.CheckinCompleted = true)) :
    (∀ tx1, finalizeBody env token guests consents tx = .ok tx1 → tx1 = tx) ∧
    (env.NoFault → finalizeBody env token guests consents tx = .ok tx) := by
  constructor
  · intro tx1 h
    obtain ⟨bi1, h1, h2⟩ := finalizeBody_ok env token guests consents tx tx1 h
    rw [hbi] at h1
    simp only [Option.some.injEq] at h1
    subst h1
    rcases h2 with ⟨-, h3⟩ | ⟨hst, b, hb, h3⟩
    · exact h3
    · rcases h3 with ⟨-, h4⟩ | ⟨hn, hf, -⟩
      · exact h4
      · rcases hdone with hd | ⟨b2, hb2, hd⟩
        · exact absurd hd hst
        · rw [hb] at hb2
          simp only [Option.some.injEq] at hb2
          subst hb2
          rcases hd with hd | hd
          · exact absurd hn hd
          · rw [hf] at hd; exact absurd hd (by simp)
  · intro hnf
    unfold finalizeBody
    simp only [queryFirst, hnf _, hbi]
    by_cases hst : bi.Status = "COMPLETED"
    · simp [hst]
    · rcases hdone with hd | ⟨b, hb, hd⟩
      · exact absurd hd hst
      · simp only [hst, if_false, hb]
        simp [hd]

/-- C1: `FinalizeCheckInTransaction` is idempotent. If a first call with a
token succeeds, then a second call with that token, made later while the token
of the session is still unexpired, writes nothing: whatever guests and consents
it submits and whatever the driver does, the store stays the one the first call
left, so the booking has as many guest rows and consent-log rows as after the
first call; and with a working driver the second call returns success. -/
theorem FinalizeCheckInTransaction_idempotent (env env2 : Env) (s : Store) (token : String)
    (guests guests2 : List Guest) (consents consents2 : List Consent) (bi : BookingInfo)
    (hfirst : (FinalizeCheckInTransaction env s token guests consents).1 = none)
    (hbi : s.bookingInfos.find? (sessionByToken token env.now) = some bi)
    (hlater : env.now ≤ env2.now)
    (hunexpired : tokenUnexpired env2.now bi = true) :
    (FinalizeCheckInTransaction env2
        (FinalizeCheckInTransaction env s token guests consents).2 token guests2 consents2).2 =
      (FinalizeCheckInTransaction env s token guests consents).2 ∧
    (env2.NoFault →
      (FinalizeCheckInTransaction env2
        (FinalizeCheckInTransaction env s token guests consents).2 token guests2 consents2).1 =
        none) ∧
    ((FinalizeCheckInTransaction env2
        (FinalizeCheckInTransaction env s token guests consents).2 token guests2
        consents2).2.guests.filter (fun g => g.BookingID = some bi.BookingID)).length =
      ((FinalizeCheckInTransaction env s token guests consents).2.guests.filter
        (fun g => g.BookingID = some bi.BookingID)).length ∧
    ((FinalizeCheckInTransaction env2
        (FinalizeCheckInTransaction env s token guests consents).2 token guests2
        consents2).2.consentLogs.filter (fun l => l.BookingID = some bi.BookingID)).length =
      ((FinalizeCheckInTransaction env s token guests consents).2.consentLogs.filter
        (fun l => l.BookingID = some bi.BookingID)).length := by
  have hbody := Transaction_ok env s _ hfirst
  generalize hs1 : (FinalizeCheckInTransaction env s token guests consents).2 = s1
  change finalizeBody env token guests consents s =
    .ok (FinalizeCheckInTransaction env s token guests consents).2 at hbody
  rw [hs1] at hbody
  -- the second call meets a completed session or a booking that is checked in
  have hnoop : ∃ bi2, s1.bookingInfos.find? (sessionByToken token env2.now) = some bi2 ∧
      (bi2.Status = "COMPLETED" ∨
        ∃ b, s1.bookings.find? (bookingByID bi2.BookingID) = some b ∧
          (b.CheckedInAt ≠ none ∨ b.CheckinCompleted = true)) := by
    obtain ⟨bi1, h1, h2⟩ := finalizeBody_ok env token guests consents s s1 hbody
    rw [hbi] at h1
    simp only [Option.some.injEq] at h1
    subst h1
    rcases h2 with ⟨hst, h3⟩ | ⟨hst, b, hb, h3⟩
    · subst h3
      exact ⟨bi, find_session_later hlater hunexpired _ hbi, Or.inl hst⟩
    · rcases h3 with ⟨hchk, h4⟩ | ⟨-, -, rows, logs, -, -, h4⟩
      · subst h4
        exact ⟨bi, find_session_later hlater hunexpired _ hbi, Or.inr ⟨b, hb, hchk⟩⟩
      · subst h4
        have hf := find_session_completed token env2.now bi.ID s.bookingInfos bi
          (find_session_later hlater hunexpired _ hbi)
        rw [if_pos ⟨rfl, sessionByToken_deleted hbi⟩] at hf
        exact ⟨_, hf, Or.inl rfl⟩
  obtain ⟨bi2, hbi2, hdone⟩ := hnoop
  obtain ⟨hw, hr⟩ := finalizeBody_noop env2 token guests2 consents2 s1 bi2 hbi2 hdone
  have hstore : (FinalizeCheckInTransaction env2 s1 token guests2 consents2).2 = s1 := by
    rcases Transaction_snd env2 s1 (finalizeBody env2 token guests2 consents2) with h | h
    · exact h
    · exact hw _ h
  refine ⟨hstore, ?_, by rw [hstore], by rw [hstore]⟩
  intro hnf
  have := Transaction_of_ok env2 s1 s1 _ (hnf _) (hnf _) (hr hnf)
  unfold FinalizeCheckInTransaction
  rw [this]

theorem find_map_preserved {α : Type} (p : α → Bool) (f : α → α) (hp : ∀ a, p (f a) = p a)
    (l : List α) : (l.map f).find? p = (l.find? p).map f := by
  rw [List.find?_map]
  have : p ∘ f = p := funext hp
  rw [this]

/-- What a successful call leaves when it meets a session that is not completed
and a booking that is not checked in. -/
theorem FinalizeCheckInTransaction_ok (env : Env) (s : Store) (token : String)
    (guests : List Guest) (consents : List Consent) (bi : BookingInfo) (b : Booking)
    (hbi : s.bookingInfos.find? (sessionByToken token env.now) = some bi)
    (hst : bi.Status ≠ "COMPLETED")
    (hb : s.bookings.find? (bookingByID bi.BookingID) = some b)
    (hat : b.CheckedInAt = none) (hflag : b.CheckinCompleted = false)
    (hok : (FinalizeCheckInTransaction env s token guests consents).1 = none) :
    ∃ rows logs,
      List.Forall₂ (fun g r => r = { g with ID := r.ID, BookingID := some bi.BookingID })
        guests rows ∧
      List.Forall₂ (fun t l => l = { t with ID := l.ID })
        ((rows.map (fun r => r.ID)).flatMap
          (fun gid => consents.map (consentLogFor bi.BookingID env.now gid))) logs ∧
      (FinalizeCheckInTransaction env s token guests consents).2 =
        finalizedStore s env.now bi guests.length rows logs := by
  have hbody := Transaction_ok env s _ hok
  obtain ⟨bi1, h1, h2⟩ := finalizeBody_ok env token guests consents s _ hbody
  rw [hbi] at h1
  simp only [Option.some.injEq] at h1
  subst h1
  rcases h2 with ⟨hc, -⟩ | ⟨-, b1, hb1, h3⟩
  · exact absurd hc hst
  · rw [hb] at hb1
    simp only [Option.some.injEq] at hb1
    subst hb1
    rcases h3 with ⟨hchk, -⟩ | ⟨-, -, rows, logs, hr, hl, he⟩
    · rcases hchk with hchk | hchk
      · exact absurd hat hchk
      · rw [hflag] at hchk; exact absurd hchk (by simp)
    · exact ⟨rows, logs, hr, hl, he⟩

theorem insertGuests_succeeds (env : Env) (hnf : env.NoFault) (bid : Nat) :
    ∀ (guests : List Guest), (∀ g ∈ guests, g.ID = 0) → ∀ (i : Nat) (tx : Store) (ids : List Nat),
      ∃ r, insertGuests env bid guests i tx ids = .ok r := by
  intro guests
  induction guests with
  | nil => intro _ i tx ids; exact ⟨_, rfl⟩
  | cons g gs ih =>
    intro hk i tx ids
    have hg : g.ID = 0 := hk g (List.mem_cons_self _ _)
    unfold insertGuests
    simp only [createGuest, hnf _, hg, if_true]
    exact ih (fun x hx => hk x (List.mem_cons_of_mem _ hx)) _ _ _

theorem insertConsentLogsFor_succeeds (env : Env) (hnf : env.NoFault) (bid : Nat) (now : Time)
    (i gid : Nat) : ∀ (consents : List Consent) (j : Nat) (tx : Store),
      ∃ r, insertConsentLogsFor env bid now i gid consents j tx = .ok r := by
  intro consents
  induction consents with
  | nil => intro j tx; exact ⟨_, rfl⟩
  | cons c cs ih =>
    intro j tx
    unfold insertConsentLogsFor
    simp only [createConsentLog, hnf _]
    exact ih _ _

theorem insertConsentLogs_succeeds (env : Env) (hnf : env.NoFault) (bid : Nat) (now : Time)
    (consents : List Consent) : ∀ (gids : List Nat) (i : Nat) (tx : Store),
      ∃ r, insertConsentLogs env bid now consents gids i tx = .ok r := by
  intro gids
  induction gids with
  | nil => intro i tx; exact ⟨_, rfl⟩
  | cons gid gids ih =>
    intro i tx
    unfold insertConsentLogs
    obtain ⟨r, hr⟩ := insertConsentLogsFor_succeeds env hnf bid now i gid consents 0 tx
    rw [hr]
    exact ih _ _

/-- With a working driver, a check-in that meets a running session and a booking
that is not checked in succeeds when no submitted guest carries a key. -/
theorem FinalizeCheckInTransaction_succeeds (env : Env) (s : Store) (token : String)
    (guests : List Guest) (consents : List Consent) (bi : BookingInfo) (b : Booking)
    (hbi : s.bookingInfos.find? (sessionByToken token env.now) = some bi)
    (hst : bi.Status ≠ "COMPLETED")
    (hb : s.bookings.find? (bookingByID bi.BookingID) = some b)
    (hat : b.CheckedInAt = none) (hflag : b.CheckinCompleted = false)
    (hnf : env.NoFault) (hkeys : ∀ g ∈ guests, g.ID = 0) (hid : bi.ID ≠ 0)
    (hbid : bi.BookingID ≠ 0) :
    (FinalizeCheckInTransaction env s token guests consents).1 = none := by
  have hbID : b.ID = bi.BookingID := (bookingByID_id hb).1
  obtain ⟨r1, h1⟩ := insertGuests_succeeds env hnf bi.BookingID guests hkeys 0
    { s with bookings := s.bookings.map (fun r =>
        if r.ID = bi.BookingID ∧ r.DeletedAt = none then checkedIn env.now guests.length r
        else r) } []
  obtain ⟨r2, h2⟩ := insertConsentLogs_succeeds env hnf bi.BookingID env.now consents r1.2 0 r1.1
  have hbody : ∃ tx, finalizeBody env token guests consents s = .ok tx := by
    unfold finalizeBody
    simp only [queryFirst, hnf _, hbi, hst, if_false, hb, hat, hflag, updateByID, hbID, hbid]
    simp only [ne_eq, not_true_eq_false, Bool.false_eq_true, or_self, ↓reduceIte]
    unfold checkedIn at h1
    rw [h1]
    simp only [h2, hid, if_false]
    exact ⟨_, rfl⟩
  obtain ⟨tx, htx⟩ := hbody
  have := Transaction_of_ok env s tx _ (hnf _) (hnf _) htx
  unfold FinalizeCheckInTransaction
  rw [this]

/-- C4, on an example: the insert of the last consent log fails after the
booking update, two guest inserts and one consent-log insert were done, the
call returns the driver error and the store is the one before the call. -/
theorem FinalizeCheckInTransaction_atomic_witness :
    (FinalizeCheckInTransaction demoEnvFailing demoStore "tok" demoGuests demoConsents).1 =
      some (.driver "driver: bad connection") ∧
    (FinalizeCheckInTransaction demoEnvFailing demoStore "tok" demoGuests demoConsents).2 =
      demoStore :=
  ⟨by decide, FinalizeCheckInTransaction_atomic demoEnvFailing demoStore "tok" demoGuests
    demoConsents (.driver "driver: bad connection") (by decide)⟩

/-- C1, on an example: a check-in with two guests and one consent succeeds at
instant 5; the same request repeated at instant 9 leaves the store as it is. -/
theorem FinalizeCheckInTransaction_idempotent_witness :
    (FinalizeCheckInTransaction demoEnv demoStore "tok" demoGuests demoConsents).1 = none ∧
    (FinalizeCheckInTransaction { now := 9 }
        (FinalizeCheckInTransaction demoEnv demoStore "tok" demoGuests demoConsents).2 "tok"
        demoGuests demoConsents).2 =
      (FinalizeCheckInTransaction demoEnv demoStore "tok" demoGuests demoConsents).2 :=
  ⟨by decide,
    (FinalizeCheckInTransaction_idempotent demoEnv { now := 9 } demoStore "tok" demoGuests
      demoGuests demoConsents demoConsents demoSession (by decide) (by decide) (by decide)
      (by decide)).1⟩

/-- C2: what a successful check-in writes. For a token whose session is found
unexpired and is not completed, and whose booking has neither a check-in
timestamp nor the completed flag, and for every list of submitted guests (the
empty one included): a call that returns success leaves the booking with status
`Checked-In`, `check_in` and `checked_in_at` equal to now, the completed flag
set and `number_of_guests` equal to the number of submitted guests; it appends
exactly one guest row per submitted guest, equal to the submitted guest but for
its key and bound to the booking of the session whatever booking the guest
named; and it leaves the session with status `COMPLETED`. With a working driver,
a session and a booking whose keys are not zero and submitted guests that carry
no key, the call does return success. -/
theorem FinalizeCheckInTransaction_checks_in (env : Env) (s : Store) (token : String)
    (guests : List Guest) (consents : List Consent) (bi : BookingInfo) (b : Booking)
    (hbi : s.bookingInfos.find? (sessionByToken token env.now) = some bi)
    (hst : bi.Status ≠ "COMPLETED")
    (hb : s.bookings.find? (bookingByID bi.BookingID) = some b)
    (hat : b.CheckedInAt = none) (hflag : b.CheckinCompleted = false) :
    ((FinalizeCheckInTransaction env s token guests consents).1 = none →
      ∃ rows : List Guest,
        (FinalizeCheckInTransaction env s token guests consents).2.bookings.find?
            (bookingByID bi.BookingID) =
          some { b with Status := "Checked-In", CheckIn := some env.now,
                        CheckedInAt := some env.now, CheckinCompleted := true,
                        NumberOfGuests := (guests.length : Int) } ∧
        (FinalizeCheckInTransaction env s token guests consents).2.guests = s.guests ++ rows ∧
        rows.length = guests.length ∧
        List.Forall₂ (fun g r => r = { g with ID := r.ID, BookingID := some bi.BookingID })
          guests rows ∧
        (FinalizeCheckInTransaction env s token guests consents).2.bookingInfos.find?
            (sessionByToken token env.now) = some { bi with Status := "COMPLETED" }) ∧
    (env.NoFault → (∀ g ∈ guests, g.ID = 0) → bi.ID ≠ 0 → bi.BookingID ≠ 0 →
      (FinalizeCheckInTransaction env s token guests consents).1 = none) := by
  refine ⟨fun hok => ?_, fun hnf hkeys hid hbid =>
    FinalizeCheckInTransaction_succeeds env s token guests consents bi b hbi hst hb hat hflag
      hnf hkeys hid hbid⟩
  obtain ⟨rows, logs, hr, -, he⟩ :=
    FinalizeCheckInTransaction_ok env s token guests consents bi b hbi hst hb hat hflag hok
  refine ⟨rows, ?_, ?_, hr.length_eq.symm, hr, ?_⟩
  · rw [he]
    unfold finalizedStore
    simp only
    rw [find_map_preserved, hb]
    · simp only [Option.map_some']
      rw [if_pos (bookingByID_id hb)]
      rfl
    · intro a
      unfold bookingByID checkedIn
      split <;> rfl
  · rw [he]; rfl
  · rw [he]
    unfold finalizedStore
    simp only
    have := find_session_completed token env.now bi.ID s.bookingInfos bi hbi
    rw [if_pos ⟨rfl, sessionByToken_deleted hbi⟩] at this
    exact this

/-- C2, on an example: the check-in of `demoStore` with two guests. -/
theorem FinalizeCheckInTransaction_checks_in_witness :
    (FinalizeCheckInTransaction demoEnv demoStore "tok" demoGuests demoConsents).1 = none ∧
    ∃ rows : List Guest,
      (FinalizeCheckInTransaction demoEnv demoStore "tok" demoGuests demoConsents).2.bookings.find?
          (bookingByID 1) =
        some { demoBooking with Status := "Checked-In", CheckIn := some 5, CheckedInAt := some 5,
                                CheckinCompleted := true, NumberOfGuests := 2 } ∧
      (FinalizeCheckInTransaction demoEnv demoStore "tok" demoGuests demoConsents).2.guests =
        demoStore.guests ++ rows ∧
      rows.length = 2 ∧
      List.Forall₂ (fun g r => r = { g with ID := r.ID, BookingID := some 1 }) demoGuests rows ∧
      (FinalizeCheckInTransaction demoEnv demoStore "tok" demoGuests demoConsents).2.bookingInfos.find?
          (sessionByToken "tok" 5) = some { demoSession with Status := "COMPLETED" } :=
  ⟨by decide,
    (FinalizeCheckInTransaction_checks_in demoEnv demoStore "tok" demoGuests demoConsents
      demoSession demoBooking (by decide) (by decide) (by decide) (by decide) (by decide)).1
      (by decide)⟩

/-- C3: the consent logs of a successful first check-in. For `N` submitted
guests and `M` consents the call appends exactly `N * M` consent-log rows: in
the order of the inserted guests and, for each guest, of the consents, one row
per pair, which but for its key is the entry with the booking of the session,
the key given to the guest row, the key of the consent, status `accepted` and
`accepted_at` equal to now. -/
theorem FinalizeCheckInTransaction_consent_logs (env : Env) (s : Store) (token : String)
    (guests : List Guest) (consents : List Consent) (bi : BookingInfo) (b : Booking)
    (hbi : s.bookingInfos.find? (sessionByToken token env.now) = some bi)
    (hst : bi.Status ≠ "COMPLETED")
    (hb : s.bookings.find? (bookingByID bi.BookingID) = some b)
    (hat : b.CheckedInAt = none) (hflag : b.CheckinCompleted = false)
    (hok : (FinalizeCheckInTransaction env s token guests consents).1 = none) :
    ∃ (rows : List Guest) (logs : List ConsentLog),
      (FinalizeCheckInTransaction env s token guests consents).2.guests = s.guests ++ rows ∧
      rows.length = guests.length ∧
      (FinalizeCheckInTransaction env s token guests consents).2.consentLogs =
        s.consentLogs ++ logs ∧
      logs.length = guests.length * consents.length ∧
      List.Forall₂ (fun t l => l = { t with ID := l.ID })
        ((rows.map (fun r => r.ID)).flatMap (fun gid => consents.map (fun c =>
          ({ BookingID := some bi.BookingID, ConsentID := c.ID, GuestID := some gid,
             AcceptedAt := env.now, Status := "accepted" } : ConsentLog)))) logs := by
  obtain ⟨rows, logs, hr, hl, he⟩ :=
    FinalizeCheckInTransaction_ok env s token guests consents bi b hbi hst hb hat hflag hok
  refine ⟨rows, logs, by rw [he]; rfl, hr.length_eq.symm, by rw [he]; rfl, ?_, hl⟩
  have h1 := hl.length_eq
  rw [← h1, hr.length_eq]
  clear h1 hl hr he
  induction rows with
  | nil => simp
  | cons r rs ih =>
    simp only [List.map_cons, List.flatMap_cons, List.length_append, List.length_map,
      List.length_cons, ih]
    rw [Nat.add_mul, Nat.one_mul, Nat.add_comm]

/-- C3, on an example: two guests and one consent give two consent-log rows. -/
theorem FinalizeCheckInTransaction_consent_logs_witness :
    ∃ (rows : List Guest) (logs : List ConsentLog),
      (FinalizeCheckInTransaction demoEnv demoStore "tok" demoGuests demoConsents).2.guests =
        demoStore.guests ++ rows ∧
      rows.length = 2 ∧
      (FinalizeCheckInTransaction demoEnv demoStore "tok" demoGuests demoConsents).2.consentLogs =
        demoStore.consentLogs ++ logs ∧
      logs.length = 2 * 1 ∧
      List.Forall₂ (fun t l => l = { t with ID := l.ID })
        ((rows.map (fun r => r.ID)).flatMap (fun gid => demoConsents.map (fun c =>
          ({ BookingID := some 1, ConsentID := c.ID, GuestID := some gid,
             AcceptedAt := 5, Status := "accepted" } : ConsentLog)))) logs :=
  FinalizeCheckInTransaction_consent_logs demoEnv demoStore "tok" demoGuests demoConsents
    demoSession demoBooking (by decide) (by decide) (by decide) (by decide) (by decide)
    (by decide)

theorem noUsableSession_iff (s : Store) (token : String) (now : Time) :
    NoUsableSession s token now ↔ s.bookingInfos.find? (sessionByToken token now) = none := by
  rw [List.find?_eq_none]
  unfold NoUsableSession
  refine forall_congr' (fun bi => imp_congr_right (fun _ => not_congr ?_))
  unfold sessionByToken tokenUnexpired
  by_cases hd : bi.DeletedAt = none <;> by_cases ht : bi.Token = token
  all_goals cases he : bi.ExpiresAt with
    | none => simp [hd, ht]
    | some e => simp [hd, ht]

theorem queryFirst_error {α : Type} (env : Env) (op : DbOp) (found : Option α) (err : GoError)
    (h : queryFirst env op found = .error err) :
    (err = .recordNotFound ∧ found = none ∧ env.fault op = none) ∨
      ∃ msg, env.fault op = some msg ∧ err = .driver msg := by
  unfold queryFirst at h
  split at h
  · rename_i msg hm
    simp only [Except.error.injEq] at h
    exact Or.inr ⟨msg, hm, h.symm⟩
  · rename_i hm
    split at h
    · simp at h
    · simp only [Except.error.injEq] at h
      exact Or.inl ⟨h.symm, rfl, hm⟩

theorem updateByID_error {α : Type} (env : Env) (op : DbOp) (getID : α → Nat)
    (getDeleted : α → Option Time) (id : Nat) (f : α → α) (rows : List α) (err : GoError)
    (h : updateByID env op getID getDeleted id f rows = .error err) : FromDriver env err := by
  unfold updateByID at h
  split at h
  · rename_i msg hm
    simp only [Except.error.injEq] at h
    exact Or.inr (Or.inr (Or.inr ⟨op, msg, hm, h.symm⟩))
  · split at h
    · simp only [Except.error.injEq] at h
      exact Or.inr (Or.inl h.symm)
    · simp at h

theorem insertGuests_error (env : Env) (bid : Nat) :
    ∀ (guests : List Guest) (i : Nat) (tx : Store) (ids : List Nat) (err : GoError),
      insertGuests env bid guests i tx ids = .error err → FromDriver env err := by
  intro guests
  induction guests with
  | nil => intro i tx ids err h; simp [insertGuests] at h
  | cons g gs ih =>
    intro i tx ids err h
    unfold insertGuests at h
    split at h
    · rename_i e hc
      simp only [Except.error.injEq] at h
      subst h
      unfold createGuest at hc
      split at hc
      · rename_i msg hm
        simp only [Except.error.injEq] at hc
        exact Or.inr (Or.inr (Or.inr ⟨_, msg, hm, hc.symm⟩))
      · split at hc
        · simp at hc
        · split at hc
          · simp only [Except.error.injEq] at hc
            exact Or.inr (Or.inr (Or.inl hc.symm))
          · simp at hc
    · exact ih _ _ _ _ h

theorem insertConsentLogsFor_error (env : Env) (bid : Nat) (now : Time) (i gid : Nat) :
    ∀ (consents : List Consent) (j : Nat) (tx : Store) (err : GoError),
      insertConsentLogsFor env bid now i gid consents j tx = .error err → FromDriver env err := by
  intro consents
  induction consents with
  | nil => intro j tx err h; simp [insertConsentLogsFor] at h
  | cons c cs ih =>
    intro j tx err h
    unfold insertConsentLogsFor at h
    split at h
    · rename_i e hc
      simp only [Except.error.injEq] at h
      subst h
      unfold createConsentLog at hc
      split at hc
      · rename_i msg hm
        simp only [Except.error.injEq] at hc
        exact Or.inr (Or.inr (Or.inr ⟨_, msg, hm, hc.symm⟩))
      · simp at hc
    · exact ih _ _ _ h

theorem insertConsentLogs_error (env : Env) (bid : Nat) (now : Time) (consents : List Consent) :
    ∀ (gids : List Nat) (i : Nat) (tx : Store) (err : GoError),
      insertConsentLogs env bid now consents gids i tx = .error err → FromDriver env err := by
  intro gids
  induction gids with
  | nil => intro i tx err h; simp [insertConsentLogs] at h
  | cons gid gids ih =>
    intro i tx err h
    unfold insertConsentLogs at h
    split at h
    · rename_i e hc
      simp only [Except.error.injEq] at h
      subst h
      exact insertConsentLogsFor_error _ _ _ _ _ _ _ _ _ hc
    · exact ih _ _ _ h

/-- The errors of the transaction body of a check-in: the sentinel of a missing
session, or an error of the driver. -/
theorem finalizeBody_error (env : Env) (token : String) (guests : List Guest)
    (consents : List Consent) (tx : Store) (err : GoError)
    (h : finalizeBody env token guests consents tx = .error err) :
    (err = .new "invalid_or_expired_token" ∧
      tx.bookingInfos.find? (sessionByToken token env.now) = none) ∨
    FromDriver env err := by
  unfold finalizeBody at h
  simp only at h
  split at h
  · rename_i e he
    rcases queryFirst_error _ _ _ _ he with ⟨h1, h2, -⟩ | ⟨msg, hm, h1⟩
    · subst h1
      simp only [GoError.isRecordNotFound, if_true, Except.error.injEq] at h
      exact Or.inl ⟨h.symm, h2⟩
    · subst h1
      simp only [GoError.isRecordNotFound, Bool.false_eq_true, if_false, Except.error.injEq] at h
      exact Or.inr (Or.inr (Or.inr (Or.inr ⟨_, msg, hm, h.symm⟩)))
  · split at h
    · simp at h
    · split at h
      · rename_i e he
        simp only [Except.error.injEq] at h
        subst h
        rcases queryFirst_error _ _ _ _ he with ⟨h1, -, -⟩ | ⟨msg, hm, h1⟩
        · exact Or.inr (Or.inl h1)
        · exact Or.inr (Or.inr (Or.inr (Or.inr ⟨_, msg, hm, h1⟩)))
      · split at h
        · simp at h
        · split at h
          · rename_i e he
            simp only [Except.error.injEq] at h
            subst h
            exact Or.inr (updateByID_error _ _ _ _ _ _ _ _ he)
          · split at h
            · rename_i e he
              simp only [Except.error.injEq] at h
              subst h
              exact Or.inr (insertGuests_error _ _ _ _ _ _ _ he)
            · split at h
              · rename_i e he
                simp only [Except.error.injEq] at h
                subst h
                exact Or.inr (insertConsentLogs_error _ _ _ _ _ _ _ _ he)
              · split at h
                · rename_i e he
                  simp only [Except.error.injEq] at h
                  subst h
                  exact Or.inr (updateByID_error _ _ _ _ _ _ _ _ he)
                · simp at h

theorem Transaction_some (env : Env) (s : Store) (fc : Store → Except GoError Store)
    (err : GoError) (h : (Transaction env s fc).1 = some err) :
    fc s = .error err ∨ ∃ op msg, env.fault op = some msg ∧ err = .driver msg := by
  unfold Transaction at h
  split at h
  · rename_i msg hm
    simp only [Option.some.injEq] at h
    exact Or.inr ⟨_, msg, hm, h.symm⟩
  · split at h
    · rename_i e he
      simp only [Option.some.injEq] at h
      subst h
      exact Or.inl he
    · split at h
      · rename_i msg hm
        simp only [Option.some.injEq] at h
        exact Or.inr ⟨_, msg, hm, h.symm⟩
      · simp at h

/-- The errors of `FinalizeCheckInTransaction`. -/
theorem FinalizeCheckInTransaction_error (env : Env) (s : Store) (token : String)
    (guests : List Guest) (consents : List Consent) (err : GoError)
    (h : (FinalizeCheckInTransaction env s token guests consents).1 = some err) :
    (err = .new "invalid_or_expired_token" ∧ NoUsableSession s token env.now) ∨
    FromDriver env err := by
  rcases Transaction_some env s _ err h with hb | hd
  · rcases finalizeBody_error env token guests consents s err hb with ⟨h1, h2⟩ | h1
    · exact Or.inl ⟨h1, (noUsableSession_iff s token env.now).mpr h2⟩
    · exact Or.inr h1
  · exact Or.inr (Or.inr (Or.inr (Or.inr hd)))

/-- C5: the missing or expired token. `FinalizeCheckInTransaction` fails with
`invalid_or_expired_token` only if no session that is not soft-deleted carries
the token with a token expiry that is null or later than now, and then nothing
is written; it does fail so whenever there is no such session and the driver
works while the transaction begins and looks the session up. `ConfirmCheckIn`
answers that error with 401, and every other error of the call with 500 as long
as no message of a driver failure contains the text `invalid_or_expired_token`. -/
theorem FinalizeCheckInTransaction_invalid_token (env : Env) (s : Store) (token : String)
    (guests : List Guest) (consents : List Consent) :
    ((FinalizeCheckInTransaction env s token guests consents).1 =
        some (.new "invalid_or_expired_token") →
      NoUsableSession s token env.now ∧
      (FinalizeCheckInTransaction env s token guests consents).2 = s) ∧
    (env.fault .begin = none → env.fault .findSessionByToken = none →
      NoUsableSession s token env.now →
      (FinalizeCheckInTransaction env s token guests consents).1 =
        some (.new "invalid_or_expired_token")) ∧
    ConfirmCheckIn (some (.new "invalid_or_expired_token")) = 401 ∧
    (∀ err, (FinalizeCheckInTransaction env s token guests consents).1 = some err →
      err ≠ .new "invalid_or_expired_token" →
      (∀ op msg, env.fault op = some msg → Contains msg "invalid_or_expired_token" = false) →
      ConfirmCheckIn (some err) = 500) := by
  refine ⟨fun h => ⟨?_, Transaction_error env s _ _ h⟩, ?_, by decide, ?_⟩
  · rcases FinalizeCheckInTransaction_error env s token guests consents _ h with ⟨-, h1⟩ | h1
    · exact h1
    · rcases h1 with h1 | h1 | h1 | ⟨op, msg, -, h1⟩
      · exact absurd h1 (by decide)
      · exact absurd h1 (by decide)
      · exact absurd h1 (by decide)
      · exact absurd h1 (by simp)
  · intro hb hf hno
    have hnone := (noUsableSession_iff s token env.now).mp hno
    unfold FinalizeCheckInTransaction Transaction finalizeBody
    simp [hb, queryFirst, hf, hnone, GoError.isRecordNotFound]
  · intro err h hne hclean
    rcases FinalizeCheckInTransaction_error env s token guests consents _ h with ⟨h1, -⟩ | h1
    · exact absurd h1 hne
    · rcases h1 with h1 | h1 | h1 | ⟨op, msg, hm, h1⟩
      · subst h1; decide
      · subst h1; decide
      · subst h1; decide
      · subst h1
        have := hclean op msg hm
        simp [ConfirmCheckIn, GoError.Error, this]

/-- C5, on an example: at instant 200 the token of `demoStore` has expired; the
call fails with `invalid_or_expired_token`, writes nothing and is answered 401. -/
theorem FinalizeCheckInTransaction_invalid_token_witness :
    (FinalizeCheckInTransaction demoEnvLate demoStore "tok" demoGuests demoConsents).1 =
      some (.new "invalid_or_expired_token") ∧
    NoUsableSession demoStore "tok" 200 ∧
    (FinalizeCheckInTransaction demoEnvLate demoStore "tok" demoGuests demoConsents).2 =
      demoStore ∧
    ConfirmCheckIn
      (FinalizeCheckInTransaction demoEnvLate demoStore "tok" demoGuests demoConsents).1 = 401 :=
  ⟨by decide,
    ((FinalizeCheckInTransaction_invalid_token demoEnvLate demoStore "tok" demoGuests
      demoConsents).1 (by decide)).1,
    ((FinalizeCheckInTransaction_invalid_token demoEnvLate demoStore "tok" demoGuests
      demoConsents).1 (by decide)).2, by decide⟩

/-! ## The generators -/

theorem hexDigits_getD_mem : ∀ i, i < 16 → hexDigits.getD i '0' ∈ hexDigits := by decide

theorem hexEncode_length : ∀ bs : List Nat, (hexEncode bs).length = 2 * bs.length
  | [] => rfl
  | b :: bs => by
    simp only [hexEncode, List.length_cons, hexEncode_length bs]
    omega

theorem hexEncode_mem : ∀ (bs : List Nat) (c : Char), c ∈ hexEncode bs → c ∈ hexDigits
  | [], c, h => by simp [hexEncode] at h
  | b :: bs, c, h => by
    simp only [hexEncode, List.mem_cons] at h
    rcases h with h | h | h
    · rw [h]; exact hexDigits_getD_mem _ (Nat.mod_lt _ (by decide))
    · rw [h]; exact hexDigits_getD_mem _ (Nat.mod_lt _ (by decide))
    · exact hexEncode_mem bs c h

/-- A token made from 32 bytes has 64 characters, all of them lower-case
hexadecimal digits. -/
theorem GenerateSecureToken_ok (rd : Except String (Nat → Nat)) (token : String)
    (h : GenerateSecureToken 32 rd = .ok token) :
    token.length = 64 ∧ ∀ c ∈ token.data, c ∈ hexDigits := by
  unfold GenerateSecureToken at h
  simp only [show ¬((32 : Int) ≤ 0) by decide, if_false] at h
  split at h
  · simp at h
  · simp only [Except.ok.injEq] at h
    subst h
    refine ⟨?_, fun c hc => hexEncode_mem _ c hc⟩
    show (hexEncode _).length = 64
    rw [hexEncode_length]
    simp

theorem checkinCharset_getD_mem : ∀ i, i < 36 → checkinCharset.getD i 'A' ∈ checkinCharset := by
  decide

theorem generateCodeLoop_ok (draw : Nat → Except String Nat) :
    ∀ (k i : Nat) (sb out : List Char), generateCodeLoop draw k i sb = .ok out →
      ∃ tail : List Char, out = sb ++ tail ∧ tail.length = k ∧ ∀ c ∈ tail, c ∈ checkinCharset := by
  intro k
  induction k with
  | zero =>
    intro i sb out h
    simp only [generateCodeLoop, Except.ok.injEq] at h
    exact ⟨[], by simp [h], rfl, by simp⟩
  | succ k ih =>
    intro i sb out h
    unfold generateCodeLoop at h
    split at h
    · simp at h
    · rename_i num _
      obtain ⟨tail, h1, h2, h3⟩ := ih _ _ _ h
      refine ⟨checkinCharset.getD (num % 36) 'A' :: tail, by simp [h1], by simp [h2], ?_⟩
      intro c hc
      rcases List.mem_cons.mp hc with hc | hc
      · rw [hc]; exact checkinCharset_getD_mem _ (Nat.mod_lt _ (by decide))
      · exact h3 c hc

/-- A code of 8 draws has 8 characters of the alphabet `A`-`Z`, `0`-`9`. -/
theorem GenerateCheckinCode_ok (draw : Nat → Except String Nat) (raw : String)
    (h : GenerateCheckinCode 8 draw = .ok raw) :
    raw.data.length = 8 ∧ ∀ c ∈ raw.data, c ∈ checkinCharset := by
  unfold GenerateCheckinCode at h
  simp only [show ¬((8 : Int) ≤ 0) by decide, if_false] at h
  split at h
  · simp at h
  · rename_i sb hsb
    simp only [Except.ok.injEq] at h
    subst h
    obtain ⟨tail, h1, h2, h3⟩ := generateCodeLoop_ok draw _ _ _ _ hsb
    simp only [List.nil_append] at h1
    subst h1
    exact ⟨by simpa using h2, h3⟩

theorem checkinCharset_facts : ∀ c ∈ checkinCharset,
    isSpace c = false ∧ toUpperChar c = c ∧ c ≠ '-' ∧ c.utf8Size = 1 ∧ isUpperAlnum c = true := by
  decide

theorem trimSpaceChars_id (l : List Char) (h : ∀ c ∈ l, isSpace c = false) :
    trimSpaceChars l = l := by
  have hd : ∀ l : List Char, (∀ c ∈ l, isSpace c = false) → l.dropWhile isSpace = l := by
    intro l hl
    cases l with
    | nil => rfl
    | cons a t => simp [List.dropWhile, hl a (List.mem_cons_self _ _)]
  unfold trimSpaceChars
  rw [hd l h, hd l.reverse (fun c hc => h c (List.mem_reverse.mp hc)), List.reverse_reverse]

theorem takeBytes_ascii : ∀ (n : Nat) (l : List Char), (∀ c ∈ l, c.utf8Size = 1) →
    takeBytes n l = l.take n
  | n, [], _ => by simp [takeBytes]
  | 0, c :: cs, h => by
    have := h c (List.mem_cons_self _ _)
    simp [takeBytes, this]
  | n + 1, c :: cs, h => by
    have h1 := h c (List.mem_cons_self _ _)
    simp only [takeBytes, h1, Nat.le_add_left, if_true, Nat.add_sub_cancel, List.take_succ_cons]
    rw [takeBytes_ascii n cs (fun x hx => h x (List.mem_cons_of_mem _ hx))]

theorem dropBytes_ascii : ∀ (n : Nat) (l : List Char), (∀ c ∈ l, c.utf8Size = 1) →
    dropBytes n l = l.drop n
  | n, [], _ => by simp [dropBytes]
  | 0, c :: cs, h => by
    have := h c (List.mem_cons_self _ _)
    simp [dropBytes, this]
  | n + 1, c :: cs, h => by
    have h1 := h c (List.mem_cons_self _ _)
    simp only [dropBytes, h1, Nat.le_add_left, if_true, Nat.add_sub_cancel, List.drop_succ_cons]
    rw [dropBytes_ascii n cs (fun x hx => h x (List.mem_cons_of_mem _ hx))]

theorem goLen_ascii (l : List Char) (h : ∀ c ∈ l, c.utf8Size = 1) : goLen l = l.length := by
  unfold goLen
  induction l with
  | nil => rfl
  | cons a t ih =>
    simp only [List.map_cons, List.sum_cons, List.length_cons,
      h a (List.mem_cons_self _ _), ih (fun x hx => h x (List.mem_cons_of_mem _ hx))]
    omega

theorem map_eq_self {α : Type} (f : α → α) (l : List α) (h : ∀ a ∈ l, f a = a) :
    l.map f = l := by
  induction l with
  | nil => rfl
  | cons a t ih =>
    rw [List.map_cons, h a (List.mem_cons_self _ _),
      ih (fun x hx => h x (List.mem_cons_of_mem _ hx))]

/-- The formatted form of 8 characters of the alphabet: the first four, a
hyphen, the last four; its normal form is the 8 characters again. -/
theorem GenerateFormattedCheckinCode_ok (raw : String) (h8 : raw.data.length = 8)
    (hc : ∀ c ∈ raw.data, c ∈ checkinCharset) :
    GenerateFormattedCheckinCode raw = .ok ⟨raw.data.take 4 ++ '-' :: raw.data.drop 4⟩ ∧
    NormalizeCheckinCode ⟨raw.data.take 4 ++ '-' :: raw.data.drop 4⟩ = raw := by
  have hsp : ∀ c ∈ raw.data, isSpace c = false := fun c h => (checkinCharset_facts c (hc c h)).1
  have hup : ∀ c ∈ raw.data, toUpperChar c = c :=
    fun c h => (checkinCharset_facts c (hc c h)).2.1
  have hhy : ∀ c ∈ raw.data, c ≠ '-' := fun c h => (checkinCharset_facts c (hc c h)).2.2.1
  have hsz : ∀ c ∈ raw.data, c.utf8Size = 1 :=
    fun c h => (checkinCharset_facts c (hc c h)).2.2.2.1
  have hal : ∀ c ∈ raw.data, isUpperAlnum c = true :=
    fun c h => (checkinCharset_facts c (hc c h)).2.2.2.2
  constructor
  · unfold GenerateFormattedCheckinCode ToUpper TrimSpace
    simp only [trimSpaceChars_id _ hsp, map_eq_self _ _ hup]
    have hf : raw.data.filter (fun c => decide (c ≠ '-')) = raw.data :=
      List.filter_eq_self.mpr (fun c h => by simpa using hhy c h)
    rw [hf, goLen_ascii _ hsz, h8, takeBytes_ascii _ _ hsz, dropBytes_ascii _ _ hsz]
    simp
  · unfold NormalizeCheckinCode ToUpper TrimSpace
    have hsp2 : ∀ c ∈ raw.data.take 4 ++ '-' :: raw.data.drop 4, isSpace c = false := by
      intro c h
      rcases List.mem_append.mp h with h | h
      · exact hsp c (List.mem_of_mem_take h)
      · rcases List.mem_cons.mp h with h | h
        · rw [h]; decide
        · exact hsp c (List.mem_of_mem_drop h)
    have hup2 : ∀ c ∈ raw.data.take 4 ++ '-' :: raw.data.drop 4, toUpperChar c = c := by
      intro c h
      rcases List.mem_append.mp h with h | h
      · exact hup c (List.mem_of_mem_take h)
      · rcases List.mem_cons.mp h with h | h
        · rw [h]; decide
        · exact hup c (List.mem_of_mem_drop h)
    simp only [trimSpaceChars_id _ hsp2, map_eq_self _ _ hup2]
    rw [List.filter_append, List.filter_cons]
    have h1 : (raw.data.take 4).filter isUpperAlnum = raw.data.take 4 :=
      List.filter_eq_self.mpr (fun c h => hal c (List.mem_of_mem_take h))
    have h2 : (raw.data.drop 4).filter isUpperAlnum = raw.data.drop 4 :=
      List.filter_eq_self.mpr (fun c h => hal c (List.mem_of_mem_drop h))
    rw [h1, h2, show isUpperAlnum '-' = false by decide]
    simp

/-! ## Effects of `InitiateCheckInProcess` -/

theorem createBookingInfo_ok (env : Env) (attempt : Nat) (s s1 : Store) (bi row : BookingInfo)
    (h : createBookingInfo env attempt s bi = .ok (s1, row)) :
    env.fault (.createSession attempt) = none ∧
    s1 = { s with bookingInfos := s.bookingInfos ++ [row] } ∧
    row = { bi with ID := nextID (s.bookingInfos.map (fun r => r.ID)) } ∧
    (∀ r ∈ s.bookingInfos, r.Token ≠ bi.Token) ∧
    (∀ r ∈ s.bookingInfos, r.CheckinCode ≠ bi.CheckinCode) := by
  unfold createBookingInfo at h
  split at h
  · simp at h
  · rename_i hf
    split at h
    · simp at h
    · rename_i ht
      split at h
      · simp at h
      · rename_i hc
        simp only [Except.ok.injEq, Prod.mk.injEq] at h
        obtain ⟨h1, h2⟩ := h
        refine ⟨hf, ?_, h2.symm, ?_, ?_⟩
        · rw [← h1, ← h2]
        · simpa using ht
        · simpa using hc

/-- A session handed back by the retry loop was built and inserted at one of
its attempts. -/
theorem createWithRetries_ok (env : Env) (booking : LoadedBooking) (bookingID : Nat) :
    ∀ (n attempt : Nat) (createErr : Option GoError) (s s1 : Store) (bi : BookingInfo),
      createWithRetries env booking bookingID n attempt createErr s = .ok (bi, s1) →
      (n = 0 ∧ createErr = none ∧ bi = {} ∧ s1 = s) ∨
      ∃ k token raw formatted, attempt ≤ k ∧ k < attempt + n ∧
        GenerateSecureToken 32 (env.randRead k) = .ok token ∧
        GenerateCheckinCode 8 (env.randInt k) = .ok raw ∧
        GenerateFormattedCheckinCode raw = .ok formatted ∧
        createBookingInfo env k s (newSession env booking bookingID k token formatted) =
          .ok (s1, bi) := by
  intro n
  induction n with
  | zero =>
    intro attempt createErr s s1 bi h
    unfold createWithRetries at h
    split at h
    · simp at h
    · simp only [Except.ok.injEq, Prod.mk.injEq] at h
      exact Or.inl ⟨rfl, rfl, h.1.symm, h.2.symm⟩
  | succ n ih =>
    intro attempt createErr s s1 bi h
    right
    unfold createWithRetries at h
    split at h
    · simp at h
    · rename_i token ht
      split at h
      · simp at h
      · rename_i raw hr
        split at h
        · simp at h
        · rename_i formatted hf
          split at h
          · rename_i s2 row hc
            simp only [Except.ok.injEq, Prod.mk.injEq] at h
            obtain ⟨h1, h2⟩ := h
            subst h1 h2
            exact ⟨attempt, token, raw, formatted, Nat.le_refl _, by omega, ht, hr, hf, hc⟩
          · split at h
            · rcases ih _ _ _ _ _ h with ⟨h0, -, -, -⟩ | ⟨k, t, r, f, hk1, hk2, h1, h2, h3, h4⟩
              · subst h0
                simp [createWithRetries] at h
              · exact ⟨k, t, r, f, by omega, by omega, h1, h2, h3, h4⟩
            · simp at h


/-- The two ways in which `InitiateCheckInProcess` ends: it turns the request
away with an error and leaves the store as it is, or it inserts the session of
one attempt and goes on to the delivery. -/
theorem InitiateCheckInProcess_cases (env : Env) (s : Store) (bookingID : Nat) :
    (∃ err, InitiateCheckInProcess env s bookingID = ⟨{}, some err, s⟩) ∨
    ∃ booking bi s1 k token raw formatted,
      env.fault .loadBooking = none ∧ loadBooking s bookingID = some booking ∧
      validateBooking booking = none ∧
      env.fault .findActiveSession = none ∧
      s.bookingInfos.reverse.find? (activeSessionOf bookingID env.now) = none ∧
      k < 5 ∧
      GenerateSecureToken 32 (env.randRead k) = .ok token ∧
      GenerateCheckinCode 8 (env.randInt k) = .ok raw ∧
      GenerateFormattedCheckinCode raw = .ok formatted ∧
      createBookingInfo env k s (newSession env booking bookingID k token formatted) =
        .ok (s1, bi) ∧
      InitiateCheckInProcess env s bookingID = deliver env s1 bi := by
  unfold InitiateCheckInProcess
  split
  · split
    · exact Or.inl ⟨_, rfl⟩
    · exact Or.inl ⟨_, rfl⟩
  · rename_i booking hb
    have hb1 := queryFirst_ok _ _ _ _ hb
    have hf1 : env.fault .loadBooking = none := by
      unfold queryFirst at hb
      split at hb
      · simp at hb
      · assumption
    split
    · exact Or.inl ⟨_, rfl⟩
    · rename_i hv
      simp only
      split
      · exact Or.inl ⟨_, rfl⟩
      · rename_i err he
        split
        · exact Or.inl ⟨_, rfl⟩
        · rename_i hnf
          rcases queryFirst_error _ _ _ _ he with ⟨-, h2, h3⟩ | ⟨msg, -, h1⟩
          · split
            · exact Or.inl ⟨_, rfl⟩
            · rename_i bi s1 hc
              right
              rcases createWithRetries_ok env booking bookingID 5 0 none s s1 bi hc with
                ⟨h0, -⟩ | ⟨k, token, raw, formatted, -, hk, h4, h5, h6, h7⟩
              · exact absurd h0 (by decide)
              · exact ⟨booking, bi, s1, k, token, raw, formatted, hf1, hb1, hv, h3, h2,
                  by omega, h4, h5, h6, h7, rfl⟩
          · subst h1
            simp [GoError.isRecordNotFound] at hnf

theorem updateEmailStatus_infos (env : Env) (s : Store) (id : Nat)
    (f : BookingInfo → BookingInfo) :
    updateEmailStatus env s id f = s ∨
      updateEmailStatus env s id f =
        { s with
          bookingInfos :=
            s.bookingInfos.map (fun r => if r.ID = id ∧ r.DeletedAt = none then f r else r) } := by
  unfold updateEmailStatus
  split
  · exact Or.inl rfl
  · rename_i infos h
    right
    rw [(updateByID_ok _ _ _ _ _ _ _ _ h).2]

/-- While a session of the booking is running, `InitiateCheckInProcess` makes no
session: it leaves the store as it is and hands back the zero session; when the
driver answers both reads and the booking passes the validations, the error is
`checkin_already_initiated`. -/
theorem InitiateCheckInProcess_active (env : Env) (s : Store) (bookingID : Nat)
    (r : BookingInfo) (hr : r ∈ s.bookingInfos) (ha : activeSessionOf bookingID env.now r = true) :
    (InitiateCheckInProcess env s bookingID).store = s ∧
    (InitiateCheckInProcess env s bookingID).session = {} ∧
    (∀ booking, env.fault .loadBooking = none → env.fault .findActiveSession = none →
      loadBooking s bookingID = some booking → validateBooking booking = none →
      (InitiateCheckInProcess env s bookingID).err = some (.new "checkin_already_initiated")) := by
  have hfound : ∃ x, s.bookingInfos.reverse.find? (activeSessionOf bookingID env.now) = some x := by
    have : (s.bookingInfos.reverse.find? (activeSessionOf bookingID env.now)).isSome = true := by
      rw [List.find?_isSome]
      exact ⟨r, List.mem_reverse.mpr hr, ha⟩
    exact Option.isSome_iff_exists.mp this
  obtain ⟨x, hx⟩ := hfound
  refine ⟨?_, ?_, ?_⟩
  · rcases InitiateCheckInProcess_cases env s bookingID with ⟨err, h⟩ | ⟨_, _, _, _, _, _, _, _, _,
      _, _, hnone, _⟩
    · rw [h]
    · rw [hx] at hnone; exact absurd hnone (by simp)
  · rcases InitiateCheckInProcess_cases env s bookingID with ⟨err, h⟩ | ⟨_, _, _, _, _, _, _, _, _,
      _, _, hnone, _⟩
    · rw [h]
    · rw [hx] at hnone; exact absurd hnone (by simp)
  · intro booking h1 h2 h3 h4
    unfold InitiateCheckInProcess
    simp [queryFirst, h1, h2, h3, h4, hx]

theorem deliver_session (env : Env) (s1 : Store) (bi : BookingInfo) :
    (deliver env s1 bi).session =
      { bi with EmailStatus := (deliver env s1 bi).session.EmailStatus,
                EmailError := (deliver env s1 bi).session.EmailError } := by
  unfold deliver
  split <;> rfl

/-- The delivery changes nothing but the delivery status of sessions. -/
theorem deliver_store (env : Env) (s1 : Store) (bi : BookingInfo) :
    ∃ g : BookingInfo → BookingInfo,
      (∀ r, g r = { r with EmailStatus := (g r).EmailStatus, EmailError := (g r).EmailError }) ∧
      (deliver env s1 bi).store = { s1 with bookingInfos := s1.bookingInfos.map g } := by
  unfold deliver
  split
  · rename_i msg _
    simp only
    rcases updateEmailStatus_infos env s1 bi.ID
      (fun r => { r with EmailStatus := "FAILED", EmailError := (GoError.external msg).Error })
      with h | h
    · exact ⟨id, fun r => rfl, by rw [h]; simp⟩
    · refine ⟨_, ?_, h⟩
      intro r
      split <;> rfl
  · simp only
    rcases updateEmailStatus_infos env s1 bi.ID (fun r => { r with EmailStatus := "SENT" })
      with h | h
    · exact ⟨id, fun r => rfl, by rw [h]; simp⟩
    · refine ⟨_, ?_, h⟩
      intro r
      split <;> rfl

theorem loadBooking_congr (s s1 : Store) (bookingID : Nat) (h1 : s1.bookings = s.bookings)
    (h2 : s1.customers = s.customers) (h3 : s1.bookingRooms = s.bookingRooms) :
    loadBooking s1 bookingID = loadBooking s bookingID := by
  unfold loadBooking
  rw [h1, h2, h3]

/-- C6: a second `InitiateCheckInProcess` while the first session runs. If a call
for a booking hands back a session (as it does when it succeeds and when only
the mail delivery fails) and the call is repeated on the store it left, at an
instant before the token expiry of that session, then the second call creates
no session: it leaves the store as it is and hands back the zero session, and
when the driver answers its two reads it fails with `checkin_already_initiated`. -/
theorem InitiateCheckInProcess_twice (env env2 : Env) (s : Store) (bookingID : Nat) (e : Time)
    (hexp : (InitiateCheckInProcess env s bookingID).session.ExpiresAt = some e)
    (hbefore : env2.now < e) :
    (InitiateCheckInProcess env2 (InitiateCheckInProcess env s bookingID).store bookingID).store =
      (InitiateCheckInProcess env s bookingID).store ∧
    (InitiateCheckInProcess env2 (InitiateCheckInProcess env s bookingID).store
      bookingID).session = {} ∧
    (env2.fault .loadBooking = none → env2.fault .findActiveSession = none →
      (InitiateCheckInProcess env2 (InitiateCheckInProcess env s bookingID).store bookingID).err =
        some (.new "checkin_already_initiated")) := by
  rcases InitiateCheckInProcess_cases env s bookingID with ⟨err, h⟩ | ⟨booking, bi, s1, k, token,
    raw, formatted, -, hload, hval, -, -, -, -, -, -, hcreate, hres⟩
  · rw [h] at hexp
    simp at hexp
  · obtain ⟨-, hs1, hrow, -, -⟩ := createBookingInfo_ok _ _ _ _ _ _ hcreate
    obtain ⟨g, hg, hstore⟩ := deliver_store env s1 bi
    have hsess := deliver_session env s1 bi
    rw [hres] at hexp ⊢
    rw [hsess] at hexp
    simp only at hexp
    -- the row of the session in the store left by the first call
    have hmem : g bi ∈ (deliver env s1 bi).store.bookingInfos := by
      rw [hstore, hs1]
      simp
    have hact : activeSessionOf bookingID env2.now (g bi) = true := by
      have h1 : (g bi).ExpiresAt = bi.ExpiresAt := by rw [hg bi]
      have h2 : (g bi).BookingID = bookingID := by rw [hg bi, hrow]; rfl
      have h3 : (g bi).DeletedAt = none := by rw [hg bi, hrow]; rfl
      unfold activeSessionOf tokenUnexpired
      rw [h1, hexp, h2, h3]
      simpa using hbefore
    obtain ⟨r1, r2, r3⟩ := InitiateCheckInProcess_active env2 _ bookingID (g bi) hmem hact
    refine ⟨r1, r2, fun hf1 hf2 => r3 booking hf1 hf2 ?_ hval⟩
    rw [loadBooking_congr s _ bookingID (by rw [hstore, hs1]) (by rw [hstore, hs1])
      (by rw [hstore, hs1])]
    exact hload

/-- C6, on an example: a session is made for the booking at instant 5 with a
token that expires 24 hours after instant 6; the call repeated at instant 1000
is refused with `checkin_already_initiated`. -/
theorem InitiateCheckInProcess_twice_witness :
    (InitiateCheckInProcess demoEnvInitiate demoStoreFresh 1).err = none ∧
    (InitiateCheckInProcess { now := 1000 }
      (InitiateCheckInProcess demoEnvInitiate demoStoreFresh 1).store 1).err =
      some (.new "checkin_already_initiated") ∧
    (InitiateCheckInProcess { now := 1000 }
      (InitiateCheckInProcess demoEnvInitiate demoStoreFresh 1).store 1).store =
      (InitiateCheckInProcess demoEnvInitiate demoStoreFresh 1).store :=
  ⟨by decide,
    (InitiateCheckInProcess_twice demoEnvInitiate { now := 1000 } demoStoreFresh 1
      (6 + 24 * hour) (by decide) (by decide)).2.2 (by decide) (by decide),
    (InitiateCheckInProcess_twice demoEnvInitiate { now := 1000 } demoStoreFresh 1
      (6 + 24 * hour) (by decide) (by decide)).1⟩

theorem nextID_ne_zero (ids : List Nat) : nextID ids ≠ 0 := by
  unfold nextID
  omega

theorem generateCodeLoop_succeeds (draw : Nat → Except String Nat)
    (h : ∀ i, ∃ n, draw i = .ok n) :
    ∀ (k i : Nat) (sb : List Char), ∃ out, generateCodeLoop draw k i sb = .ok out := by
  intro k
  induction k with
  | zero => intro i sb; exact ⟨_, rfl⟩
  | succ k ih =>
    intro i sb
    obtain ⟨n, hn⟩ := h i
    unfold generateCodeLoop
    rw [hn]
    exact ih _ _

/-- With a working entropy source both generators deliver. -/
theorem generators_succeed (env : Env) (k : Nat) (src : Nat → Nat)
    (hrd : env.randRead k = .ok src) (hri : ∀ i, ∃ n, env.randInt k i = .ok n) :
    ∃ token raw, GenerateSecureToken 32 (env.randRead k) = .ok token ∧
      GenerateCheckinCode 8 (env.randInt k) = .ok raw := by
  obtain ⟨out, hout⟩ := generateCodeLoop_succeeds (env.randInt k) hri (8 : Int).toNat 0 []
  refine ⟨⟨hexEncode ((List.range (32 : Int).toNat).map (fun i => src i % 256))⟩, ⟨out⟩, ?_, ?_⟩
  · unfold GenerateSecureToken
    rw [hrd]
    simp only [show ¬((32 : Int) ≤ 0) by decide, if_false]
  · unfold GenerateCheckinCode
    simp only [show ¬((8 : Int) ≤ 0) by decide, if_false, hout]

theorem validateBooking_none (booking : LoadedBooking) (hcust : booking.Customer.ID ≠ 0)
    (hrooms : booking.Rooms ≠ []) (hmail : TrimSpace booking.Customer.Email ≠ "")
    (hin : EqualFold booking.row.Status "Checked-In" = false)
    (hin2 : EqualFold booking.row.Status "Checkedin" = false)
    (hin3 : EqualFold booking.row.Status "Checked in" = false)
    (hat : booking.row.CheckedInAt = none)
    (hout : EqualFold (TrimSpace booking.row.Status) "Checked-Out" = false) :
    validateBooking booking = none := by
  unfold validateBooking
  have : ¬(booking.Rooms.length = 0) := fun h => hrooms (List.length_eq_zero.mp h)
  simp [hcust, this, hmail, hin, hin2, hin3, hat, hout]

/-- C10: the session made by `InitiateCheckInProcess`. For a booking that passes
the validations (a customer, at least one room assignment, an address that is
not blank, a status that is neither checked in nor checked out, no check-in
timestamp) and has no session with an unexpired token, when the driver and the
entropy source work and the first token and code are carried by no session yet,
the call hands back a session that is a row of the store it leaves, is bound to
the booking, has status `INITIATED`, a token of 64 lower-case hexadecimal
characters, a code made of four characters of `A`-`Z0`-`9`, a hyphen and four
more, whose normal form has exactly 8 characters, a token expiry 24 hours after
the clock reading and a code expiry 7 days after the clock reading, or none when
`CHECKIN_CODE_NEVER_EXPIRE` is `true`; the error is nil, or `email_send_failed`
when the mail delivery fails. -/
theorem InitiateCheckInProcess_creates (env : Env) (s : Store) (bookingID : Nat)
    (booking : LoadedBooking) (src : Nat → Nat)
    (hload : loadBooking s bookingID = some booking)
    (hcust : booking.Customer.ID ≠ 0) (hrooms : booking.Rooms ≠ [])
    (hmail : TrimSpace booking.Customer.Email ≠ "")
    (hin : EqualFold booking.row.Status "Checked-In" = false)
    (hin2 : EqualFold booking.row.Status "Checkedin" = false)
    (hin3 : EqualFold booking.row.Status "Checked in" = false)
    (hat : booking.row.CheckedInAt = none)
    (hout : EqualFold (TrimSpace booking.row.Status) "Checked-Out" = false)
    (hnone : ∀ r ∈ s.bookingInfos, activeSessionOf bookingID env.now r = false)
    (hnf : env.NoFault)
    (hrd : env.randRead 0 = .ok src) (hri : ∀ i, ∃ n, env.randInt 0 i = .ok n)
    (hfreshToken : ∀ token, GenerateSecureToken 32 (env.randRead 0) = .ok token →
      ∀ r ∈ s.bookingInfos, r.Token ≠ token)
    (hfreshCode : ∀ raw code, GenerateCheckinCode 8 (env.randInt 0) = .ok raw →
      GenerateFormattedCheckinCode raw = .ok code → ∀ r ∈ s.bookingInfos, r.CheckinCode ≠ code) :
    (InitiateCheckInProcess env s bookingID).err =
      env.mail.map (fun msg => .wrap "email_send_failed: " (.external msg)) ∧
    (InitiateCheckInProcess env s bookingID).session ∈
      (InitiateCheckInProcess env s bookingID).store.bookingInfos ∧
    (InitiateCheckInProcess env s bookingID).session.BookingID = bookingID ∧
    (InitiateCheckInProcess env s bookingID).session.Status = "INITIATED" ∧
    (InitiateCheckInProcess env s bookingID).session.Token.length = 64 ∧
    (∀ c ∈ (InitiateCheckInProcess env s bookingID).session.Token.data,
      c ∈ "0123456789abcdef".data) ∧
    (∃ a b : List Char, a.length = 4 ∧ b.length = 4 ∧
      (∀ c ∈ a ++ b, c ∈ "ABCDEFGHIJKLMNOPQRSTUVWXYZ0123456789".data) ∧
      (InitiateCheckInProcess env s bookingID).session.CheckinCode = ⟨a ++ '-' :: b⟩ ∧
      NormalizeCheckinCode (InitiateCheckInProcess env s bookingID).session.CheckinCode =
        ⟨a ++ b⟩) ∧
    (NormalizeCheckinCode (InitiateCheckInProcess env s bookingID).session.CheckinCode).length =
      8 ∧
    (InitiateCheckInProcess env s bookingID).session.ExpiresAt =
      some (env.tokenNow 0 + 24 * hour) ∧
    (InitiateCheckInProcess env s bookingID).session.CodeExpiresAt =
      (if ToLower (EnvOrDefault env "CHECKIN_CODE_NEVER_EXPIRE" "false") = "true" then none
       else some (env.codeNow 0 + 7 * 24 * hour)) := by
  obtain ⟨token, raw, htok, hraw⟩ := generators_succeed env 0 src hrd hri
  obtain ⟨hlen, hchars⟩ := GenerateSecureToken_ok _ _ htok
  obtain ⟨h8, hcs⟩ := GenerateCheckinCode_ok _ _ hraw
  obtain ⟨hfmt, hnorm⟩ := GenerateFormattedCheckinCode_ok raw h8 hcs
  have hval := validateBooking_none booking hcust hrooms hmail hin hin2 hin3 hat hout
  have hact : s.bookingInfos.reverse.find? (activeSessionOf bookingID env.now) = none := by
    rw [List.find?_eq_none]
    intro r hr
    rw [hnone r (List.mem_reverse.mp hr)]
    simp
  have hft := hfreshToken token htok
  have hfc := hfreshCode raw _ hraw hfmt
  -- the row written at the first attempt
  generalize hrow : ({ newSession env booking bookingID 0 token
      ⟨raw.data.take 4 ++ '-' :: raw.data.drop 4⟩ with
      ID := nextID (s.bookingInfos.map (fun r => r.ID)) } : BookingInfo) = row
  have hcreate : createBookingInfo env 0 s (newSession env booking bookingID 0 token
      ⟨raw.data.take 4 ++ '-' :: raw.data.drop 4⟩) =
      .ok ({ s with bookingInfos := s.bookingInfos ++ [row] }, row) := by
    unfold createBookingInfo
    rw [hnf]
    have h1 : (s.bookingInfos.any (fun r => decide (r.Token =
        (newSession env booking bookingID 0 token
          ⟨raw.data.take 4 ++ '-' :: raw.data.drop 4⟩).Token))) = false := by
      rw [List.any_eq_false]
      intro r hr
      simpa [newSession] using hft r hr
    have h2 : (s.bookingInfos.any (fun r => decide (r.CheckinCode =
        (newSession env booking bookingID 0 token
          ⟨raw.data.take 4 ++ '-' :: raw.data.drop 4⟩).CheckinCode))) = false := by
      rw [List.any_eq_false]
      intro r hr
      simpa [newSession] using hfc r hr
    simp only [h1, h2, Bool.false_eq_true, if_false, hrow]
  have hres : InitiateCheckInProcess env s bookingID =
      deliver env { s with bookingInfos := s.bookingInfos ++ [row] } row := by
    unfold InitiateCheckInProcess
    simp only [queryFirst, hnf _, hload, hval, hact, GoError.isRecordNotFound]
    unfold createWithRetries
    simp only [htok, hraw, hfmt, hcreate]
    rfl
  have hid : row.ID ≠ 0 := by rw [← hrow]; exact nextID_ne_zero _
  have hdel : row.DeletedAt = none := by rw [← hrow]; rfl
  rw [hres]
  refine ⟨?_, ?_, ?_, ?_, ?_, ?_, ?_, ?_, ?_, ?_⟩
  · unfold deliver; cases env.mail <;> rfl
  · unfold deliver
    cases env.mail with
    | none =>
      simp only [updateEmailStatus, updateByID, hnf _, hid, if_false]
      simp [hdel]
    | some msg =>
      simp only [updateEmailStatus, updateByID, hnf _, hid, if_false]
      simp [hdel]
  · rw [deliver_session, ← hrow]; rfl
  · rw [deliver_session, ← hrow]; rfl
  · rw [deliver_session, ← hrow]; exact hlen
  · rw [deliver_session, ← hrow]; exact hchars
  · refine ⟨raw.data.take 4, raw.data.drop 4, by simp [h8], by simp [h8], ?_, ?_, ?_⟩
    · intro c hc
      rcases List.mem_append.mp hc with h | h
      · exact hcs c (List.mem_of_mem_take h)
      · exact hcs c (List.mem_of_mem_drop h)
    · rw [deliver_session, ← hrow]; rfl
    · rw [deliver_session, ← hrow]
      show NormalizeCheckinCode ⟨raw.data.take 4 ++ '-' :: raw.data.drop 4⟩ = _
      rw [hnorm]
      simp
  · rw [deliver_session, ← hrow]
    show (NormalizeCheckinCode ⟨raw.data.take 4 ++ '-' :: raw.data.drop 4⟩).length = 8
    rw [hnorm]
    exact h8
  · rw [deliver_session, ← hrow]; rfl
  · rw [deliver_session, ← hrow]; rfl

/-- C10, on an example: the session made for the booking of `demoStoreFresh`. -/
theorem InitiateCheckInProcess_creates_witness :
    (InitiateCheckInProcess demoEnvInitiate demoStoreFresh 1).err = none ∧
    (InitiateCheckInProcess demoEnvInitiate demoStoreFresh 1).session ∈
      (InitiateCheckInProcess demoEnvInitiate demoStoreFresh 1).store.bookingInfos ∧
    (InitiateCheckInProcess demoEnvInitiate demoStoreFresh 1).session.Status = "INITIATED" ∧
    (InitiateCheckInProcess demoEnvInitiate demoStoreFresh 1).session.Token.length = 64 ∧
    (InitiateCheckInProcess demoEnvInitiate demoStoreFresh 1).session.CheckinCode = "DINS-X27C" ∧
    (InitiateCheckInProcess demoEnvInitiate demoStoreFresh 1).session.ExpiresAt =
      some (6 + 24 * hour) ∧
    (InitiateCheckInProcess demoEnvInitiate demoStoreFresh 1).session.CodeExpiresAt =
      some (7 + 7 * 24 * hour) :=
  have h := InitiateCheckInProcess_creates demoEnvInitiate demoStoreFresh 1 demoLoaded
    (fun i => 37 * i + 11) (by decide) (by decide) (by decide) (by decide) (by decide)
    (by decide) (by decide) (by decide) (by decide)
    (fun _ hr => absurd hr (List.not_mem_nil _)) (fun _ => rfl) rfl (fun i => ⟨i * 5 + 3, rfl⟩)
    (fun _ _ _ hr => absurd hr (List.not_mem_nil _))
    (fun _ _ _ _ _ hr => absurd hr (List.not_mem_nil _))
  ⟨h.1, h.2.1, h.2.2.2.1, h.2.2.2.2.1, by decide, h.2.2.2.2.2.2.2.2.1, h.2.2.2.2.2.2.2.2.2⟩

/-- The validations of `InitiateCheckInProcess` in the order of the code: the
error of the first check that the loaded booking fails is handed back with the
zero session, and the store is left as it is. -/
theorem InitiateCheckInProcess_rejects (env : Env) (s : Store) (bookingID : Nat) :
    (env.fault .loadBooking = none → loadBooking s bookingID = none →
      InitiateCheckInProcess env s bookingID = ⟨{}, some (.new "booking_not_found"), s⟩) ∧
    (∀ booking err, env.fault .loadBooking = none → loadBooking s bookingID = some booking →
      validateBooking booking = some err →
      InitiateCheckInProcess env s bookingID = ⟨{}, some err, s⟩) ∧
    (∀ booking : LoadedBooking,
      (booking.Customer.ID = 0 → validateBooking booking = some (.new "missing customer")) ∧
      (booking.Customer.ID ≠ 0 → booking.Rooms = [] → booking.Room.ID = 0 →
        validateBooking booking = some (.new "missing room")) ∧
      (booking.Customer.ID ≠ 0 → booking.Rooms ≠ [] → TrimSpace booking.Customer.Email = "" →
        validateBooking booking = some (.new "customer_email_missing")) ∧
      (booking.Customer.ID ≠ 0 → booking.Rooms ≠ [] → TrimSpace booking.Customer.Email ≠ "" →
        (EqualFold booking.row.Status "Checked-In" = true ∨ booking.row.CheckedInAt ≠ none) →
        validateBooking booking = some (.new "already_checked_in"))) := by
  refine ⟨?_, ?_, ?_⟩
  · intro hf hl
    unfold InitiateCheckInProcess
    simp [queryFirst, hf, hl, GoError.isRecordNotFound]
  · intro booking err hf hl hv
    unfold InitiateCheckInProcess
    simp [queryFirst, hf, hl, hv]
  · intro booking
    refine ⟨?_, ?_, ?_, ?_⟩
    · intro h; simp [validateBooking, h]
    · intro h1 h2 h3; simp [validateBooking, h1, h2, h3]
    · intro h1 h2 h3
      have : ¬(booking.Rooms.length = 0) := fun h => h2 (List.length_eq_zero.mp h)
      simp [validateBooking, h1, this, h3]
    · intro h1 h2 h3 h4
      have : ¬(booking.Rooms.length = 0) := fun h => h2 (List.length_eq_zero.mp h)
      unfold validateBooking
      rcases h4 with h4 | h4
      · simp [h1, this, h3, h4]
      · simp only [h1, this, h3, if_false, false_and, h4]
        split <;> simp

/-- The query of `InitiateCheckInProcess` leaves the association `Room` of the
booking at its zero value. -/
theorem loadBooking_room (s : Store) (bookingID : Nat) (booking : LoadedBooking)
    (h : loadBooking s bookingID = some booking) : booking.Room = {} := by
  unfold loadBooking at h
  split at h
  · simp at h
  · simp only [Option.some.injEq] at h
    rw [← h]

/-- The validations answer `booking_checked_out` only for a booking without
check-in timestamp. -/
theorem validateBooking_checked_out (booking : LoadedBooking)
    (h : validateBooking booking = some (.new "booking_checked_out")) :
    booking.row.CheckedInAt = none := by
  unfold validateBooking at h
  split at h
  · simp at h
  · split at h
    · simp at h
    · split at h
      · simp at h
      · split at h
        · simp at h
        · split at h
          · simp at h
          · rename_i hat
            simpa using hat

/-- C8, at the failing input: a booking that has its room in the column
`room_id` only, and a customer with a blank address, is turned away with
`missing room`, not with `customer_email_missing`: the query of
`InitiateCheckInProcess` does not preload the association `Room`, so the test
`booking.Room.ID == 0` holds for every booking. The same booking with the room
assigned through `booking_rooms` gets `customer_email_missing`. -/
theorem InitiateCheckInProcess_legacy_room :
    (legacyRoomStore.bookings.map (fun b => b.RoomID)) = [some 3] ∧
    (legacyRoomStore.rooms.map (fun r => r.ID)) = [3] ∧
    (InitiateCheckInProcess demoEnv legacyRoomStore 1).err = some (.new "missing room") ∧
    (InitiateCheckInProcess demoEnv assignedRoomStore 1).err =
      some (.new "customer_email_missing") := by
  decide

/-- C9, at the failing input: the booking of `demoStore` is checked in at instant
5 and checked out at instant 50; it then has status `Checked-Out` and still
carries its check-in timestamp, and `InitiateCheckInProcess` turns it away with
`already_checked_in`, answered 409, not with `booking_checked_out`, answered
410. A booking with status `Checked-Out` and no check-in timestamp does get
`booking_checked_out`. -/
theorem InitiateCheckInProcess_checked_out :
    (checkedOutStore.bookings.map (fun b => (b.Status, b.CheckedInAt))) =
      [("Checked-Out", some 5)] ∧
    (InitiateCheckInProcess { now := 60 } checkedOutStore 1).err =
      some (.new "already_checked_in") ∧
    InitiateCheckIn (InitiateCheckInProcess { now := 60 } checkedOutStore 1).err = 409 ∧
    (InitiateCheckInProcess { now := 60 }
      { demoStoreFresh with bookings := [{ demoBooking with Status := "Checked-Out" }] } 1).err =
      some (.new "booking_checked_out") ∧
    InitiateCheckIn (some (.new "booking_checked_out")) = 410 := by
  decide

/-! ## The sessions of a booking along the life cycle -/

theorem twoSessionsStore_reachable :
    Reachable demoStoreFresh twoSessionsStore demoEnvSecond.now :=
  Reachable.createSession demoEnvSecond 1
    (Reachable.createSession demoEnvFirst 1 (Reachable.start 0) (by decide)) (by decide)

/-- C7 as claimed fails: booking 1 gets a session at instant 5; its token expires
24 hours after instant 6, its code 7 days after instant 7. A second request 25
hours after the first finds no session with an unexpired token and makes
another session. At that instant both sessions are not soft-deleted, have
status `INITIATED` and an unexpired code. -/
theorem two_nonterminal_sessions :
    demoStoreFresh.bookingInfos = [] ∧
    Reachable demoStoreFresh twoSessionsStore demoEnvSecond.now ∧
    (twoSessionsStore.bookingInfos.filter
      (fun bi => decide (bi.BookingID = 1) && nonTerminal demoEnvSecond.now bi)).length = 2 :=
  ⟨rfl, twoSessionsStore_reachable, by decide⟩

theorem filter_map_length_le {α : Type} (f : α → α) (p q : α → Bool) :
    ∀ l : List α, (∀ r ∈ l, p (f r) = true → q r = true) →
      ((l.map f).filter p).length ≤ (l.filter q).length := by
  intro l
  induction l with
  | nil => intro _; simp
  | cons a t ih =>
    intro h
    have iht := ih (fun r hr => h r (List.mem_cons_of_mem _ hr))
    rw [List.map_cons, List.filter_cons, List.filter_cons]
    cases hp : p (f a) with
    | false =>
      simp only [Bool.false_eq_true, if_false]
      split
      · simp only [List.length_cons]; omega
      · exact iht
    | true =>
      rw [h a (List.mem_cons_self _ _) hp]
      simp only [if_true, List.length_cons]
      omega

theorem activeSessionOf_mono {b : Nat} {t t2 : Time} {bi : BookingInfo} (h : t ≤ t2)
    (h2 : activeSessionOf b t2 bi = true) : activeSessionOf b t bi = true := by
  unfold activeSessionOf at h2 ⊢
  simp only [Bool.and_eq_true] at h2 ⊢
  exact ⟨⟨tokenUnexpired_mono h h2.1.1, h2.1.2⟩, h2.2⟩

/-- The sessions that a check-in leaves are the sessions it met, some of them
with status `COMPLETED`. -/
theorem FinalizeCheckInTransaction_infos (env : Env) (s : Store) (token : String)
    (guests : List Guest) (consents : List Consent) :
    ∃ f : BookingInfo → BookingInfo,
      (∀ r, f r = r ∨ f r = { r with Status := "COMPLETED" }) ∧
      (FinalizeCheckInTransaction env s token guests consents).2.bookingInfos =
        s.bookingInfos.map f := by
  rcases Transaction_snd env s (finalizeBody env token guests consents) with h | h
  · exact ⟨id, fun r => Or.inl rfl, by
      show (Transaction env s _).2.bookingInfos = _
      rw [h]; simp⟩
  · obtain ⟨bi, -, h2⟩ := finalizeBody_ok env token guests consents s _ h
    have hsame : (Transaction env s (finalizeBody env token guests consents)).2 = s →
        ∃ f : BookingInfo → BookingInfo,
          (∀ r, f r = r ∨ f r = { r with Status := "COMPLETED" }) ∧
          (FinalizeCheckInTransaction env s token guests consents).2.bookingInfos =
            s.bookingInfos.map f := by
      intro he
      exact ⟨id, fun r => Or.inl rfl, by
        show (Transaction env s _).2.bookingInfos = _
        rw [he]; simp⟩
    rcases h2 with ⟨-, h3⟩ | ⟨-, b, -, h3⟩
    · exact hsame h3
    · rcases h3 with ⟨-, h4⟩ | ⟨-, -, rows, logs, -, -, h4⟩
      · exact hsame h4
      · refine ⟨fun r => if r.ID = bi.ID ∧ r.DeletedAt = none then { r with Status := "COMPLETED" }
          else r, ?_, ?_⟩
        · intro r
          by_cases hc : r.ID = bi.ID ∧ r.DeletedAt = none
          · right; simp only [hc, and_self, if_true]
          · left; simp only [hc, if_false]
        · show (Transaction env s _).2.bookingInfos = _
          rw [h4]
          rfl

theorem active_filter_later (l : List BookingInfo) (b : Nat) {t t2 : Time} (hle : t ≤ t2) :
    (l.filter (activeSessionOf b t2)).length ≤ (l.filter (activeSessionOf b t)).length := by
  have := filter_map_length_le id (activeSessionOf b t2) (activeSessionOf b t) l
    (fun r _ h => activeSessionOf_mono hle h)
  simpa using this

/-- The sessions that a checkout leaves: the sessions it met, those of the
booking that are not soft-deleted with the token expiry set to now and status
`EXPIRED` when the checkout went through. -/
theorem CheckoutBooking_infos (env : Env) (s : Store) (bookingID : Nat) :
    (CheckoutBooking env s bookingID).2.bookingInfos = s.bookingInfos ∨
    (CheckoutBooking env s bookingID).2.bookingInfos =
      s.bookingInfos.map (fun r =>
        if r.BookingID = bookingID ∧ r.DeletedAt = none then
          { r with ExpiresAt := some env.now, Status := "EXPIRED" }
        else r) := by
  rcases Transaction_snd env s (checkoutBody env bookingID) with h | h
  · left
    show (Transaction env s _).2.bookingInfos = _
    rw [h]
  · right
    show (Transaction env s _).2.bookingInfos = _
    generalize (Transaction env s (checkoutBody env bookingID)).2 = s1 at h ⊢
    unfold checkoutBody at h
    split at h
    · split at h <;> simp at h
    · simp only at h
      split at h
      · simp at h
      · split at h
        · simp at h
        · split at h
          · simp at h
          · split at h
            · simp at h
            · simp only [Except.ok.injEq] at h
              rw [← h]

/-- The sessions that `InitiateCheckInProcess` leaves: the sessions it met, or,
when no session of the booking had an unexpired token, these and one more for
the booking, up to the delivery status. -/
theorem InitiateCheckInProcess_infos (env : Env) (s : Store) (bookingID : Nat) :
    (InitiateCheckInProcess env s bookingID).store.bookingInfos = s.bookingInfos ∨
    ∃ (bi : BookingInfo) (g : BookingInfo → BookingInfo),
      (∀ r ∈ s.bookingInfos, activeSessionOf bookingID env.now r = false) ∧
      bi.BookingID = bookingID ∧
      (∀ r, g r = { r with EmailStatus := (g r).EmailStatus, EmailError := (g r).EmailError }) ∧
      (InitiateCheckInProcess env s bookingID).store.bookingInfos =
        (s.bookingInfos ++ [bi]).map g := by
  rcases InitiateCheckInProcess_cases env s bookingID with ⟨err, h⟩ | ⟨booking, bi, s1, k, token,
    raw, formatted, -, -, -, -, hnone, -, -, -, -, hcreate, hres⟩
  · left; rw [h]
  · right
    obtain ⟨-, hs1, hrow, -, -⟩ := createBookingInfo_ok _ _ _ _ _ _ hcreate
    obtain ⟨g, hg, hstore⟩ := deliver_store env s1 bi
    refine ⟨bi, g, ?_, by rw [hrow]; rfl, hg, by rw [hres, hstore, hs1]⟩
    intro r hr
    have := List.find?_eq_none.mp hnone r (List.mem_reverse.mpr hr)
    simpa using this

/-- Along the life cycle a booking never has two sessions that are not
soft-deleted and whose token has not expired. -/
theorem reachable_active_le_one (s0 : Store) (h0 : s0.bookingInfos = []) (s : Store) (t : Time)
    (hr : Reachable s0 s t) :
    ∀ b, (s.bookingInfos.filter (activeSessionOf b t)).length ≤ 1 := by
  induction hr with
  | start t => intro b; rw [h0]; simp
  | wait t2 _ hle ih =>
    intro b
    exact Nat.le_trans (active_filter_later _ b hle) (ih b)
  | createSession env bookingID _ hle ih =>
    rename_i s1 t1 hreach
    intro b
    rcases InitiateCheckInProcess_infos env _ bookingID with h | ⟨bi, g, hnone, hbid, hg, h⟩
    · rw [h]
      exact Nat.le_trans (active_filter_later _ b hle) (ih b)
    · rw [h]
      have hstep := filter_map_length_le g (activeSessionOf b env.now) (activeSessionOf b env.now)
        (s1.bookingInfos ++ [bi]) (fun r _ hp => by
          have e1 : (g r).ExpiresAt = r.ExpiresAt := by rw [hg r]
          have e2 : (g r).BookingID = r.BookingID := by rw [hg r]
          have e3 : (g r).DeletedAt = r.DeletedAt := by rw [hg r]
          unfold activeSessionOf tokenUnexpired at hp ⊢
          rw [e1, e2, e3] at hp
          exact hp)
      refine Nat.le_trans hstep ?_
      rw [List.filter_append, List.length_append]
      by_cases hb : b = bookingID
      · subst hb
        have : s1.bookingInfos.filter (activeSessionOf b env.now) = [] :=
          List.filter_eq_nil_iff.mpr (fun r hr => by simp [hnone r hr])
        rw [this]
        simp only [List.length_nil, Nat.zero_add]
        exact Nat.le_trans (List.length_filter_le _ _) (by simp)
      · have hbi : activeSessionOf b env.now bi = false := by
          unfold activeSessionOf
          rw [hbid]
          simp [Ne.symm hb]
        rw [List.filter_cons, hbi]
        simp only [Bool.false_eq_true, if_false, List.filter_nil, List.length_nil, Nat.add_zero]
        exact Nat.le_trans (active_filter_later _ b hle) (ih b)
  | finalizeCheckIn env token guests consents _ hle ih =>
    intro b
    obtain ⟨f, hf, h⟩ := FinalizeCheckInTransaction_infos env _ token guests consents
    rw [h]
    refine Nat.le_trans ?_ (ih b)
    refine filter_map_length_le f _ _ _ (fun r _ hp => ?_)
    have hp2 : activeSessionOf b env.now r = true := by
      rcases hf r with e | e
      · rw [e] at hp; exact hp
      · rw [e] at hp; exact hp
    exact activeSessionOf_mono hle hp2
  | checkout env bookingID _ hle ih =>
    intro b
    rcases CheckoutBooking_infos env _ bookingID with h | h
    · rw [h]
      exact Nat.le_trans (active_filter_later _ b hle) (ih b)
    · rw [h]
      refine Nat.le_trans ?_ (ih b)
      refine filter_map_length_le _ _ _ _ (fun r _ hp => ?_)
      by_cases hc : r.BookingID = bookingID ∧ r.DeletedAt = none
      · rw [if_pos hc] at hp
        simp [activeSessionOf, tokenUnexpired] at hp
      · rw [if_neg hc] at hp
        exact activeSessionOf_mono hle hp

/-- C7, amended: in every state reached from a store without sessions by
requests to create a session, to finalize a check-in and to check out, each
booking has at most one session that is not soft-deleted, has status
`INITIATED` and whose token has not expired. -/
theorem at_most_one_running_session (s0 : Store) (h0 : s0.bookingInfos = []) (s : Store)
    (t : Time) (hr : Reachable s0 s t) (b : Nat) :
    (s.bookingInfos.filter (fun bi => decide (bi.BookingID = b) && running t bi)).length ≤ 1 := by
  refine Nat.le_trans ?_ (reachable_active_le_one s0 h0 s t hr b)
  have := filter_map_length_le id (fun bi => decide (bi.BookingID = b) && running t bi)
    (activeSessionOf b t) s.bookingInfos (fun r _ hp => by
      unfold running at hp
      unfold activeSessionOf
      simp only [id, Bool.and_eq_true, decide_eq_true_eq] at hp ⊢
      exact ⟨⟨hp.2.2, hp.1⟩, hp.2.1.1⟩)
  simpa using this

/-- C7, amended, on the example: of the two sessions of booking 1 only the
second one is running after the second request. -/
theorem at_most_one_running_session_witness :
    (twoSessionsStore.bookingInfos.filter
      (fun bi => decide (bi.BookingID = 1) && running demoEnvSecond.now bi)).length ≤ 1 :=
  at_most_one_running_session demoStoreFresh rfl twoSessionsStore demoEnvSecond.now
    twoSessionsStore_reachable 1

/-! ## The retry policy of `InitiateCheckInProcess` -/

/-- The two unique indexes of `booking_infos` raise messages that send the loop
into another attempt. -/
theorem isCollision_duplicateEntry :
    isCollision (duplicateEntry "booking_infos.idx_booking_infos_token") = true ∧
    isCollision (duplicateEntry "booking_infos.idx_booking_infos_checkin_code") = true := by
  decide

/-- An attempt whose insert fails with an error that the test does not take for
a collision ends the loop at once. -/
theorem createWithRetries_abort (env : Env) (booking : LoadedBooking) (bookingID n attempt : Nat)
    (createErr : Option GoError) (s : Store) (token raw formatted : String) (err : GoError)
    (ht : GenerateSecureToken 32 (env.randRead attempt) = .ok token)
    (hr : GenerateCheckinCode 8 (env.randInt attempt) = .ok raw)
    (hf : GenerateFormattedCheckinCode raw = .ok formatted)
    (hc : createBookingInfo env attempt s
      (newSession env booking bookingID attempt token formatted) = .error err)
    (hn : isCollision err = false) :
    createWithRetries env booking bookingID (n + 1) attempt createErr s =
      .error (.wrap "failed to create booking info: " err) := by
  unfold createWithRetries
  simp only [ht, hr, hf, hc, hn, Bool.false_eq_true, if_false]

/-- The retry loop never leaves a session behind when it ends with an error. -/
theorem InitiateCheckInProcess_error_store (env : Env) (s : Store) (bookingID : Nat)
    (h : (InitiateCheckInProcess env s bookingID).store.bookingInfos.length ≠
      s.bookingInfos.length + 1) :
    (InitiateCheckInProcess env s bookingID).store = s := by
  rcases InitiateCheckInProcess_cases env s bookingID with ⟨err, he⟩ | ⟨booking, bi, s1, k, token,
    raw, formatted, -, -, -, -, -, -, -, -, -, hcreate, hres⟩
  · rw [he]
  · exfalso
    apply h
    obtain ⟨-, hs1, -, -, -⟩ := createBookingInfo_ok _ _ _ _ _ _ hcreate
    obtain ⟨g, -, hstore⟩ := deliver_store env s1 bi
    rw [hres, hstore, hs1]
    simp

/-- C11, at the failing input: the first insert of the session fails with the
foreign-key message of MySQL. The message contains the word `constraint`, which
the test of the loop takes for a collision: the call does not abort, it makes a
second attempt and returns the session of that attempt. When every insert fails
so, the call makes all its attempts and ends with the error of the exhausted
retries. A failure whose message names no constraint aborts at the first
attempt, and five violations of the unique index of the token end in the error
of the exhausted retries with the store as it was. -/
theorem InitiateCheckInProcess_foreign_key_retried :
    isCollision (.driver foreignKeyFailure) = true ∧
    (InitiateCheckInProcess demoEnvForeignKey demoStoreFresh 1).err = none ∧
    (InitiateCheckInProcess demoEnvForeignKey demoStoreFresh 1).session.ExpiresAt =
      some (6 + 1 + 24 * hour) ∧
    (InitiateCheckInProcess demoEnvForeignKey demoStoreFresh 1).store.bookingInfos.length = 1 ∧
    (InitiateCheckInProcess demoEnvForeignKeyAlways demoStoreFresh 1).err =
      some (.wrap "failed to create booking info after retries: " (.driver foreignKeyFailure)) ∧
    (InitiateCheckInProcess demoEnvBadConnection demoStoreFresh 1).err =
      some (.wrap "failed to create booking info: " (.driver "driver: bad connection")) ∧
    (InitiateCheckInProcess demoEnvRepeat
      (InitiateCheckInProcess demoEnvFirst demoStoreFresh 1).store 1).err =
      some (.wrap "failed to create booking info after retries: "
        (duplicateEntry "booking_infos.idx_booking_infos_token")) ∧
    (InitiateCheckInProcess demoEnvRepeat
      (InitiateCheckInProcess demoEnvFirst demoStoreFresh 1).store 1).store =
      (InitiateCheckInProcess demoEnvFirst demoStoreFresh 1).store := by
  decide

/-! ## The delivery of the invitation -/

theorem startsWith_append : ∀ (p a b : List Char), startsWith p a = true →
    startsWith p (a ++ b) = true
  | [], _, _, _ => by simp [startsWith]
  | _ :: _, [], _, h => by simp [startsWith] at h
  | x :: p, y :: a, b, h => by
    simp only [startsWith, Bool.and_eq_true, List.cons_append] at h ⊢
    exact ⟨h.1, startsWith_append p a b h.2⟩

/-- A text that opens the first of two joined texts occurs in the whole. -/
theorem Contains_append_left (pre msg sub : String) (hne : pre.data ≠ [])
    (h : startsWith sub.data pre.data = true) : Contains (pre ++ msg) sub = true := by
  unfold Contains
  rw [String.data_append]
  cases hp : pre.data with
  | nil => exact absurd hp hne
  | cons c cs =>
    rw [hp] at h
    simp only [List.cons_append, containsChars, Bool.or_eq_true]
    left
    have := startsWith_append sub.data (c :: cs) msg.data h
    simpa using this

/-- The status code of `InitiateCheckInAnswer` is the one of `InitiateCheckIn`. -/
theorem InitiateCheckInAnswer_status (r : InitiateResult) :
    (InitiateCheckInAnswer r).1 = InitiateCheckIn r.err := by
  unfold InitiateCheckInAnswer InitiateCheckIn
  cases r.err with
  | none => rfl
  | some err =>
    simp only
    split
    · rfl
    · split
      · rfl
      · split
        · rfl
        · split
          · rfl
          · split <;> rfl

theorem foldl_max_le (ids : List Nat) : ∀ (a : Nat), a ≤ ids.foldl max a ∧
    ∀ x ∈ ids, x ≤ ids.foldl max a := by
  induction ids with
  | nil => intro a; simp
  | cons i t ih =>
    intro a
    simp only [List.foldl_cons, List.mem_cons, forall_eq_or_imp]
    obtain ⟨h1, h2⟩ := ih (max a i)
    exact ⟨Nat.le_trans (Nat.le_max_left a i) h1, Nat.le_trans (Nat.le_max_right a i) h1, h2⟩

/-- The key given to a new row is the key of no row of the table. -/
theorem nextID_fresh (ids : List Nat) : ∀ x ∈ ids, x ≠ nextID ids := by
  intro x hx
  have := (foldl_max_le ids 0).2 x hx
  unfold nextID
  omega

/-- The update of the delivery status of a session that was just inserted
touches that row only. -/
theorem updateEmailStatus_new (env : Env) (s : Store) (bi : BookingInfo)
    (f : BookingInfo → BookingInfo) (hdel : bi.DeletedAt = none)
    (hid : bi.ID = nextID (s.bookingInfos.map (fun r => r.ID))) :
    (updateEmailStatus env { s with bookingInfos := s.bookingInfos ++ [bi] } bi.ID f).bookingInfos =
        s.bookingInfos ++ [bi] ∨
    (env.fault .updateEmailStatus = none ∧
      (updateEmailStatus env { s with bookingInfos := s.bookingInfos ++ [bi] } bi.ID
        f).bookingInfos = s.bookingInfos ++ [f bi]) := by
  unfold updateEmailStatus updateByID
  cases hf : env.fault .updateEmailStatus with
  | some m => left; rfl
  | none =>
    right
    refine ⟨rfl, ?_⟩
    have hne : bi.ID ≠ 0 := by rw [hid]; exact nextID_ne_zero _
    simp only [hne, if_false, List.map_append, List.map_cons, List.map_nil, hdel, and_self,
      if_true]
    congr 1
    apply map_eq_self
    intro r hr
    have : r.ID ≠ bi.ID := by
      rw [hid]
      exact nextID_fresh _ _ (List.mem_map.mpr ⟨r, hr, rfl⟩)
    simp [this]

/-- C12: a failed delivery does not undo the session. When the mail delivery
fails with message `msg` in a call that has persisted a session (the call
leaves one session more than it met), the call returns the error
`email_send_failed` that wraps the delivery error, together with the session,
which has status `INITIATED`; the session stays in the store, and when the
driver carries out the update of the delivery status the stored row is the
returned session with `email_status` `FAILED` and `email_error` the delivery
message. The handler answers 206 with the key, the token and the check-in code
of the session, as long as the text of the error contains none of the four
codes that the handler tests before `email_send_failed`. -/
theorem InitiateCheckInProcess_mail_failure (env : Env) (s : Store) (bookingID : Nat)
    (msg : String) (hmail : env.mail = some msg)
    (hpersisted : (InitiateCheckInProcess env s bookingID).store.bookingInfos.length =
      s.bookingInfos.length + 1) :
    (InitiateCheckInProcess env s bookingID).err =
      some (.wrap "email_send_failed: " (.external msg)) ∧
    (InitiateCheckInProcess env s bookingID).session.Status = "INITIATED" ∧
    (InitiateCheckInProcess env s bookingID).session.BookingID = bookingID ∧
    (InitiateCheckInProcess env s bookingID).session.EmailStatus = "FAILED" ∧
    (InitiateCheckInProcess env s bookingID).session.EmailError = msg ∧
    (∃ row, (InitiateCheckInProcess env s bookingID).store.bookingInfos =
        s.bookingInfos ++ [row] ∧
      row.DeletedAt = none ∧
      (row = (InitiateCheckInProcess env s bookingID).session ∨
        row = { (InitiateCheckInProcess env s bookingID).session with
                EmailStatus := "PENDING", EmailError := "" }) ∧
      (env.fault .updateEmailStatus = none →
        row = (InitiateCheckInProcess env s bookingID).session)) ∧
    (Contains ("email_send_failed: " ++ msg) "booking_not_found" = false →
      Contains ("email_send_failed: " ++ msg) "already_checked_in" = false →
      Contains ("email_send_failed: " ++ msg) "checkin_already_initiated" = false →
      Contains ("email_send_failed: " ++ msg) "booking_checked_out" = false →
      InitiateCheckInAnswer (InitiateCheckInProcess env s bookingID) =
        (206, some ((InitiateCheckInProcess env s bookingID).session.ID,
          (InitiateCheckInProcess env s bookingID).session.Token,
          (InitiateCheckInProcess env s bookingID).session.CheckinCode))) := by
  rcases InitiateCheckInProcess_cases env s bookingID with ⟨err, he⟩ | ⟨booking, bi, s1, k, token,
    raw, formatted, -, -, -, -, -, -, -, -, -, hcreate, hres⟩
  · rw [he] at hpersisted
    simp at hpersisted
  · obtain ⟨-, hs1, hrow, -, -⟩ := createBookingInfo_ok _ _ _ _ _ _ hcreate
    have hdel : bi.DeletedAt = none := by rw [hrow]; rfl
    have hst : bi.Status = "INITIATED" := by rw [hrow]; rfl
    have hbk : bi.BookingID = bookingID := by rw [hrow]; rfl
    have hes : bi.EmailStatus = "PENDING" := by rw [hrow]; rfl
    have hee : bi.EmailError = "" := by rw [hrow]; rfl
    have hid : bi.ID = nextID (s.bookingInfos.map (fun r => r.ID)) := by rw [hrow]
    have hres2 : InitiateCheckInProcess env s bookingID =
        ⟨{ bi with EmailStatus := "FAILED", EmailError := msg },
          some (.wrap "email_send_failed: " (.external msg)),
          updateEmailStatus env s1 bi.ID
            (fun r => { r with EmailStatus := "FAILED", EmailError := msg })⟩ := by
      rw [hres]
      unfold deliver
      rw [hmail]
      rfl
    rw [hres2]
    refine ⟨rfl, hst, hbk, rfl, rfl, ?_, ?_⟩
    · rw [hs1]
      rcases updateEmailStatus_new env s bi
        (fun r => { r with EmailStatus := "FAILED", EmailError := msg }) hdel hid with h | ⟨hf, h⟩
      · refine ⟨bi, h, hdel, Or.inr ?_, ?_⟩
        · simp only
          rw [← hes, ← hee]
        · intro hf
          rcases updateEmailStatus_new env s bi
            (fun r => { r with EmailStatus := "FAILED", EmailError := msg }) hdel hid
            with h2 | ⟨-, h2⟩
          · exfalso
            have h3 : (updateEmailStatus env { s with bookingInfos := s.bookingInfos ++ [bi] }
                bi.ID (fun r => { r with EmailStatus := "FAILED", EmailError := msg })).bookingInfos
                = s.bookingInfos ++ [{ bi with EmailStatus := "FAILED", EmailError := msg }] := by
              unfold updateEmailStatus updateByID
              have hne : bi.ID ≠ 0 := by rw [hid]; exact nextID_ne_zero _
              simp only [hf, hne, if_false, List.map_append, List.map_cons, List.map_nil, hdel,
                and_self, if_true]
              congr 1
              apply map_eq_self
              intro r hr
              have : r.ID ≠ bi.ID := by
                rw [hid]
                exact nextID_fresh _ _ (List.mem_map.mpr ⟨r, hr, rfl⟩)
              simp [this]
            rw [h3] at h2
            have h4 := List.append_cancel_left h2
            simp only [List.cons.injEq, and_true] at h4
            have h5 := congrArg BookingInfo.EmailStatus h4
            simp only at h5
            rw [hes] at h5
            exact absurd h5 (by decide)
          · rw [h] at h2
            have h4 := List.append_cancel_left h2
            simp only [List.cons.injEq, and_true] at h4
            exact h4
      · exact ⟨_, h, hdel, Or.inl rfl, fun _ => rfl⟩
    · intro c1 c2 c3 c4
      have c5 : Contains ("email_send_failed: " ++ msg) "email_send_failed" = true :=
        Contains_append_left _ _ _ (by decide) (by decide)
      unfold InitiateCheckInAnswer
      simp only [GoError.Error, c1, c2, c3, c4, c5, Bool.false_eq_true, if_false, if_true]

/-- C12, on an example: the delivery fails for the session made for the booking
of `demoStoreFresh`; the session is returned with the error, it is the one row
of `booking_infos`, and the handler answers 206 with its token and code. -/
theorem InitiateCheckInProcess_mail_failure_witness :
    (InitiateCheckInProcess demoEnvMailFails demoStoreFresh 1).err =
      some (.wrap "email_send_failed: " (.external "dial tcp: connection refused")) ∧
    (InitiateCheckInProcess demoEnvMailFails demoStoreFresh 1).store.bookingInfos =
      [(InitiateCheckInProcess demoEnvMailFails demoStoreFresh 1).session] ∧
    (InitiateCheckInProcess demoEnvMailFails demoStoreFresh 1).session.EmailStatus = "FAILED" ∧
    InitiateCheckInAnswer (InitiateCheckInProcess demoEnvMailFails demoStoreFresh 1) =
      (206, some (1, "0b30557a9fc4e90e33587da2c7ec11365b80a5caef14395e83a8cdf2173c6186",
        "DINS-X27C")) :=
  have h := InitiateCheckInProcess_mail_failure demoEnvMailFails demoStoreFresh 1
    "dial tcp: connection refused" rfl (by decide)
  ⟨h.1, by decide, h.2.2.2.1, by decide⟩

/-! ## Effects of `CheckoutBooking` -/

theorem releaseRooms_ok (env : Env) : ∀ (brs : List BookingRoom) (i : Nat) (rooms rooms1 : List Room),
    releaseRooms env brs i rooms = .ok rooms1 →
    rooms1 = rooms.map (fun r =>
      if r.DeletedAt = none ∧ brs.any (fun br => br.RoomID = r.ID) then
        { r with Status := "Available" }
      else r) := by
  intro brs
  induction brs with
  | nil =>
    intro i rooms rooms1 h
    simp only [releaseRooms, Except.ok.injEq] at h
    subst h
    simp
  | cons br brs ih =>
    intro i rooms rooms1 h
    unfold releaseRooms at h
    split at h
    · simp at h
    · rw [ih _ _ _ h, List.map_map]
      apply List.map_congr_left
      intro r _
      simp only [Function.comp, List.any_cons, Bool.or_eq_true, decide_eq_true_eq]
      by_cases h1 : r.ID = br.RoomID ∧ r.DeletedAt = none
      · simp [h1]
      · simp only [if_neg h1]
        by_cases h2 : r.DeletedAt = none
        · have h3 : ¬(br.RoomID = r.ID) := fun e => h1 ⟨e.symm, h2⟩
          simp [h2, h3]
        · simp [h2]

theorem releaseRooms_succeeds (env : Env) (hnf : env.NoFault) :
    ∀ (brs : List BookingRoom) (i : Nat) (rooms : List Room),
      ∃ rooms1, releaseRooms env brs i rooms = .ok rooms1 := by
  intro brs
  induction brs with
  | nil => intro i rooms; exact ⟨_, rfl⟩
  | cons br brs ih =>
    intro i rooms
    unfold releaseRooms
    rw [hnf]
    exact ih _ _

/-- The transaction body of a checkout returns nil only for a booking with
status `Checked-In`, and then leaves the store `checkedOutOf`. -/
theorem checkoutBody_ok (env : Env) (bookingID : Nat) (tx tx1 : Store)
    (h : checkoutBody env bookingID tx = .ok tx1) :
    ∃ b, tx.bookings.find? (bookingByID bookingID) = some b ∧ b.Status = "Checked-In" ∧
      bookingID ≠ 0 ∧ tx1 = checkedOutOf tx env.now bookingID := by
  unfold checkoutBody at h
  split at h
  · split at h <;> simp at h
  · rename_i b hb
    have hb1 := queryFirst_ok _ _ _ _ hb
    obtain ⟨hid, -⟩ := bookingByID_id hb1
    simp only at h
    split at h
    · simp at h
    · rename_i hst
      split at h
      · simp at h
      · rename_i bookings1 hu
        obtain ⟨hne, hu1⟩ := updateByID_ok _ _ _ _ _ _ _ _ hu
        split at h
        · simp at h
        · split at h
          · simp at h
          · rename_i rooms1 hr
            have hr1 := releaseRooms_ok _ _ _ _ _ hr
            simp only [Except.ok.injEq] at h
            refine ⟨b, hb1, by simpa using hst, by rw [← hid]; exact hne, ?_⟩
            rw [← h, hu1, hr1, hid]
            rfl

theorem releaseRooms_error (env : Env) : ∀ (brs : List BookingRoom) (i : Nat) (rooms : List Room)
    (err : GoError), releaseRooms env brs i rooms = .error err → FromDriver env err := by
  intro brs
  induction brs with
  | nil => intro i rooms err h; simp [releaseRooms] at h
  | cons br brs ih =>
    intro i rooms err h
    unfold releaseRooms at h
    split at h
    · rename_i msg hm
      simp only [Except.error.injEq] at h
      exact Or.inr (Or.inr (Or.inr ⟨_, msg, hm, h.symm⟩))
    · exact ih _ _ _ h

/-- The errors of the transaction body of a checkout. -/
theorem checkoutBody_error (env : Env) (bookingID : Nat) (tx : Store) (err : GoError)
    (h : checkoutBody env bookingID tx = .error err) :
    (err = .new "booking_not_found" ∧ tx.bookings.find? (bookingByID bookingID) = none) ∨
    (err = .new "not_checked_in" ∧
      ∃ b, tx.bookings.find? (bookingByID bookingID) = some b ∧ b.Status ≠ "Checked-In") ∨
    FromDriver env err := by
  unfold checkoutBody at h
  split at h
  · rename_i e he
    rcases queryFirst_error _ _ _ _ he with ⟨h1, h2, -⟩ | ⟨msg, hm, h1⟩
    · subst h1
      simp only [GoError.isRecordNotFound, if_true, Except.error.injEq] at h
      exact Or.inl ⟨h.symm, h2⟩
    · subst h1
      simp only [GoError.isRecordNotFound, Bool.false_eq_true, if_false, Except.error.injEq] at h
      exact Or.inr (Or.inr (Or.inr (Or.inr (Or.inr ⟨_, msg, hm, h.symm⟩))))
  · rename_i b hb
    have hb1 := queryFirst_ok _ _ _ _ hb
    simp only at h
    split at h
    · rename_i hst
      simp only [Except.error.injEq] at h
      exact Or.inr (Or.inl ⟨h.symm, b, hb1, hst⟩)
    · split at h
      · rename_i e he
        simp only [Except.error.injEq] at h
        subst h
        exact Or.inr (Or.inr (updateByID_error _ _ _ _ _ _ _ _ he))
      · split at h
        · rename_i e he
          simp only [Except.error.injEq] at h
          subst h
          unfold dbFault at he
          split at he
          · rename_i msg hm
            simp only [Except.error.injEq] at he
            exact Or.inr (Or.inr (Or.inr (Or.inr (Or.inr ⟨_, msg, hm, he.symm⟩))))
          · simp at he
        · split at h
          · rename_i e he
            simp only [Except.error.injEq] at h
            subst h
            exact Or.inr (Or.inr (releaseRooms_error _ _ _ _ _ he))
          · simp at h

theorem fromDriver_ne_new (env : Env) (err : GoError) (msg : String) (h : FromDriver env err) :
    err ≠ .new msg := by
  rcases h with h | h | h | ⟨_, _, _, h⟩ <;> subst h <;> simp [duplicateEntry]

/-- The booking row that a checkout has rewritten is the one found under the
key afterwards. -/
theorem checkedOutOf_find (s : Store) (now : Time) (bookingID : Nat) (b : Booking)
    (hb : s.bookings.find? (bookingByID bookingID) = some b) :
    (checkedOutOf s now bookingID).bookings.find? (bookingByID bookingID) =
      some { b with Status := "Checked-Out", CheckOut := some now } := by
  obtain ⟨hid, hdel⟩ := bookingByID_id hb
  show (s.bookings.map _).find? _ = _
  rw [find_map_preserved, hb]
  · simp [hid, hdel]
  · intro a
    by_cases h : a.ID = bookingID ∧ a.DeletedAt = none
    · simp [h, bookingByID]
    · simp [h]

/-- The checkout of a booking whose status is not `Checked-In`. -/
theorem CheckoutBooking_refused (env : Env) (s : Store) (bookingID : Nat) (b : Booking)
    (hbegin : env.fault .begin = none) (hload : env.fault .loadBookingRooms = none)
    (hb : s.bookings.find? (bookingByID bookingID) = some b) (hst : b.Status ≠ "Checked-In") :
    CheckoutBooking env s bookingID = (some (.new "not_checked_in"), s) := by
  simp [CheckoutBooking, Transaction, hbegin, checkoutBody, queryFirst, hload, hb, hst]

/-- C13: `CheckoutBooking` and the status of the booking. While the driver
carries out the opening of the transaction and the loading of the booking, the
checkout of an existing booking fails with `not_checked_in` exactly when the
status of the booking is not the string `Checked-In`, and the checkout of a key
without booking fails with `booking_not_found`. Whatever the driver does, a
checkout that returns an error leaves the store as it was. A second checkout of
the same booking, after one that went through or after one that was refused with
`not_checked_in`, fails with `not_checked_in` and leaves the store as it was. -/
theorem CheckoutBooking_not_checked_in (env : Env) (s : Store) (bookingID : Nat)
    (hbegin : env.fault .begin = none) (hload : env.fault .loadBookingRooms = none) :
    (∀ b, s.bookings.find? (bookingByID bookingID) = some b →
      ((CheckoutBooking env s bookingID).1 = some (.new "not_checked_in") ↔
        b.Status ≠ "Checked-In")) ∧
    (∀ err, (CheckoutBooking env s bookingID).1 = some err →
      (CheckoutBooking env s bookingID).2 = s) ∧
    (s.bookings.find? (bookingByID bookingID) = none →
      CheckoutBooking env s bookingID = (some (.new "booking_not_found"), s)) ∧
    (∀ env2 : Env, env2.fault .begin = none → env2.fault .loadBookingRooms = none →
      (∃ b, s.bookings.find? (bookingByID bookingID) = some b) →
      ((CheckoutBooking env s bookingID).1 = none ∨
        (CheckoutBooking env s bookingID).1 = some (.new "not_checked_in")) →
      CheckoutBooking env2 (CheckoutBooking env s bookingID).2 bookingID =
        (some (.new "not_checked_in"), (CheckoutBooking env s bookingID).2)) := by
  refine ⟨?_, ?_, ?_, ?_⟩
  · intro b hb
    constructor
    · intro h hst
      rcases Transaction_some env s _ _ h with h1 | ⟨_, _, _, h1⟩
      · rcases checkoutBody_error _ _ _ _ h1 with ⟨h2, -⟩ | ⟨-, b1, hb1, hst1⟩ | h2
        · simp at h2
        · rw [hb] at hb1
          simp only [Option.some.injEq] at hb1
          subst hb1
          exact hst1 hst
        · exact fromDriver_ne_new _ _ _ h2 rfl
      · simp at h1
    · intro hst
      rw [CheckoutBooking_refused env s bookingID b hbegin hload hb hst]
  · intro err h
    exact Transaction_error env s _ err h
  · intro hb
    simp [CheckoutBooking, Transaction, hbegin, checkoutBody, queryFirst, hload, hb,
      GoError.isRecordNotFound]
  · rintro env2 hbegin2 hload2 ⟨b, hb⟩ h
    rcases h with h | h
    · obtain ⟨b1, hb1, -, -, h2⟩ := checkoutBody_ok _ _ _ _ (Transaction_ok env s _ h)
      have h3 : (CheckoutBooking env s bookingID).2 = checkedOutOf s env.now bookingID := h2
      rw [h3]
      exact CheckoutBooking_refused env2 _ bookingID _ hbegin2 hload2
        (checkedOutOf_find s env.now bookingID b1 hb1) (by simp)
    · have h3 : (CheckoutBooking env s bookingID).2 = s := Transaction_error env s _ _ h
      rw [h3]
      rcases Transaction_some env s _ _ h with h1 | ⟨_, _, _, h1⟩
      · rcases checkoutBody_error _ _ _ _ h1 with ⟨h2, -⟩ | ⟨-, b1, hb1, hst1⟩ | h2
        · simp at h2
        · exact CheckoutBooking_refused env2 s bookingID b1 hbegin2 hload2 hb1 hst1
        · exact absurd rfl (fromDriver_ne_new _ _ _ h2)
      · simp at h1

theorem CheckoutBooking_not_checked_in_witness :
    ((CheckoutBooking demoEnv demoStore 1).1 = some (.new "not_checked_in") ↔
      demoBooking.Status ≠ "Checked-In") ∧
    (CheckoutBooking demoEnv demoStore 1).2 = demoStore ∧
    CheckoutBooking demoEnv demoStore 7 = (some (.new "booking_not_found"), demoStore) ∧
    CheckoutBooking demoEnvLate (CheckoutBooking demoEnv demoStore 1).2 1 =
      (some (.new "not_checked_in"), (CheckoutBooking demoEnv demoStore 1).2) :=
  have h := CheckoutBooking_not_checked_in demoEnv demoStore 1 rfl rfl
  have h7 := CheckoutBooking_not_checked_in demoEnv demoStore 7 rfl rfl
  ⟨h.1 demoBooking (by decide), h.2.1 (.new "not_checked_in") (by decide),
    h7.2.2.1 (by decide),
    h.2.2.2 demoEnvLate rfl rfl ⟨demoBooking, by decide⟩ (Or.inr (by decide))⟩

/-- C14: the effect of a checkout. For a booking with status `Checked-In`, a
call of `CheckoutBooking` that returns nil leaves the store `checkedOutOf`: the
row of the booking has status `Checked-Out` and check-out instant now, every
session of the booking that is not soft-deleted has token expiry now and status
`EXPIRED`, every room that is not soft-deleted and is named by an assignment of
the booking (a row of `booking_rooms` that is not soft-deleted) has status
`Available`, every other field and every other row of the three tables is as it
was, and the other tables are untouched. The call returns nil whenever the
driver carries out every statement and the key of the booking is not zero. -/
theorem CheckoutBooking_effect (env : Env) (s : Store) (bookingID : Nat) (b : Booking)
    (hb : s.bookings.find? (bookingByID bookingID) = some b) (hst : b.Status = "Checked-In") :
    ((CheckoutBooking env s bookingID).1 = none →
      (CheckoutBooking env s bookingID).2 = checkedOutOf s env.now bookingID ∧
      (CheckoutBooking env s bookingID).2.bookings.find? (bookingByID bookingID) =
        some { b with Status := "Checked-Out", CheckOut := some env.now } ∧
      List.Forall₂ (fun r r1 => r.ID ≠ bookingID → r1 = r)
        s.bookings (CheckoutBooking env s bookingID).2.bookings ∧
      List.Forall₂ (fun r r1 =>
          if r.BookingID = bookingID ∧ r.DeletedAt = none then
            r1 = { r with ExpiresAt := some env.now, Status := "EXPIRED" }
          else r1 = r)
        s.bookingInfos (CheckoutBooking env s bookingID).2.bookingInfos ∧
      List.Forall₂ (fun r r1 =>
          if r.DeletedAt = none ∧ ∃ br ∈ s.bookingRooms,
              br.BookingID = bookingID ∧ br.DeletedAt = none ∧ br.RoomID = r.ID then
            r1 = { r with Status := "Available" }
          else r1 = r)
        s.rooms (CheckoutBooking env s bookingID).2.rooms) ∧
    (env.NoFault → bookingID ≠ 0 → (CheckoutBooking env s bookingID).1 = none) := by
  constructor
  · intro hok
    obtain ⟨b1, hb1, -, -, h2⟩ := checkoutBody_ok _ _ _ _ (Transaction_ok env s _ hok)
    have h3 : (CheckoutBooking env s bookingID).2 = checkedOutOf s env.now bookingID := h2
    rw [h3]
    refine ⟨rfl, checkedOutOf_find s env.now bookingID b hb, ?_, ?_, ?_⟩
    · show List.Forall₂ _ _ (s.bookings.map _)
      rw [List.forall₂_map_right_iff]
      apply List.forall₂_same.2
      intro r _ hne
      simp [hne]
    · show List.Forall₂ _ _ (s.bookingInfos.map _)
      rw [List.forall₂_map_right_iff]
      apply List.forall₂_same.2
      intro r _
      by_cases h : r.BookingID = bookingID ∧ r.DeletedAt = none
      · simp [h]
      · simp [h]
    · show List.Forall₂ _ _ (s.rooms.map _)
      rw [List.forall₂_map_right_iff]
      apply List.forall₂_same.2
      intro r _
      have hiff : ((assignmentsOf s bookingID).any (fun br => br.RoomID = r.ID) = true) ↔
          ∃ br ∈ s.bookingRooms,
            br.BookingID = bookingID ∧ br.DeletedAt = none ∧ br.RoomID = r.ID := by
        simp only [assignmentsOf, List.any_eq_true, List.mem_filter, decide_eq_true_eq]
        constructor
        · rintro ⟨br, ⟨hm, h1, h2⟩, h3⟩
          exact ⟨br, hm, h1, h2, h3⟩
        · rintro ⟨br, hm, h1, h2, h3⟩
          exact ⟨br, ⟨hm, h1, h2⟩, h3⟩
      by_cases h : r.DeletedAt = none ∧ ∃ br ∈ s.bookingRooms,
          br.BookingID = bookingID ∧ br.DeletedAt = none ∧ br.RoomID = r.ID
      · rw [if_pos h, if_pos ⟨h.1, hiff.2 h.2⟩]
      · rw [if_neg h, if_neg (fun h1 => h ⟨h1.1, hiff.1 h1.2⟩)]
  · intro hnf hne
    obtain ⟨hid, -⟩ := bookingByID_id hb
    obtain ⟨rooms1, hr⟩ := releaseRooms_succeeds env hnf
      (s.bookingRooms.filter (fun br => br.BookingID = b.ID ∧ br.DeletedAt = none)) 0 s.rooms
    have hne1 : b.ID ≠ 0 := by rw [hid]; exact hne
    simp only [Bool.decide_and] at hr
    simp [CheckoutBooking, Transaction, hnf .begin, hnf .commit, checkoutBody, queryFirst,
      hnf .loadBookingRooms, hb, hst, updateByID, hnf .checkoutBooking, hne1, dbFault,
      hnf .expireSessions, hr]

theorem CheckoutBooking_effect_witness :
    (CheckoutBooking demoEnvLate
        (FinalizeCheckInTransaction demoEnv demoStore "tok" demoGuests demoConsents).2 1).1 = none ∧
    ((CheckoutBooking demoEnvLate
        (FinalizeCheckInTransaction demoEnv demoStore "tok" demoGuests demoConsents).2 1).2.bookings.map
      (fun r => (r.Status, r.CheckOut))) = [("Checked-Out", some 200)] ∧
    ((CheckoutBooking demoEnvLate
        (FinalizeCheckInTransaction demoEnv demoStore "tok" demoGuests demoConsents).2 1).2.bookingInfos.map
      (fun r => (r.Status, r.ExpiresAt))) = [("EXPIRED", some 200)] ∧
    ((CheckoutBooking demoEnvLate
        (FinalizeCheckInTransaction demoEnv demoStore "tok" demoGuests demoConsents).2 1).2.rooms.map
      (fun r => r.Status)) = ["Available"] :=
  have h := CheckoutBooking_effect demoEnvLate
    (FinalizeCheckInTransaction demoEnv demoStore "tok" demoGuests demoConsents).2 1
    (checkedIn 5 2 demoBooking) (by decide) rfl
  have hok := h.2 (fun _ => rfl) (by decide)
  ⟨hok, by rw [(h.1 hok).1]; decide, by rw [(h.1 hok).1]; decide, by rw [(h.1 hok).1]; decide⟩

/-! ## `VerifyToken` after a checkout -/

/-- The session that `InitiateCheckInProcess` inserts carries a token that no
row of the table carried. -/
theorem InitiateCheckInProcess_infos_fresh (env : Env) (s : Store) (bookingID : Nat) :
    (InitiateCheckInProcess env s bookingID).store.bookingInfos = s.bookingInfos ∨
    ∃ (bi : BookingInfo) (g : BookingInfo → BookingInfo),
      (∀ r ∈ s.bookingInfos, r.Token ≠ bi.Token) ∧
      (∀ r, g r = { r with EmailStatus := (g r).EmailStatus, EmailError := (g r).EmailError }) ∧
      (InitiateCheckInProcess env s bookingID).store.bookingInfos =
        (s.bookingInfos ++ [bi]).map g := by
  rcases InitiateCheckInProcess_cases env s bookingID with ⟨err, h⟩ | ⟨booking, bi, s1, k, token,
    raw, formatted, -, -, -, -, -, -, -, -, -, hcreate, hres⟩
  · left; rw [h]
  · right
    obtain ⟨-, hs1, hrow, hfresh, -⟩ := createBookingInfo_ok _ _ _ _ _ _ hcreate
    obtain ⟨g, hg, hstore⟩ := deliver_store env s1 bi
    refine ⟨bi, g, ?_, hg, by rw [hres, hstore, hs1]⟩
    intro r hr
    rw [hrow]
    exact hfresh r hr

/-- A rewrite of the sessions that keeps token and soft-delete mark, and keeps
the token expiry or sets it to an instant that has passed, makes no session
answer to a token to which none answered. -/
theorem spent_map (token : String) (now : Time) (f : BookingInfo → BookingInfo)
    (l : List BookingInfo)
    (hf : ∀ r, (f r).Token = r.Token ∧ (f r).DeletedAt = r.DeletedAt ∧
      ((f r).ExpiresAt = r.ExpiresAt ∨ ∃ e, (f r).ExpiresAt = some e ∧ e ≤ now))
    (h : ∀ r ∈ l, sessionByToken token now r = false) :
    ∀ r ∈ l.map f, sessionByToken token now r = false := by
  intro r hr
  obtain ⟨r0, hr0, rfl⟩ := List.mem_map.mp hr
  have h0 := h r0 hr0
  obtain ⟨h1, h2, h3⟩ := hf r0
  unfold sessionByToken tokenUnexpired at h0 ⊢
  rw [h1, h2]
  rcases h3 with h3 | ⟨e, h3, he⟩
  · rw [h3]; exact h0
  · rw [h3]
    have : ¬ now < e := Nat.not_lt.mpr he
    simp [this]

theorem spent_later (token : String) {now now2 : Time} (hle : now ≤ now2) (l : List BookingInfo)
    (h : ∀ r ∈ l, sessionByToken token now r = false) :
    ∀ r ∈ l, sessionByToken token now2 r = false := by
  intro r hr
  cases h2 : sessionByToken token now2 r with
  | false => rfl
  | true =>
    have h3 := h r hr
    rw [sessionByToken_mono hle h2] at h3
    exact absurd h3 (by simp)

/-- After a checkout that went through, along every later course of the life
cycle, no session answers to a token of the booking. -/
theorem reachable_spent (env : Env) (s : Store) (bookingID : Nat) (token : String)
    (hok : (CheckoutBooking env s bookingID).1 = none)
    (hsession : ∃ bi ∈ s.bookingInfos, bi.Token = token)
    (hown : ∀ bi ∈ s.bookingInfos, bi.Token = token → bi.BookingID = bookingID)
    (t : Store) (now : Time) (hreach : Reachable (CheckoutBooking env s bookingID).2 t now) :
    (∃ bi ∈ t.bookingInfos, bi.Token = token) ∧
    ∀ now2, env.now ≤ now2 → now ≤ now2 →
      ∀ r ∈ t.bookingInfos, sessionByToken token now2 r = false := by
  induction hreach with
  | start t0 =>
    obtain ⟨b1, -, -, -, h2⟩ := checkoutBody_ok _ _ _ _ (Transaction_ok env s _ hok)
    have h3 : (CheckoutBooking env s bookingID).2 = checkedOutOf s env.now bookingID := h2
    rw [h3]
    constructor
    · obtain ⟨bi, hbi, ht⟩ := hsession
      refine ⟨_, List.mem_map.mpr ⟨bi, hbi, rfl⟩, ?_⟩
      split
      · exact ht
      · exact ht
    · intro now2 hle _ r hr
      obtain ⟨r0, hr0, rfl⟩ := List.mem_map.mp hr
      by_cases htok : r0.Token = token
      · by_cases hdel : r0.DeletedAt = none
        · have hb := hown r0 hr0 htok
          have : ¬ now2 < env.now := Nat.not_lt.mpr hle
          simp [hb, hdel, sessionByToken, tokenUnexpired, this]
        · have : (if r0.BookingID = bookingID ∧ r0.DeletedAt = none then
              { r0 with ExpiresAt := some env.now, Status := "EXPIRED" } else r0) = r0 := by
            simp [hdel]
          rw [this]
          simp [sessionByToken, hdel]
      · unfold sessionByToken
        split <;> simp [htok]
  | wait t2 _ hle ih =>
    exact ⟨ih.1, fun now2 h1 h2 => ih.2 now2 h1 (Nat.le_trans hle h2)⟩
  | createSession env1 bid _ hle ih =>
    rename_i s1 t1 hreach
    rcases InitiateCheckInProcess_infos_fresh env1 s1 bid with h | ⟨bi, g, hfresh, hg, h⟩
    · rw [h]
      exact ⟨ih.1, fun now2 h1 h2 => ih.2 now2 h1 (Nat.le_trans hle h2)⟩
    · rw [h]
      obtain ⟨r0, hr0, ht0⟩ := ih.1
      have hgt : ∀ r, (g r).Token = r.Token ∧ (g r).DeletedAt = r.DeletedAt ∧
          (g r).ExpiresAt = r.ExpiresAt := by
        intro r
        refine ⟨?_, ?_, ?_⟩ <;> rw [hg r]
      constructor
      · exact ⟨g r0, List.mem_map.mpr ⟨r0, List.mem_append_left _ hr0, rfl⟩, by
          rw [(hgt r0).1]; exact ht0⟩
      · intro now2 h1 h2
        apply spent_map token now2 g _ (fun r => ⟨(hgt r).1, (hgt r).2.1, Or.inl (hgt r).2.2⟩)
        intro r hr
        rcases List.mem_append.mp hr with hr | hr
        · exact ih.2 now2 h1 (Nat.le_trans hle h2) r hr
        · simp only [List.mem_singleton] at hr
          subst hr
          have hne : r.Token ≠ token := fun e => hfresh r0 hr0 (by rw [ht0, e])
          simp [sessionByToken, hne]
  | finalizeCheckIn env1 tok guests consents _ hle ih =>
    rename_i s1 t1 hreach
    obtain ⟨f, hf, h⟩ := FinalizeCheckInTransaction_infos env1 s1 tok guests consents
    rw [h]
    have hft : ∀ r, (f r).Token = r.Token ∧ (f r).DeletedAt = r.DeletedAt ∧
        (f r).ExpiresAt = r.ExpiresAt := by
      intro r
      rcases hf r with e | e <;> rw [e] <;> exact ⟨rfl, rfl, rfl⟩
    obtain ⟨r0, hr0, ht0⟩ := ih.1
    constructor
    · exact ⟨f r0, List.mem_map.mpr ⟨r0, hr0, rfl⟩, by rw [(hft r0).1]; exact ht0⟩
    · intro now2 h1 h2
      exact spent_map token now2 f _ (fun r => ⟨(hft r).1, (hft r).2.1, Or.inl (hft r).2.2⟩)
        (ih.2 now2 h1 (Nat.le_trans hle h2))
  | checkout env1 bid _ hle ih =>
    rename_i s1 t1 hreach
    rcases CheckoutBooking_infos env1 s1 bid with h | h
    · rw [h]
      exact ⟨ih.1, fun now2 h1 h2 => ih.2 now2 h1 (Nat.le_trans hle h2)⟩
    · rw [h]
      obtain ⟨r0, hr0, ht0⟩ := ih.1
      constructor
      · refine ⟨_, List.mem_map.mpr ⟨r0, hr0, rfl⟩, ?_⟩
        split
        · exact ht0
        · exact ht0
      · intro now2 h1 h2
        apply spent_map token now2 _ _ _ (ih.2 now2 h1 (Nat.le_trans hle h2))
        intro r
        split
        · exact ⟨rfl, rfl, Or.inr ⟨env1.now, rfl, h2⟩⟩
        · exact ⟨rfl, rfl, Or.inl rfl⟩

/-- C15, as claimed, fails: the token `tok` of `demoStore` is accepted with 200
before the checkout of its booking, and after the checkout `VerifyToken` answers
it with 401 `error.invalidOrExpiredToken`, not with 410
`error.bookingCheckedOut`: the checkout has set the token expiry to its own
instant, so the look-up of the session finds nothing and the test of the
booking status is not reached. -/
theorem VerifyToken_checked_out_unauthorized :
    VerifyToken demoEnv checkedInStore "tok" "" =
      { status := 200, code := "already_checked_in", bookingId := 1 } ∧
    (CheckoutBooking { now := 50 } checkedInStore 1).1 = none ∧
    (CheckoutBooking { now := 50 } checkedInStore 1).2 = checkedOutStore ∧
    VerifyToken { now := 50 } checkedOutStore "tok" "" =
      { status := 401, code := "error.invalidOrExpiredToken" } ∧
    VerifyToken { now := 60 } checkedOutStore "" "Bearer tok" =
      { status := 401, code := "error.invalidOrExpiredToken" } := by
  decide

/-- C15, amended: after a checkout that went through, a token of a session of
the booking is refused by `VerifyToken` on every later call. In every state that
the life cycle reaches from the store the checkout left, and at every instant
from the checkout on, the answer to a request that carries the token is 401
`error.invalidOrExpiredToken` when the driver answers the look-up of the
session, and 500 `error.internal` otherwise; it is never a 200 and never 410
`error.bookingCheckedOut`. -/
theorem VerifyToken_after_checkout (env : Env) (s : Store) (bookingID : Nat) (token : String)
    (hok : (CheckoutBooking env s bookingID).1 = none)
    (hsession : ∃ bi ∈ s.bookingInfos, bi.Token = token ∧ bi.BookingID = bookingID)
    (hown : ∀ bi ∈ s.bookingInfos, bi.Token = token → bi.BookingID = bookingID)
    (t : Store) (now : Time) (hreach : Reachable (CheckoutBooking env s bookingID).2 t now)
    (env2 : Env) (hlater : env.now ≤ env2.now) (hnow : now ≤ env2.now)
    (query authHeader : String) (hreq : requestToken query authHeader ≠ "")
    (htoken : TrimSpace (requestToken query authHeader) = token) :
    (env2.fault .verifySession = none →
      VerifyToken env2 t query authHeader =
        { status := 401, code := "error.invalidOrExpiredToken" }) ∧
    (∀ msg, env2.fault .verifySession = some msg →
      VerifyToken env2 t query authHeader = { status := 500, code := "error.internal" }) ∧
    (VerifyToken env2 t query authHeader).status ≠ 200 ∧
    (VerifyToken env2 t query authHeader).status ≠ 410 := by
  obtain ⟨bi0, hbi0, ht0, -⟩ := hsession
  have hspent := (reachable_spent env s bookingID token hok ⟨bi0, hbi0, ht0⟩ hown t now hreach).2
    env2.now hlater hnow
  have hfind : t.bookingInfos.find? (sessionByToken token env2.now) = none :=
    List.find?_eq_none.mpr (fun r hr => by rw [hspent r hr]; simp)
  have h1 : env2.fault .verifySession = none →
      VerifyToken env2 t query authHeader =
        { status := 401, code := "error.invalidOrExpiredToken" } := by
    intro hf
    simp [VerifyToken, hreq, htoken, hfind, queryFirst, hf, GoError.isRecordNotFound]
  have h2 : ∀ msg, env2.fault .verifySession = some msg →
      VerifyToken env2 t query authHeader = { status := 500, code := "error.internal" } := by
    intro msg hf
    simp [VerifyToken, hreq, htoken, queryFirst, hf, GoError.isRecordNotFound]
  refine ⟨h1, h2, ?_, ?_⟩
  · cases hf : env2.fault .verifySession with
    | none => rw [h1 hf]; decide
    | some msg => rw [h2 msg hf]; decide
  · cases hf : env2.fault .verifySession with
    | none => rw [h1 hf]; decide
    | some msg => rw [h2 msg hf]; decide

theorem VerifyToken_after_checkout_witness :
    (CheckoutBooking { now := 50 } checkedInStore 1).1 = none ∧
    VerifyToken { now := 260 } (CheckoutBooking demoEnvLate (CheckoutBooking { now := 50 }
        checkedInStore 1).2 1).2 "" "Bearer tok" =
      { status := 401, code := "error.invalidOrExpiredToken" } :=
  ⟨by decide,
    (VerifyToken_after_checkout { now := 50 } checkedInStore 1 "tok" (by decide)
      ⟨{ demoSession with Status := "COMPLETED" }, by decide, rfl, rfl⟩
      (by decide) _ 200 (Reachable.checkout demoEnvLate 1 (Reachable.start 50) (by decide))
      { now := 260 } (by decide) (by decide) "" "Bearer tok" (by decide) (by decide)).1 rfl⟩

/-! ## Validation by code and query -/

/-- The errors of `ValidateCheckinCodeByBooking`. -/
theorem ValidateCheckinCodeByBooking_errors (env : Env) (s : Store) (code query : String) :
    (ValidateCheckinCodeByBooking env s code query).2 = none ∨
    (ValidateCheckinCodeByBooking env s code query).2 = some (.new "invalid_or_expired_code") ∨
    (ValidateCheckinCodeByBooking env s code query).2 = some (.new "invalid_query") ∨
    ∃ msg, env.fault .validateCode = some msg ∧
      (ValidateCheckinCodeByBooking env s code query).2 =
        some (.wrap "failed to validate code: " (.driver msg)) := by
  unfold ValidateCheckinCodeByBooking
  simp only
  split
  · exact Or.inr (Or.inl rfl)
  · split
    · exact Or.inr (Or.inr (Or.inl rfl))
    · split
      · rename_i err he
        rcases queryFirst_error _ _ _ _ he with ⟨h1, -, -⟩ | ⟨msg, hm, h1⟩
        · subst h1
          exact Or.inr (Or.inl rfl)
        · subst h1
          exact Or.inr (Or.inr (Or.inr ⟨msg, hm, rfl⟩))
      · exact Or.inl rfl

/-- C16: the check-in code after a checkout. The booking of `checkedInStore` is
checked out at instant 50. At the instants 60 and 699, before the code expiry
700 of its session, `ValidateCheckinCodeByBooking` with the code of the session
and the disambiguator `lee` (part of the name of the customer) or `bk-1` (the
reference of the booking) returns that session with a nil error, for which the
handler answers 200; from the code expiry on the error is
`invalid_or_expired_code`. For no store, code and query is the error of the
service `booking_checked_out`, the error for which the handler holds the answer
410. -/
theorem ValidateCheckinCodeByBooking_after_checkout :
    (CheckoutBooking { now := 50 } checkedInStore 1).1 = none ∧
    (CheckoutBooking { now := 50 } checkedInStore 1).2 = checkedOutStore ∧
    ValidateCheckinCodeByBooking { now := 60 } checkedOutStore "abcd1234" "lee" =
      ({ demoSession with Status := "EXPIRED", ExpiresAt := some 50 }, none) ∧
    ValidateCheckinCodeByBooking { now := 699 } checkedOutStore "ABCD-1234" "bk-1" =
      ({ demoSession with Status := "EXPIRED", ExpiresAt := some 50 }, none) ∧
    BookingController.ValidateCheckinCode
      (ValidateCheckinCodeByBooking { now := 60 } checkedOutStore "abcd1234" "lee").2 = 200 ∧
    ValidateCheckinCodeByBooking { now := 700 } checkedOutStore "ABCD-1234" "lee" =
      ({}, some (.new "invalid_or_expired_code")) ∧
    BookingController.ValidateCheckinCode (some (.new "booking_checked_out")) = 410 ∧
    ∀ (env : Env) (s : Store) (code query : String),
      (ValidateCheckinCodeByBooking env s code query).2 ≠ some (.new "booking_checked_out") := by
  refine ⟨by decide, by decide, by decide, by decide, by decide, by decide, by decide, ?_⟩
  intro env s code query
  rcases ValidateCheckinCodeByBooking_errors env s code query with h | h | h | ⟨msg, -, h⟩ <;>
    rw [h] <;> simp

/-- C17: `ValidateCheckinCodeByBooking` does not tell a code that has expired
from a code that no session carries. Take two requests made at the same instant,
each with a well-formed code and a disambiguator that is not blank: one meets a
store in which every session that carries its code has a code expiry that has
passed, the other a store in which no session carries its code. Both return the
same pair, and while the driver answers the look-up that pair is the zero
session with the error `invalid_or_expired_code`. -/
theorem ValidateCheckinCodeByBooking_no_leak (env : Env) (s1 s2 : Store)
    (code1 query1 code2 query2 : String)
    (hcode1 : goLen (NormalizeCheckinCode code1).data = 8)
    (hcode2 : goLen (NormalizeCheckinCode code2).data = 8)
    (hquery1 : ToLower (TrimSpace query1) ≠ "") (hquery2 : ToLower (TrimSpace query2) ≠ "")
    (hexpired : ∀ bi ∈ s1.bookingInfos,
      codeIs (ToUpper ⟨takeBytes 4 (NormalizeCheckinCode code1).data ++
          '-' :: dropBytes 4 (NormalizeCheckinCode code1).data⟩) (ToUpper code1) bi = true →
        ∃ e, bi.CodeExpiresAt = some e ∧ e ≤ env.now)
    (habsent : ∀ bi ∈ s2.bookingInfos,
      codeIs (ToUpper ⟨takeBytes 4 (NormalizeCheckinCode code2).data ++
          '-' :: dropBytes 4 (NormalizeCheckinCode code2).data⟩) (ToUpper code2) bi = false) :
    ValidateCheckinCodeByBooking env s1 code1 query1 =
      ValidateCheckinCodeByBooking env s2 code2 query2 ∧
    (env.fault .validateCode = none →
      ValidateCheckinCodeByBooking env s1 code1 query1 =
        ({}, some (.new "invalid_or_expired_code"))) := by
  have h1 : s1.bookingInfos.find? (fun bi =>
      codeIs (ToUpper ⟨takeBytes 4 (NormalizeCheckinCode code1).data ++
          '-' :: dropBytes 4 (NormalizeCheckinCode code1).data⟩) (ToUpper code1) bi &&
        queryMatches s1 (ToLower (TrimSpace query1)) bi &&
        codeUnexpired env.now bi && decide (bi.DeletedAt = none)) = none := by
    rw [List.find?_eq_none]
    intro bi hbi
    cases hc : codeIs (ToUpper ⟨takeBytes 4 (NormalizeCheckinCode code1).data ++
          '-' :: dropBytes 4 (NormalizeCheckinCode code1).data⟩) (ToUpper code1) bi with
    | false => simp
    | true =>
      obtain ⟨e, he, hle⟩ := hexpired bi hbi hc
      have : ¬ env.now < e := Nat.not_lt.mpr hle
      simp [codeUnexpired, he, this]
  have h2 : s2.bookingInfos.find? (fun bi =>
      codeIs (ToUpper ⟨takeBytes 4 (NormalizeCheckinCode code2).data ++
          '-' :: dropBytes 4 (NormalizeCheckinCode code2).data⟩) (ToUpper code2) bi &&
        queryMatches s2 (ToLower (TrimSpace query2)) bi &&
        codeUnexpired env.now bi && decide (bi.DeletedAt = none)) = none := by
    rw [List.find?_eq_none]
    intro bi hbi
    simp [habsent bi hbi]
  have e1 : ValidateCheckinCodeByBooking env s1 code1 query1 =
      match env.fault .validateCode with
      | some msg => ({}, some (.wrap "failed to validate code: " (.driver msg)))
      | none => ({}, some (.new "invalid_or_expired_code")) := by
    unfold ValidateCheckinCodeByBooking
    simp only [hcode1, ne_eq, not_true_eq_false, if_false, hquery1, h1, queryFirst]
    cases env.fault .validateCode <;> rfl
  have e2 : ValidateCheckinCodeByBooking env s2 code2 query2 =
      match env.fault .validateCode with
      | some msg => ({}, some (.wrap "failed to validate code: " (.driver msg)))
      | none => ({}, some (.new "invalid_or_expired_code")) := by
    unfold ValidateCheckinCodeByBooking
    simp only [hcode2, ne_eq, not_true_eq_false, if_false, hquery2, h2, queryFirst]
    cases env.fault .validateCode <;> rfl
  refine ⟨by rw [e1, e2], ?_⟩
  intro hf
  rw [e1, hf]

theorem ValidateCheckinCodeByBooking_no_leak_witness :
    ValidateCheckinCodeByBooking { now := 800 } demoStore "abcd-1234" "lee" =
      ValidateCheckinCodeByBooking { now := 800 } demoStore "zzzz9999" "BK-1" ∧
    ValidateCheckinCodeByBooking { now := 800 } demoStore "abcd-1234" "lee" =
      ({}, some (.new "invalid_or_expired_code")) :=
  have h := ValidateCheckinCodeByBooking_no_leak { now := 800 } demoStore demoStore
    "abcd-1234" "lee" "zzzz9999" "BK-1" (by decide) (by decide) (by decide) (by decide)
    (by decide) (by decide)
  ⟨h.1, h.2 rfl⟩

/-! ## The routed validation by code -/

/-- C18: the answer of `POST /checkin/validate` tells an expired code from an
unknown one. Eight days after the invitation of `invitedStore` the code
`DINS-X27C` of its session has expired: the handler answers 410 with
`confirmation code expired`, the key of the session and the instant of the
expiry. For the code `ZZZZ-9999`, which no session carries, and for the code
`DINS-X27C` on the store without the session, it answers 404 with
`confirmation code not found`. The service `ValidateCheckinCodeByBooking` with
its handler answers 401 in all three cases. -/
theorem ValidateCheckinCode_expired_or_unknown :
    BookingInfoController.ValidateCheckinCode { now := 192 * hour } invitedStore
        (some { CheckinCode := "DINS-X27C", Query := "lee" }) =
      { status := 410, error := some "confirmation code expired", bookingInfoId := some 1,
        expiresAt := some (some 604800) } ∧
    BookingInfoController.ValidateCheckinCode { now := 192 * hour } invitedStore
        (some { CheckinCode := "ZZZZ-9999", Query := "lee" }) =
      { status := 404, error := some "confirmation code not found" } ∧
    BookingInfoController.ValidateCheckinCode { now := 192 * hour } demoStoreFresh
        (some { CheckinCode := "DINS-X27C", Query := "lee" }) =
      { status := 404, error := some "confirmation code not found" } ∧
    (FindByCodeWithExpiry { now := 192 * hour } invitedStore "DINS-X27C" "DINSX27C").2 =
      (true, none) ∧
    FindByCodeWithExpiry { now := 192 * hour } invitedStore "ZZZZ-9999" "ZZZZ9999" =
      ({}, false, some .recordNotFound) ∧
    ValidateCheckinCodeByBooking { now := 192 * hour } invitedStore "DINS-X27C" "lee" =
      ({}, some (.new "invalid_or_expired_code")) ∧
    ValidateCheckinCodeByBooking { now := 192 * hour } invitedStore "ZZZZ-9999" "lee" =
      ({}, some (.new "invalid_or_expired_code")) ∧
    ValidateCheckinCodeByBooking { now := 192 * hour } demoStoreFresh "DINS-X27C" "lee" =
      ({}, some (.new "invalid_or_expired_code")) ∧
    BookingController.ValidateCheckinCode (some (.new "invalid_or_expired_code")) = 401 := by
  decide

/-- C19: the answer of `POST /checkin/validate` does not depend on the query.
For the code `ABCD-1234` of the session of `demoStore`, before its expiry, the
handler answers 200 with the token `tok` of the session when the query is
`nobody`, which matches neither the name `Ann Lee` of the customer nor the
reference `BK-1` of the booking, and when there is no query; the service
`ValidateCheckinCodeByBooking` refuses both requests. For every store, code and
pair of queries the two answers of the handler are the same. -/
theorem ValidateCheckinCode_ignores_query :
    BookingInfoController.ValidateCheckinCode demoEnv demoStore
        (some { CheckinCode := "ABCD-1234", Query := "nobody" }) =
      { status := 200, state := some "ok", bookingInfoId := some 1, bookingId := some 1,
        checkinCode := some "ABCD-1234", token := some "tok" } ∧
    BookingInfoController.ValidateCheckinCode demoEnv demoStore
        (some { CheckinCode := "ABCD-1234" }) =
      { status := 200, state := some "ok", bookingInfoId := some 1, bookingId := some 1,
        checkinCode := some "ABCD-1234", token := some "tok" } ∧
    queryMatches demoStore "nobody" demoSession = false ∧
    ValidateCheckinCodeByBooking demoEnv demoStore "ABCD-1234" "nobody" =
      ({}, some (.new "invalid_or_expired_code")) ∧
    ValidateCheckinCodeByBooking demoEnv demoStore "ABCD-1234" "" =
      ({}, some (.new "invalid_query")) ∧
    ∀ (env : Env) (s : Store) (code query1 query2 : String),
      BookingInfoController.ValidateCheckinCode env s
          (some { CheckinCode := code, Query := query1 }) =
        BookingInfoController.ValidateCheckinCode env s
          (some { CheckinCode := code, Query := query2 }) := by
  refine ⟨by decide, by decide, by decide, by decide, by decide, ?_⟩
  intro env s code query1 query2
  rfl

/-! ## `ExtendExpiry` -/

/-- A call of `ExtendExpiry` with 15 minutes that returns an expiry returns the
instant 15 minutes after now, with a nil error, and has written the session
found under the key with that instant as its code expiry, leaving every other
row as it was. -/
theorem ExtendExpiry_ok (env : Env) (s : Store) (bookingInfoId : Nat) (t : Time)
    (h : (ExtendExpiry env s bookingInfoId 15).1 = some t) :
    t = env.now + 15 * minute ∧ (ExtendExpiry env s bookingInfoId 15).2.1 = none ∧
    ∃ bi, s.bookingInfos.find? (fun bi =>
        decide (bi.ID = bookingInfoId) && decide (bi.DeletedAt = none)) = some bi ∧
      (ExtendExpiry env s bookingInfoId 15).2.2.bookingInfos =
        s.bookingInfos.map (fun r =>
          if r.ID = bookingInfoId ∧ r.DeletedAt = none then
            { bi with CodeExpiresAt := some (env.now + 15 * minute) }
          else r) := by
  have hd : ((env.now : Int) + int64 (int64 15 * minute)).toNat = env.now + 15 * minute := by
    have : int64 (int64 15 * minute) = ((15 * minute : Nat) : Int) := by decide
    rw [this, ← Int.natCast_add, Int.toNat_natCast]
  unfold ExtendExpiry at h ⊢
  generalize hq : queryFirst env .extendFind (s.bookingInfos.find? (fun bi =>
      decide (bi.ID = bookingInfoId) && decide (bi.DeletedAt = none))) = q at h ⊢
  cases q with
  | error e => simp at h
  | ok bi =>
    have hfind := queryFirst_ok _ _ _ _ hq
    have hbi1 := List.find?_some hfind
    simp only [Bool.and_eq_true, decide_eq_true_eq] at hbi1
    simp only at h ⊢
    generalize dbFault env .extendSave = u at h ⊢
    cases u with
    | error e => simp at h
    | ok v =>
      simp only at h ⊢
      by_cases hne : bi.ID = 0
      · simp [hne] at h
      · simp only [hne, if_false, Option.some.injEq] at h ⊢
        exact ⟨by rw [← h, hd], trivial, bi, hfind, by rw [hd, hbi1.1]⟩

/-- C20: `ExtendExpiry` can shorten the validity of a code. The session of
`invitedStore` was made at instant 5 with a code expiry seven days later.
`ExtendExpiry` with 15 minutes at instant 10 returns the instant 15 minutes
after 10 and writes it as the code expiry of the session, which is earlier than
the code expiry the session had. -/
theorem ExtendExpiry_shortens :
    invitedStore.bookingInfos.map (fun r => (r.ID, r.CodeExpiresAt)) =
      [(1, some (7 + 168 * hour))] ∧
    (ExtendExpiry { now := 10 } invitedStore 1 15).1 = some (10 + 15 * minute) ∧
    (ExtendExpiry { now := 10 } invitedStore 1 15).2.1 = none ∧
    (ExtendExpiry { now := 10 } invitedStore 1 15).2.2.bookingInfos.map
        (fun r => (r.ID, r.CodeExpiresAt)) = [(1, some (10 + 15 * minute))] ∧
    10 + 15 * minute < 7 + 168 * hour := by
  decide

/-! ## The code generator and the two forms of a code -/

theorem checkinCharset_alnum : ∀ c ∈ checkinCharset, isAlnum c = true := by decide

/-- C22: `GenerateCheckinCode(n)` draws `n` characters of the alphabet. For
every `n > 0` and every entropy source whose draws all deliver, the call returns
a string of exactly `n` characters, each of them one of the 36 characters of
`checkinCharset`, that is an upper-case letter `A`-`Z` or a digit; for `n ≤ 0`
it returns the error `invalid length` and no code. -/
theorem GenerateCheckinCode_alphabet (n : Int) (draw : Nat → Except String Nat) :
    (0 < n → (∀ i, ∃ v, draw i = .ok v) →
      ∃ code, GenerateCheckinCode n draw = .ok code ∧ (code.data.length : Int) = n ∧
        (∀ c ∈ code.data, c ∈ checkinCharset) ∧ (∀ c ∈ code.data, isUpperAlnum c = true)) ∧
    (n ≤ 0 → GenerateCheckinCode n draw = .error (.new "invalid length")) ∧
    checkinCharset.length = 36 := by
  refine ⟨?_, ?_, by decide⟩
  · intro hn hdraw
    obtain ⟨out, hout⟩ := generateCodeLoop_succeeds draw hdraw n.toNat 0 []
    obtain ⟨tail, h1, h2, h3⟩ := generateCodeLoop_ok draw _ _ _ _ hout
    simp only [List.nil_append] at h1
    subst h1
    refine ⟨⟨out⟩, ?_, ?_, h3, fun c hc => (checkinCharset_facts c (h3 c hc)).2.2.2.2⟩
    · unfold GenerateCheckinCode
      rw [if_neg (not_le.mpr hn), hout]
    · show (out.length : Int) = n
      rw [h2]
      exact Int.toNat_of_nonneg (le_of_lt hn)
  · intro hn
    unfold GenerateCheckinCode
    rw [if_pos hn]

theorem GenerateCheckinCode_alphabet_witness :
    ∃ code, GenerateCheckinCode 8 (demoEnvInitiate.randInt 0) = .ok code ∧
      (code.data.length : Int) = 8 ∧
      (∀ c ∈ code.data, c ∈ checkinCharset) ∧ (∀ c ∈ code.data, isUpperAlnum c = true) :=
  (GenerateCheckinCode_alphabet 8 (demoEnvInitiate.randInt 0)).1 (by decide)
    (fun i => ⟨i * 5 + 3, rfl⟩)

/-! ## The room assignments after a checkout -/

/-- C23 as claimed fails: the booking of `checkedInStore` has one room
assignment with status `Reserved`; the checkout at instant 50 goes through and
sets the status of room 3 to `Available`, and the assignment still has status
`Reserved`. -/
theorem CheckoutBooking_assignment_reserved :
    checkedInStore.bookingRooms.map (fun br => (br.BookingID, br.RoomID, br.Status)) =
      [(1, 3, "Reserved")] ∧
    (CheckoutBooking { now := 50 } checkedInStore 1).1 = none ∧
    (CheckoutBooking { now := 50 } checkedInStore 1).2.bookingRooms.map
        (fun br => (br.BookingID, br.RoomID, br.Status)) = [(1, 3, "Reserved")] ∧
    (CheckoutBooking { now := 50 } checkedInStore 1).2.rooms.map (fun r => (r.ID, r.Status)) =
      [(3, "Available")] := by
  decide

/-- C23, amended: after a checkout that went through, every room that a room
assignment of the booking names has status `Available` in the table `rooms`
(rooms and assignments that are not soft-deleted); the table `booking_rooms` is
left as it was, so every assignment keeps the status it had. -/
theorem CheckoutBooking_assignments (env : Env) (s : Store) (bookingID : Nat)
    (hok : (CheckoutBooking env s bookingID).1 = none) :
    (CheckoutBooking env s bookingID).2.bookingRooms = s.bookingRooms ∧
    ∀ br ∈ s.bookingRooms, br.BookingID = bookingID → br.DeletedAt = none →
      ∀ r ∈ (CheckoutBooking env s bookingID).2.rooms, r.ID = br.RoomID → r.DeletedAt = none →
        r.Status = "Available" := by
  obtain ⟨b1, -, -, -, h2⟩ := checkoutBody_ok _ _ _ _ (Transaction_ok env s _ hok)
  have h3 : (CheckoutBooking env s bookingID).2 = checkedOutOf s env.now bookingID := h2
  rw [h3]
  refine ⟨rfl, ?_⟩
  intro br hbr hb hdel r hr hid hrdel
  obtain ⟨r0, hr0, rfl⟩ := List.mem_map.mp hr
  have hany : (assignmentsOf s bookingID).any (fun x => x.RoomID = r0.ID) = true := by
    rw [List.any_eq_true]
    refine ⟨br, ?_, ?_⟩
    · simp [assignmentsOf, hbr, hb, hdel]
    · by_cases hc : r0.DeletedAt = none ∧
          (assignmentsOf s bookingID).any (fun x => x.RoomID = r0.ID) = true
      · rw [if_pos hc] at hid
        simpa using hid.symm
      · rw [if_neg hc] at hid
        simpa using hid.symm
  by_cases hd : r0.DeletedAt = none
  · rw [if_pos ⟨hd, hany⟩]
  · rw [if_neg (fun hc => hd hc.1)] at hrdel
    exact absurd hrdel hd

theorem CheckoutBooking_assignments_witness :
    (CheckoutBooking { now := 50 } checkedInStore 1).2.bookingRooms = checkedInStore.bookingRooms ∧
    ∀ r ∈ (CheckoutBooking { now := 50 } checkedInStore 1).2.rooms, r.ID = 3 →
      r.DeletedAt = none → r.Status = "Available" :=
  have h := CheckoutBooking_assignments { now := 50 } checkedInStore 1 (by decide)
  ⟨h.1, h.2 { ID := 1, BookingID := 1, RoomID := 3, Status := "Reserved" } (by decide) rfl rfl⟩

/-! ## The status of a completed session -/

/-- C28 as claimed fails: the session of `checkedInStore` has status
`COMPLETED`; the step `Checkout` of its booking at instant 50 goes through and
leaves the session with status `EXPIRED`. -/
theorem completed_session_expired :
    checkedInStore.bookingInfos.map (fun r => (r.ID, r.BookingID, r.Status)) =
      [(1, 1, "COMPLETED")] ∧
    Reachable checkedInStore checkedOutStore 50 ∧
    (CheckoutBooking { now := 50 } checkedInStore 1).1 = none ∧
    checkedOutStore.bookingInfos.map (fun r => (r.ID, r.BookingID, r.Status)) =
      [(1, 1, "EXPIRED")] :=
  ⟨by decide, Reachable.checkout { now := 50 } 1 (Reachable.start 5) (by decide), by decide,
    by decide⟩

/-- The session at a position of the table after `InitiateCheckInProcess`: the
session that was there, up to the delivery status. -/
theorem InitiateCheckInProcess_row (env : Env) (s : Store) (bookingID : Nat) (i : Nat)
    (r : BookingInfo) (hr : s.bookingInfos[i]? = some r) :
    ∃ r1, (InitiateCheckInProcess env s bookingID).store.bookingInfos[i]? = some r1 ∧
      r1.Status = r.Status := by
  rcases InitiateCheckInProcess_infos env s bookingID with h | ⟨bi, g, -, -, hg, h⟩
  · rw [h]; exact ⟨r, hr, rfl⟩
  · rw [h, List.getElem?_map]
    have hi : i < s.bookingInfos.length := by
      by_contra hn
      rw [List.getElem?_eq_none (Nat.le_of_not_lt hn)] at hr
      simp at hr
    rw [List.getElem?_append_left hi, hr]
    exact ⟨g r, rfl, by rw [hg r]⟩

/-- The session at a position of the table after `FinalizeCheckInTransaction`:
the session that was there, with the status it had or `COMPLETED`. -/
theorem FinalizeCheckInTransaction_row (env : Env) (s : Store) (token : String)
    (guests : List Guest) (consents : List Consent) (i : Nat)
    (r : BookingInfo) (hr : s.bookingInfos[i]? = some r) :
    ∃ r1, (FinalizeCheckInTransaction env s token guests consents).2.bookingInfos[i]? = some r1 ∧
      (r1.Status = r.Status ∨ r1.Status = "COMPLETED") := by
  obtain ⟨f, hf, h⟩ := FinalizeCheckInTransaction_infos env s token guests consents
  rw [h, List.getElem?_map, hr]
  refine ⟨f r, rfl, ?_⟩
  rcases hf r with e | e <;> rw [e]
  · exact Or.inl rfl
  · exact Or.inr rfl

/-- The session at a position of the table after `CheckoutBooking`: the session
that was there, which has become `EXPIRED` exactly when the checkout went
through and it is a session of the booking that is not soft-deleted. -/
theorem CheckoutBooking_row (env : Env) (s : Store) (bookingID : Nat) (i : Nat)
    (r : BookingInfo) (hr : s.bookingInfos[i]? = some r) :
    ∃ r1, (CheckoutBooking env s bookingID).2.bookingInfos[i]? = some r1 ∧
      (((CheckoutBooking env s bookingID).1 = none ∧ r.BookingID = bookingID ∧
          r.DeletedAt = none) → r1.Status = "EXPIRED") ∧
      (¬((CheckoutBooking env s bookingID).1 = none ∧ r.BookingID = bookingID ∧
          r.DeletedAt = none) → r1 = r) := by
  cases hres : (CheckoutBooking env s bookingID).1 with
  | some err =>
    have h3 : (CheckoutBooking env s bookingID).2 = s := Transaction_error env s _ err hres
    rw [h3]
    exact ⟨r, hr, by rintro ⟨h, -⟩; simp at h, fun _ => rfl⟩
  | none =>
    obtain ⟨b1, -, -, -, h2⟩ := checkoutBody_ok _ _ _ _ (Transaction_ok env s _ hres)
    have h3 : (CheckoutBooking env s bookingID).2 = checkedOutOf s env.now bookingID := h2
    rw [h3]
    show ∃ r1, (s.bookingInfos.map _)[i]? = some r1 ∧ _
    rw [List.getElem?_map, hr]
    refine ⟨_, rfl, ?_, ?_⟩
    · rintro ⟨-, hb, hd⟩
      simp [hb, hd]
    · intro hn
      have : ¬(r.BookingID = bookingID ∧ r.DeletedAt = none) := fun hc => hn ⟨rfl, hc⟩
      simp [this]

/-- C28, amended: a session with status `COMPLETED` keeps that status through
every step `CreateSession` and `FinalizeCheckIn`; a step `Checkout` sets it to
`EXPIRED` when it goes through for the booking of the session (and the session
is not soft-deleted) and leaves the session as it is otherwise. So in every
state that the life cycle reaches from a state in which the session is
`COMPLETED`, the session, found at its place in the table, has status
`COMPLETED` or `EXPIRED`. -/
theorem completed_session_status (s0 : Store) (i : Nat) (r0 : BookingInfo)
    (h0 : s0.bookingInfos[i]? = some r0) (hc : r0.Status = "COMPLETED")
    (s : Store) (t : Time) (hreach : Reachable s0 s t) :
    ∃ r, s.bookingInfos[i]? = some r ∧ (r.Status = "COMPLETED" ∨ r.Status = "EXPIRED") ∧
      (r.Status = "COMPLETED" →
        (∀ (env : Env) (bookingID : Nat), ∃ r1,
          (InitiateCheckInProcess env s bookingID).store.bookingInfos[i]? = some r1 ∧
            r1.Status = "COMPLETED") ∧
        (∀ (env : Env) (token : String) (guests : List Guest) (consents : List Consent), ∃ r1,
          (FinalizeCheckInTransaction env s token guests consents).2.bookingInfos[i]? = some r1 ∧
            r1.Status = "COMPLETED") ∧
        (∀ (env : Env) (bookingID : Nat), ∃ r1,
          (CheckoutBooking env s bookingID).2.bookingInfos[i]? = some r1 ∧
            (((CheckoutBooking env s bookingID).1 = none ∧ r.BookingID = bookingID ∧
                r.DeletedAt = none) → r1.Status = "EXPIRED") ∧
            (¬((CheckoutBooking env s bookingID).1 = none ∧ r.BookingID = bookingID ∧
                r.DeletedAt = none) → r1 = r))) := by
  have hinv : ∃ r, s.bookingInfos[i]? = some r ∧
      (r.Status = "COMPLETED" ∨ r.Status = "EXPIRED") := by
    induction hreach with
    | start t0 => exact ⟨r0, h0, Or.inl hc⟩
    | wait t2 _ _ ih => exact ih
    | createSession env bookingID _ _ ih =>
      obtain ⟨r, hr, hst⟩ := ih
      obtain ⟨r1, h1, h2⟩ := InitiateCheckInProcess_row env _ bookingID i r hr
      exact ⟨r1, h1, by rw [h2]; exact hst⟩
    | finalizeCheckIn env token guests consents _ _ ih =>
      obtain ⟨r, hr, hst⟩ := ih
      obtain ⟨r1, h1, h2⟩ := FinalizeCheckInTransaction_row env _ token guests consents i r hr
      refine ⟨r1, h1, ?_⟩
      rcases h2 with h2 | h2
      · rw [h2]; exact hst
      · exact Or.inl h2
    | checkout env bookingID _ _ ih =>
      rename_i s1 t1 hreach1 hle1
      obtain ⟨r, hr, hst⟩ := ih
      obtain ⟨r1, h1, h2, h3⟩ := CheckoutBooking_row env s1 bookingID i r hr
      refine ⟨r1, h1, ?_⟩
      by_cases hcond : (CheckoutBooking env s1 bookingID).1 = none ∧ r.BookingID = bookingID ∧
          r.DeletedAt = none
      · exact Or.inr (h2 hcond)
      · rw [h3 hcond]; exact hst
  obtain ⟨r, hr, hst⟩ := hinv
  refine ⟨r, hr, hst, fun hcomp => ⟨?_, ?_, ?_⟩⟩
  · intro env bookingID
    obtain ⟨r1, h1, h2⟩ := InitiateCheckInProcess_row env s bookingID i r hr
    exact ⟨r1, h1, by rw [h2]; exact hcomp⟩
  · intro env token guests consents
    obtain ⟨r1, h1, h2⟩ := FinalizeCheckInTransaction_row env s token guests consents i r hr
    refine ⟨r1, h1, ?_⟩
    rcases h2 with h2 | h2
    · rw [h2]; exact hcomp
    · exact h2
  · intro env bookingID
    exact CheckoutBooking_row env s bookingID i r hr

theorem completed_session_status_witness :
    ∃ r, checkedOutStore.bookingInfos[0]? = some r ∧
      (r.Status = "COMPLETED" ∨ r.Status = "EXPIRED") :=
  have h := completed_session_status checkedInStore 0 { demoSession with Status := "COMPLETED" }
    (by decide) rfl checkedOutStore 50
    (Reachable.checkout { now := 50 } 1 (Reachable.start 5) (by decide))
  match h with
  | ⟨r, h1, h2, _⟩ => ⟨r, h1, h2⟩

/-! ## The session after a check-in that returns nil -/

/-- C29 as claimed fails: the booking of `staleSessionStore` carries a check-in
instant and the flag, and the session with token `tok2` has status `INITIATED`.
`FinalizeCheckInTransaction` with that token returns nil, writes nothing, and
the session with the token still has status `INITIATED`. -/
theorem FinalizeCheckInTransaction_leaves_initiated :
    staleSessionStore.bookings.map (fun b => (b.ID, b.CheckedInAt, b.CheckinCompleted)) =
      [(1, some 5, true)] ∧
    FinalizeCheckInTransaction { now := 6 } staleSessionStore "tok2" demoGuests demoConsents =
      (none, staleSessionStore) ∧
    (((FinalizeCheckInTransaction { now := 6 } staleSessionStore "tok2" demoGuests
        demoConsents).2.bookingInfos.find? (sessionByToken "tok2" 6)).map
      (fun r => (r.ID, r.BookingID, r.Status))) = some (2, 1, "INITIATED") := by
  decide

/-- C29, amended: when `FinalizeCheckInTransaction` returns nil, the session
that answers to the token has status `COMPLETED` in the store the call leaves,
unless the session was not `COMPLETED` and its booking already carried a
check-in instant or the flag `checkin_completed`: in that case the call has
written nothing and the session has the status it had. -/
theorem FinalizeCheckInTransaction_completes (env : Env) (s : Store) (token : String)
    (guests : List Guest) (consents : List Consent)
    (hok : (FinalizeCheckInTransaction env s token guests consents).1 = none) :
    ∃ bi, s.bookingInfos.find? (sessionByToken token env.now) = some bi ∧
      ((∃ b, s.bookings.find? (bookingByID bi.BookingID) = some b ∧ bi.Status ≠ "COMPLETED" ∧
          (b.CheckedInAt ≠ none ∨ b.CheckinCompleted = true) ∧
          (FinalizeCheckInTransaction env s token guests consents).2 = s) ∨
       (FinalizeCheckInTransaction env s token guests consents).2.bookingInfos.find?
          (sessionByToken token env.now) = some { bi with Status := "COMPLETED" }) := by
  have hbody := Transaction_ok env s _ hok
  obtain ⟨bi, h1, h2⟩ := finalizeBody_ok env token guests consents s _ hbody
  refine ⟨bi, h1, ?_⟩
  have hdel := sessionByToken_deleted h1
  rcases h2 with ⟨hst, h3⟩ | ⟨hst, b, hb, h3⟩
  · right
    have e : (FinalizeCheckInTransaction env s token guests consents).2 = s := h3
    rw [e, h1]
    congr 1
    cases bi
    simp only at hst
    subst hst
    rfl
  · rcases h3 with ⟨hflag, h4⟩ | ⟨-, -, rows, logs, -, -, h4⟩
    · left
      exact ⟨b, hb, hst, hflag, h4⟩
    · right
      have e : (FinalizeCheckInTransaction env s token guests consents).2 =
          finalizedStore s env.now bi guests.length rows logs := h4
      rw [e]
      show (s.bookingInfos.map _).find? _ = _
      rw [find_session_completed token env.now bi.ID s.bookingInfos bi h1]
      simp [hdel]

theorem FinalizeCheckInTransaction_completes_witness :
    (FinalizeCheckInTransaction demoEnv demoStore "tok" demoGuests demoConsents).1 = none ∧
    ∃ bi, demoStore.bookingInfos.find? (sessionByToken "tok" demoEnv.now) = some bi ∧
      ((∃ b, demoStore.bookings.find? (bookingByID bi.BookingID) = some b ∧
          bi.Status ≠ "COMPLETED" ∧ (b.CheckedInAt ≠ none ∨ b.CheckinCompleted = true) ∧
          (FinalizeCheckInTransaction demoEnv demoStore "tok" demoGuests demoConsents).2 =
            demoStore) ∨
       (FinalizeCheckInTransaction demoEnv demoStore "tok" demoGuests
          demoConsents).2.bookingInfos.find? (sessionByToken "tok" demoEnv.now) =
        some { bi with Status := "COMPLETED" }) :=
  ⟨by decide,
    FinalizeCheckInTransaction_completes demoEnv demoStore "tok" demoGuests demoConsents
      (by decide)⟩

/-! ## The token of a session found by its code -/

/-- A call of `ValidateCheckinCodeByBooking` that returns nil returns a stored
session that is not soft-deleted, carries the code in one of its two forms,
belongs to a booking that matches the query, and has a code expiry that is null
or later than now. -/
theorem ValidateCheckinCodeByBooking_ok (env : Env) (s : Store) (code query : String)
    (hok : (ValidateCheckinCodeByBooking env s code query).2 = none) :
    (ValidateCheckinCodeByBooking env s code query).1 ∈ s.bookingInfos ∧
    (ValidateCheckinCodeByBooking env s code query).1.DeletedAt = none ∧
    codeUnexpired env.now (ValidateCheckinCodeByBooking env s code query).1 = true ∧
    codeIs (ToUpper ⟨takeBytes 4 (NormalizeCheckinCode code).data ++
        '-' :: dropBytes 4 (NormalizeCheckinCode code).data⟩) (ToUpper code)
      (ValidateCheckinCodeByBooking env s code query).1 = true ∧
    queryMatches s (ToLower (TrimSpace query))
      (ValidateCheckinCodeByBooking env s code query).1 = true := by
  unfold ValidateCheckinCodeByBooking at hok ⊢
  simp only at hok ⊢
  split at hok
  · simp at hok
  · rename_i hlen
    rw [if_neg hlen]
    split at hok
    · simp at hok
    · rename_i hq
      rw [if_neg hq]
      split at hok
      · split at hok <;> simp at hok
      · rename_i bi hbi
        have hfind := queryFirst_ok _ _ _ _ hbi
        have hp := List.find?_some hfind
        simp only [Bool.and_eq_true, decide_eq_true_eq] at hp
        exact ⟨List.mem_of_find?_eq_some hfind, hp.2, hp.1.2, hp.1.1.1, hp.1.1.2⟩

/-- C30 as claimed fails: 25 hours after the invitation of `invitedStore` the
code `DINS-X27C` of its session, valid for 7 days, is accepted with the query
`lee`, and the session returned has a token expiry that has passed (24 hours
after the invitation). At the same instant `VerifyToken` answers the returned
token with 401 `error.invalidOrExpiredToken`, and `FinalizeCheckInTransaction`
with `invalid_or_expired_token`. -/
theorem validated_session_token_expired :
    (ValidateCheckinCodeByBooking { now := 25 * hour } invitedStore "DINS-X27C" "lee").2 = none ∧
    (ValidateCheckinCodeByBooking { now := 25 * hour } invitedStore "DINS-X27C" "lee").1.ExpiresAt =
      some (6 + 24 * hour) ∧
    (ValidateCheckinCodeByBooking { now := 25 * hour } invitedStore "DINS-X27C"
      "lee").1.CodeExpiresAt = some (7 + 168 * hour) ∧
    6 + 24 * hour ≤ 25 * hour ∧
    VerifyToken { now := 25 * hour } invitedStore
        (ValidateCheckinCodeByBooking { now := 25 * hour } invitedStore "DINS-X27C" "lee").1.Token
        "" =
      { status := 401, code := "error.invalidOrExpiredToken" } ∧
    (FinalizeCheckInTransaction { now := 25 * hour } invitedStore
        (ValidateCheckinCodeByBooking { now := 25 * hour } invitedStore "DINS-X27C" "lee").1.Token
        demoGuests demoConsents).1 = some (.new "invalid_or_expired_token") := by
  decide

/-- C30, amended: a session returned by `ValidateCheckinCodeByBooking` with a
nil error is a stored session that is not soft-deleted and whose code expiry is
null or later than now. When its token expiry is null or later than now as
well, `FinalizeCheckInTransaction` called with its token at that instant does
not fail with `invalid_or_expired_token`, and `VerifyToken` does not answer a
request that carries the token with 401 `error.invalidOrExpiredToken`. -/
theorem ValidateCheckinCodeByBooking_token (env : Env) (s : Store) (code query : String)
    (hok : (ValidateCheckinCodeByBooking env s code query).2 = none) :
    (ValidateCheckinCodeByBooking env s code query).1 ∈ s.bookingInfos ∧
    (ValidateCheckinCodeByBooking env s code query).1.DeletedAt = none ∧
    codeUnexpired env.now (ValidateCheckinCodeByBooking env s code query).1 = true ∧
    (tokenUnexpired env.now (ValidateCheckinCodeByBooking env s code query).1 = true →
      (∀ (guests : List Guest) (consents : List Consent),
        (FinalizeCheckInTransaction env s
          (ValidateCheckinCodeByBooking env s code query).1.Token guests consents).1 ≠
          some (.new "invalid_or_expired_token")) ∧
      (∀ (tokenQuery authHeader : String),
        TrimSpace (requestToken tokenQuery authHeader) =
          (ValidateCheckinCodeByBooking env s code query).1.Token →
        VerifyToken env s tokenQuery authHeader ≠
          { status := 401, code := "error.invalidOrExpiredToken" })) := by
  obtain ⟨hmem, hdel, hcode, -, -⟩ := ValidateCheckinCodeByBooking_ok env s code query hok
  refine ⟨hmem, hdel, hcode, ?_⟩
  generalize (ValidateCheckinCodeByBooking env s code query).1 = bi at hmem hdel
  intro htok
  have hsess : sessionByToken bi.Token env.now bi = true := by
    simp [sessionByToken, htok, hdel]
  have hfind : s.bookingInfos.find? (sessionByToken bi.Token env.now) ≠ none := by
    intro hnone
    have := List.find?_eq_none.mp hnone bi hmem
    rw [hsess] at this
    exact this rfl
  constructor
  · intro guests consents herr
    rcases FinalizeCheckInTransaction_error env s bi.Token guests consents _ herr with
      ⟨-, hno⟩ | hd
    · exact hfind ((noUsableSession_iff s bi.Token env.now).mp hno)
    · exact fromDriver_ne_new env _ _ hd rfl
  · intro tokenQuery authHeader htrim
    unfold VerifyToken
    simp only
    split
    · simp
    · rw [htrim]
      cases hq : s.bookingInfos.find? (sessionByToken bi.Token env.now) with
      | none => exact absurd hq hfind
      | some found =>
        unfold queryFirst
        cases env.fault .verifySession with
        | some msg => simp [GoError.isRecordNotFound]
        | none =>
          simp only
          cases env.fault .verifyBooking with
          | some msg => simp
          | none =>
            simp only
            cases s.bookings.find? (bookingByToken s bi.Token) with
            | none => simp
            | some booking =>
              simp only
              split
              · simp
              · split <;> simp

theorem ValidateCheckinCodeByBooking_token_witness :
    (ValidateCheckinCodeByBooking demoEnv demoStore "abcd1234" "lee").1 ∈ demoStore.bookingInfos ∧
    (FinalizeCheckInTransaction demoEnv demoStore
      (ValidateCheckinCodeByBooking demoEnv demoStore "abcd1234" "lee").1.Token demoGuests
      demoConsents).1 ≠ some (.new "invalid_or_expired_token") ∧
    VerifyToken demoEnv demoStore "tok" "" ≠
      { status := 401, code := "error.invalidOrExpiredToken" } :=
  have h := ValidateCheckinCodeByBooking_token demoEnv demoStore "abcd1234" "lee" (by decide)
  ⟨h.1, (h.2.2.2 (by decide)).1 demoGuests demoConsents,
    (h.2.2.2 (by decide)).2 "tok" "" (by decide)⟩

/-! ## The disambiguator of `ValidateCheckinCodeByBooking` -/

theorem likeMatch_nil (s : List Char) : likeMatch [] s = s.isEmpty := by
  rw [likeMatch.eq_def]

theorem likeMatch_percent (p s : List Char) :
    likeMatch ('%' :: p) s = (tails s).any (fun t => likeMatch p t) := by
  rw [likeMatch.eq_def]
  simp

theorem likeMatch_cons_literal (c : Char) (p s : List Char) (h : isLikeLiteral c = true) :
    likeMatch (c :: p) s =
      match s with
      | [] => false
      | e :: s1 => e == c && likeMatch p s1 := by
  simp only [isLikeLiteral, Bool.and_eq_true, decide_eq_true_eq, ne_eq] at h
  obtain ⟨⟨h1, h2⟩, h3⟩ := h
  rw [likeMatch.eq_def]
  simp only [h1, h2, h3, if_false]

theorem tails_any_nil : ∀ s : List Char, (tails s).any (fun t => likeMatch [] t) = true
  | [] => by simp [tails, likeMatch_nil]
  | c :: cs => by
    simp only [tails, List.any_cons, tails_any_nil cs, Bool.or_true]

/-- A pattern of literal characters followed by `%` matches the strings that
the characters open. -/
theorem likeMatch_literal_prefix : ∀ (q s : List Char), (∀ c ∈ q, isLikeLiteral c = true) →
    likeMatch (q ++ ['%']) s = startsWith q s
  | [], s, _ => by
    rw [List.nil_append, likeMatch_percent, tails_any_nil, startsWith]
  | c :: q, s, h => by
    have hc := h c (List.mem_cons_self _ _)
    have ih := fun s1 => likeMatch_literal_prefix q s1 (fun x hx => h x (List.mem_cons_of_mem _ hx))
    rw [List.cons_append, likeMatch_cons_literal c _ s hc]
    cases s with
    | nil => simp [startsWith]
    | cons e s1 =>
      simp only [ih, startsWith]
      congr 1
      exact Bool.beq_comm

theorem containsChars_tails (q : List Char) : ∀ s : List Char,
    containsChars s q = (tails s).any (fun t => startsWith q t)
  | [] => by
    cases q <;> simp [containsChars, tails, startsWith]
  | c :: cs => by
    simp only [containsChars, tails, List.any_cons, containsChars_tails q cs]

/-- For a query without the characters `%`, `_` and backslash the pattern
`%query%` matches the strings that contain the query. -/
theorem likeMatch_literal (q s : List Char) (h : ∀ c ∈ q, isLikeLiteral c = true) :
    likeMatch ('%' :: q ++ ['%']) s = containsChars s q := by
  rw [containsChars_tails]
  show likeMatch ('%' :: (q ++ ['%'])) s = _
  rw [likeMatch_percent]
  congr 1
  funext t
  exact likeMatch_literal_prefix q t h

/-- C25: the disambiguator is used as a `LIKE` pattern. The customer of
`demoStore` is called `Ann Lee` and the booking has the reference `BK-1`. The
queries `%`, `_` and `n_l` are neither part of the lower-cased name nor the
lower-cased reference, and with each of them `ValidateCheckinCodeByBooking`
returns the session of the booking: `%` matches every name, `_` every name that
is not empty, `n_l` every name with some character between an `n` and an `l`.
For a query without `%`, `_` and backslash the disambiguator matches exactly
the bookings whose lower-cased customer name contains the query or whose
lower-cased reference equals it. -/
theorem ValidateCheckinCodeByBooking_wildcards :
    Contains (ToLower "Ann Lee") "%" = false ∧ Contains (ToLower "Ann Lee") "_" = false ∧
    Contains (ToLower "Ann Lee") "n_l" = false ∧
    ToLower "BK-1" ≠ "%" ∧ ToLower "BK-1" ≠ "_" ∧ ToLower "BK-1" ≠ "n_l" ∧
    ValidateCheckinCodeByBooking demoEnv demoStore "ABCD-1234" "%" = (demoSession, none) ∧
    ValidateCheckinCodeByBooking demoEnv demoStore "ABCD-1234" "_" = (demoSession, none) ∧
    ValidateCheckinCodeByBooking demoEnv demoStore "ABCD-1234" "N_L" = (demoSession, none) ∧
    ValidateCheckinCodeByBooking demoEnv demoStore "ABCD-1234" "nl" =
      ({}, some (.new "invalid_or_expired_code")) ∧
    ∀ (s : Store) (qLower : String) (bi : BookingInfo),
      (∀ c ∈ qLower.data, isLikeLiteral c = true) →
      (queryMatches s qLower bi = true ↔
        ∃ b ∈ s.bookings, b.ID = bi.BookingID ∧ ∃ c ∈ s.customers, c.ID = b.CustomerID ∧
          (Contains (ToLower c.FullName) qLower = true ∨ ToLower b.ReferenceCode = qLower)) := by
  refine ⟨by decide, by decide, by decide, by decide, by decide, by decide, by decide, by decide,
    by decide, by decide, ?_⟩
  intro s qLower bi hlit
  unfold queryMatches Contains
  simp only [List.any_eq_true, Bool.and_eq_true, decide_eq_true_eq, Bool.or_eq_true,
    likeMatch_literal _ _ hlit]

/-! ## The two forms of a code in `ValidateCheckinCodeByBooking` -/

theorem toUpperChar_upperAlnum (c : Char) (h : isUpperAlnum c = true) : toUpperChar c = c := by
  have hA : 'A'.toNat = 65 := rfl
  have hZ : 'Z'.toNat = 90 := rfl
  have h0 : '0'.toNat = 48 := rfl
  have h9 : '9'.toNat = 57 := rfl
  have ha : 'a'.toNat = 97 := rfl
  have hz : 'z'.toNat = 122 := rfl
  simp only [isUpperAlnum, hA, hZ, h0, h9, Bool.or_eq_true, Bool.and_eq_true,
    decide_eq_true_eq] at h
  unfold toUpperChar
  rw [ha, hz]
  have h1 : ¬ c.toNat = 0x131 := by omega
  have h2 : ¬ c.toNat = 0x17F := by omega
  have h3 : ¬ (97 ≤ c.toNat ∧ c.toNat ≤ 122) := by omega
  rw [if_neg h1, if_neg h2, if_neg h3]

theorem takeBytes_subset : ∀ (n : Nat) (l : List Char), ∀ c ∈ takeBytes n l, c ∈ l
  | _, [], c, h => by simp [takeBytes] at h
  | n, a :: l, c, h => by
    unfold takeBytes at h
    split at h
    · rcases List.mem_cons.mp h with h | h
      · rw [h]; exact List.mem_cons_self _ _
      · exact List.mem_cons_of_mem _ (takeBytes_subset _ l c h)
    · simp at h

theorem dropBytes_subset : ∀ (n : Nat) (l : List Char), ∀ c ∈ dropBytes n l, c ∈ l
  | _, [], c, h => by simp [dropBytes] at h
  | n, a :: l, c, h => by
    unfold dropBytes at h
    split at h
    · exact List.mem_cons_of_mem _ (dropBytes_subset _ l c h)
    · exact h

/-- The hyphenated form that `ValidateCheckinCodeByBooking` derives from a
submitted code is already in upper case. -/
theorem formatted_upper (code : String) :
    ToUpper ⟨takeBytes 4 (NormalizeCheckinCode code).data ++
        '-' :: dropBytes 4 (NormalizeCheckinCode code).data⟩ =
      ⟨takeBytes 4 (NormalizeCheckinCode code).data ++
        '-' :: dropBytes 4 (NormalizeCheckinCode code).data⟩ := by
  unfold ToUpper
  congr 1
  apply map_eq_self
  intro c hc
  have hnorm : ∀ x ∈ (NormalizeCheckinCode code).data, isUpperAlnum x = true := by
    intro x hx
    unfold NormalizeCheckinCode at hx
    exact (List.mem_filter.mp hx).2
  rcases List.mem_append.mp hc with h | h
  · exact toUpperChar_upperAlnum c (hnorm c (takeBytes_subset _ _ c h))
  · rcases List.mem_cons.mp h with h | h
    · rw [h]; decide
    · exact toUpperChar_upperAlnum c (hnorm c (dropBytes_subset _ _ c h))

/-- C26: a code stored without hyphen is not found through its hyphenated
form. The session of `plainCodeStore` carries the code `ABCD1234`. The
submitted codes `ABCD-1234` and `abcd 1234` have the same normal form of 8
characters as the stored code, and `ValidateCheckinCodeByBooking` refuses them
with `invalid_or_expired_code`: it compares the stored code with the hyphenated
form and with the upper-cased submission as typed. The submission `abcd1234` is
accepted, and the routed handler, which passes the hyphenated and the plain
form to `FindByCodeWithExpiry`, accepts `ABCD-1234`. A code that is stored in
the hyphenated form is matched by every submission with its normal form. -/
theorem ValidateCheckinCodeByBooking_plain_code :
    NormalizeCheckinCode "ABCD-1234" = NormalizeCheckinCode "ABCD1234" ∧
    NormalizeCheckinCode "abcd 1234" = NormalizeCheckinCode "ABCD1234" ∧
    (NormalizeCheckinCode "ABCD1234").length = 8 ∧
    ValidateCheckinCodeByBooking demoEnv plainCodeStore "ABCD-1234" "lee" =
      ({}, some (.new "invalid_or_expired_code")) ∧
    ValidateCheckinCodeByBooking demoEnv plainCodeStore "abcd 1234" "lee" =
      ({}, some (.new "invalid_or_expired_code")) ∧
    ValidateCheckinCodeByBooking demoEnv plainCodeStore "abcd1234" "lee" =
      ({ demoSession with CheckinCode := "ABCD1234" }, none) ∧
    (BookingInfoController.ValidateCheckinCode demoEnv plainCodeStore
      (some { CheckinCode := "ABCD-1234", Query := "lee" })).status = 200 ∧
    ∀ (code : String) (bi : BookingInfo),
      bi.CheckinCode = ⟨takeBytes 4 (NormalizeCheckinCode code).data ++
        '-' :: dropBytes 4 (NormalizeCheckinCode code).data⟩ →
      codeIs (ToUpper ⟨takeBytes 4 (NormalizeCheckinCode code).data ++
        '-' :: dropBytes 4 (NormalizeCheckinCode code).data⟩) (ToUpper code) bi = true := by
  refine ⟨by decide, by decide, by decide, by decide, by decide, by decide, by decide, ?_⟩
  intro code bi h
  unfold codeIs
  rw [formatted_upper, h]
  simp

/-! ## The arithmetic of `calculateNights` -/

theorem bitLengthAux_zero : ∀ fuel, bitLengthAux fuel 0 = 0
  | 0 => rfl
  | _ + 1 => by simp [bitLengthAux]

theorem bitLengthAux_spec : ∀ (fuel n : Nat), n ≤ fuel → 0 < n →
    ∃ b, bitLengthAux fuel n = b + 1 ∧ 2 ^ b ≤ n ∧ n < 2 ^ (b + 1)
  | 0, n, h1, h2 => by omega
  | fuel + 1, n, h1, h2 => by
    have hne : n ≠ 0 := by omega
    simp only [bitLengthAux, hne, if_false]
    by_cases h : n / 2 = 0
    · have hn1 : n = 1 := by omega
      subst hn1
      exact ⟨0, by simp [bitLengthAux_zero], by norm_num, by norm_num⟩
    · obtain ⟨b, hb, hlo, hhi⟩ := bitLengthAux_spec fuel (n / 2) (by omega) (by omega)
      refine ⟨b + 1, by rw [hb], ?_, ?_⟩
      · rw [pow_succ]; omega
      · rw [pow_succ]; omega

/-- A positive number lies between the powers of two that its number of
binary digits names. -/
theorem bitLength_spec (n : Nat) (h : 0 < n) :
    ∃ b, bitLength n = b + 1 ∧ 2 ^ b ≤ n ∧ n < 2 ^ (b + 1) :=
  bitLengthAux_spec n n (le_refl n) h

/-- The parts of `roundRatio n d`: the scaled quotient `q` with remainder `r`,
its leading digits `m` and the digits `rem` cut off, and the carry `u`. -/
theorem roundRatio_spec (n d : Nat) (hn : 0 < n) (hd : 0 < d) :
    ∃ k q r sh m rem u : Nat,
      roundRatio n d = ⟨(m + u) * 2 ^ sh, k⟩ ∧ n * 2 ^ k = d * q + r ∧ r < d ∧
      q = m * 2 ^ sh + rem ∧ rem < 2 ^ sh ∧ 2 ^ (sh + 52) ≤ q ∧ q < 2 ^ (sh + 53) ∧ 1 ≤ sh ∧
      ((u = 0 ∧ (rem < 2 ^ (sh - 1) ∨ (rem = 2 ^ (sh - 1) ∧ r = 0))) ∨
        (u = 1 ∧ 2 ^ (sh - 1) ≤ rem)) := by
  obtain ⟨bn, hbn, hnlo, -⟩ := bitLength_spec n hn
  obtain ⟨bd, hbd, -, hdhi⟩ := bitLength_spec d hd
  have hk : bn + (55 + bitLength d - bitLength n) ≥ 55 + bd := by omega
  generalize hkdef : 55 + bitLength d - bitLength n = k at hk
  have hq54 : 2 ^ 54 ≤ n * 2 ^ k / d := by
    rw [Nat.le_div_iff_mul_le hd]
    calc 2 ^ 54 * d ≤ 2 ^ 54 * 2 ^ (bd + 1) := Nat.mul_le_mul_left _ (le_of_lt hdhi)
      _ = 2 ^ (55 + bd) := by rw [← pow_add]; congr 1; omega
      _ ≤ 2 ^ (bn + k) := Nat.pow_le_pow_right (by norm_num) hk
      _ = 2 ^ bn * 2 ^ k := pow_add _ _ _
      _ ≤ n * 2 ^ k := Nat.mul_le_mul_right _ hnlo
  have hqpos : 0 < n * 2 ^ k / d := lt_of_lt_of_le (by norm_num) hq54
  obtain ⟨bq, hbq, hqlo, hqhi⟩ := bitLength_spec (n * 2 ^ k / d) hqpos
  have hbq54 : 54 ≤ bq := by
    by_contra hc
    have : bq + 1 ≤ 54 := by omega
    have := lt_of_lt_of_le hqhi (Nat.pow_le_pow_right (by norm_num) this)
    omega
  have hsh : bitLength (n * 2 ^ k / d) - 53 = bq - 52 := by omega
  have hne : n ≠ 0 := by omega
  refine ⟨k, n * 2 ^ k / d, n * 2 ^ k % d, bq - 52, n * 2 ^ k / d / 2 ^ (bq - 52),
    n * 2 ^ k / d % 2 ^ (bq - 52),
    if (decide (2 ^ (bq - 52 - 1) < n * 2 ^ k / d % 2 ^ (bq - 52)) ||
        (decide (n * 2 ^ k / d % 2 ^ (bq - 52) = 2 ^ (bq - 52 - 1)) &&
          (decide (n * 2 ^ k % d ≠ 0) ||
            decide (n * 2 ^ k / d / 2 ^ (bq - 52) % 2 = 1)))) = true then 1 else 0,
    ?_, (Nat.div_add_mod _ _).symm, Nat.mod_lt _ hd, ?_, Nat.mod_lt _ (by positivity), ?_, ?_,
    by omega, ?_⟩
  · unfold roundRatio
    rw [if_neg hne]
    simp only [hkdef, hsh]
  · exact (Nat.div_add_mod' _ _).symm
  · have : bq - 52 + 52 = bq := by omega
    rw [this]; exact hqlo
  · have : bq - 52 + 53 = bq + 1 := by omega
    rw [this]; exact hqhi
  · split
    · rename_i hup
      right
      refine ⟨rfl, ?_⟩
      simp only [Bool.or_eq_true, Bool.and_eq_true, decide_eq_true_eq] at hup
      rcases hup with h | ⟨h, -⟩
      · exact le_of_lt h
      · exact le_of_eq h.symm
    · rename_i hup
      left
      refine ⟨rfl, ?_⟩
      simp only [Bool.or_eq_true, Bool.and_eq_true, decide_eq_true_eq, not_or, not_and, not_lt,
        ne_eq, not_not] at hup
      obtain ⟨h1, h2⟩ := hup
      rcases Nat.lt_or_eq_of_le h1 with h | h
      · exact Or.inl h
      · exact Or.inr ⟨h, (h2 h).1⟩

/-- The rounding error of `roundRatio` is at most the fraction `2 ^ -53` of the
quotient. -/
theorem roundRatio_error (n d : Nat) (hd : 0 < d) :
    |(roundRatio n d).val - (n : ℚ) / d| ≤ (n : ℚ) / d / 2 ^ 53 := by
  rcases Nat.eq_zero_or_pos n with hn | hn
  · subst hn
    simp [roundRatio, Float64.val]
  obtain ⟨k, q, r, sh, m, rem, u, hval, hdiv, hr, hq, hrem, hqlo, -, hsh, hu⟩ :=
    roundRatio_spec n d hn hd
  rw [hval]
  unfold Float64.val
  simp only
  have hdQ : (0 : ℚ) < d := by exact_mod_cast hd
  have hkQ : (0 : ℚ) < 2 ^ k := by positivity
  have hx0 : (0 : ℚ) ≤ (r : ℚ) / d := by positivity
  have hx1 : (r : ℚ) / d < 1 := by
    rw [div_lt_one hdQ]; exact_mod_cast hr
  have hQ : (n : ℚ) * 2 ^ k / d = q + (r : ℚ) / d := by
    have : ((n * 2 ^ k : ℕ) : ℚ) = ((d * q + r : ℕ) : ℚ) := by rw [hdiv]
    push_cast at this
    rw [this]
    field_simp
    ring
  have hqQ : (q : ℚ) = m * 2 ^ sh + rem := by
    have : ((q : ℕ) : ℚ) = ((m * 2 ^ sh + rem : ℕ) : ℚ) := by rw [hq]
    push_cast at this
    exact this
  have hS : (2 : ℚ) ^ sh = 2 * 2 ^ (sh - 1) := by
    rw [← pow_succ']
    congr 1
    omega
  have hremS : (rem : ℚ) + 1 ≤ 2 ^ sh := by
    have : rem + 1 ≤ 2 ^ sh := hrem
    exact_mod_cast this
  have hqloQ : (2 : ℚ) ^ sh * 2 ^ 52 ≤ q := by
    have : ((2 ^ (sh + 52) : ℕ) : ℚ) ≤ (q : ℚ) := by exact_mod_cast hqlo
    push_cast at this
    rw [pow_add] at this
    exact this
  have herr : |((m + u : ℕ) : ℚ) * 2 ^ sh - (n : ℚ) * 2 ^ k / d| ≤ 2 ^ (sh - 1) := by
    rw [hQ, hqQ, abs_le]
    rcases hu with ⟨hu0, h | ⟨h, hr0⟩⟩ | ⟨hu1, h⟩
    · subst hu0
      have h' : (rem : ℚ) + 1 ≤ 2 ^ (sh - 1) := by
        have : rem + 1 ≤ 2 ^ (sh - 1) := h
        exact_mod_cast this
      have hrem0 : (0 : ℚ) ≤ rem := by positivity
      push_cast
      constructor <;> linarith
    · subst hu0
      subst hr0
      have h' : (rem : ℚ) = 2 ^ (sh - 1) := by exact_mod_cast h
      push_cast
      simp only [zero_div, add_zero]
      constructor <;> linarith
    · subst hu1
      have h' : (2 : ℚ) ^ (sh - 1) ≤ rem := by exact_mod_cast h
      push_cast
      constructor <;> nlinarith
  have hcast : (((m + u) * 2 ^ sh : ℕ) : ℚ) = ((m + u : ℕ) : ℚ) * 2 ^ sh := by push_cast; ring
  rw [hcast]
  have e1 : ((m + u : ℕ) : ℚ) * 2 ^ sh / 2 ^ k - (n : ℚ) / d =
      (((m + u : ℕ) : ℚ) * 2 ^ sh - (n : ℚ) * 2 ^ k / d) / 2 ^ k := by
    field_simp
    ring
  rw [e1, abs_div, abs_of_pos hkQ, div_le_iff₀ hkQ]
  have hrel : (2 : ℚ) ^ (sh - 1) ≤ (n : ℚ) * 2 ^ k / d / 2 ^ 53 := by
    rw [le_div_iff₀ (by positivity)]
    have : (2 : ℚ) ^ (sh - 1) * 2 ^ 53 = 2 ^ sh * 2 ^ 52 := by rw [hS]; ring
    rw [this, hQ]
    linarith
  calc |((m + u : ℕ) : ℚ) * 2 ^ sh - (n : ℚ) * 2 ^ k / d| ≤ 2 ^ (sh - 1) := herr
    _ ≤ (n : ℚ) * 2 ^ k / d / 2 ^ 53 := hrel
    _ = (n : ℚ) / d / 2 ^ 53 * 2 ^ k := by field_simp

/-- A whole number below `2 ^ 53` is a `float64`: `roundRatio` returns it
unchanged. -/
theorem roundRatio_exact (n d j : Nat) (hd : 0 < d) (hj : j < 2 ^ 53) (h : n = j * d) :
    (roundRatio n d).val = j := by
  rcases Nat.eq_zero_or_pos j with hj0 | hj0
  · subst hj0
    simp only [Nat.zero_mul] at h
    subst h
    simp [roundRatio, Float64.val]
  have hn : 0 < n := by rw [h]; exact Nat.mul_pos hj0 hd
  obtain ⟨k, q, r, sh, m, rem, u, hval, hdiv, hr, hq, hrem, hqlo, -, hsh, hu⟩ :=
    roundRatio_spec n d hn hd
  have heq : d * (j * 2 ^ k) = d * q + r := by rw [← hdiv, h]; ring
  have hqj : q = j * 2 ^ k := by
    have h1 : (d * q + r) / d = q := by
      rw [Nat.mul_add_div hd, Nat.div_eq_of_lt hr, Nat.add_zero]
    rw [← h1, ← heq, Nat.mul_div_cancel_left _ hd]
  have hlt : 2 ^ (sh + 52) < 2 ^ (53 + k) := by
    calc 2 ^ (sh + 52) ≤ q := hqlo
      _ = j * 2 ^ k := hqj
      _ < 2 ^ 53 * 2 ^ k := Nat.mul_lt_mul_of_pos_right hj (by positivity)
      _ = 2 ^ (53 + k) := (pow_add _ _ _).symm
  have hshk : sh ≤ k := by
    have := (Nat.pow_lt_pow_iff_right (by norm_num : 1 < 2)).mp hlt
    omega
  have hdvd : 2 ^ sh ∣ q := by
    rw [hqj]
    exact Dvd.dvd.mul_left (pow_dvd_pow 2 hshk) j
  have hrem0 : rem = 0 := by
    have h1 : q % 2 ^ sh = rem := by
      rw [hq, Nat.mul_add_mod_of_lt hrem]
    rw [← h1]
    exact Nat.mod_eq_zero_of_dvd hdvd
  have hu0 : u = 0 := by
    rcases hu with ⟨h0, -⟩ | ⟨-, h1⟩
    · exact h0
    · rw [hrem0] at h1
      have : 0 < 2 ^ (sh - 1) := by positivity
      omega
  rw [hval]
  unfold Float64.val
  simp only
  have : (m + u) * 2 ^ sh = j * 2 ^ k := by
    rw [hu0, Nat.add_zero, ← hqj, hq, hrem0, Nat.add_zero]
  rw [this]
  push_cast
  field_simp

theorem roundRatio_exact_of_val (n d j : Nat) (hd : 0 < d) (hj : j < 2 ^ 53)
    (h : (n : ℚ) / d = j) : (roundRatio n d).val = j := by
  apply roundRatio_exact n d j hd hj
  have hdQ : (d : ℚ) ≠ 0 := by exact_mod_cast (Nat.pos_iff_ne_zero.mp hd)
  have : (n : ℚ) = j * d := by
    rw [div_eq_iff hdQ] at h
    exact h
  exact_mod_cast this

theorem Float64.val_nonneg (a : Float64) : 0 ≤ a.val := by
  unfold Float64.val
  positivity

theorem Float64.ofNat_val (j : Nat) (hj : j < 2 ^ 53) : (Float64.ofNat j).val = j :=
  roundRatio_exact j 1 j (by norm_num) hj (by simp)

theorem Float64.add_ratio (a b : Float64) :
    ((a.num * 2 ^ b.exp + b.num * 2 ^ a.exp : ℕ) : ℚ) / ((2 ^ (a.exp + b.exp) : ℕ) : ℚ) =
      a.val + b.val := by
  unfold Float64.val
  push_cast
  rw [pow_add]
  field_simp

theorem Float64.div_ratio (a b : Float64) (hb : 0 < b.num) :
    ((a.num * 2 ^ b.exp : ℕ) : ℚ) / ((b.num * 2 ^ a.exp : ℕ) : ℚ) = a.val / b.val := by
  unfold Float64.val
  have : (b.num : ℚ) ≠ 0 := by exact_mod_cast (Nat.pos_iff_ne_zero.mp hb)
  push_cast
  field_simp
  left
  ring

theorem Float64.num_pos_of_val (b : Float64) (h : 0 < b.val) : 0 < b.num := by
  rcases Nat.eq_zero_or_pos b.num with h0 | h0
  · unfold Float64.val at h
    rw [h0] at h
    simp at h
  · exact h0

/-- The sum of two `float64` differs from the exact sum by at most its fraction
`2 ^ -53`. -/
theorem Float64.add_error (a b : Float64) :
    |(a.add b).val - (a.val + b.val)| ≤ (a.val + b.val) / 2 ^ 53 := by
  have h := roundRatio_error (a.num * 2 ^ b.exp + b.num * 2 ^ a.exp) (2 ^ (a.exp + b.exp))
    (by positivity)
  rw [Float64.add_ratio] at h
  exact h

theorem Float64.add_exact (a b : Float64) (j : Nat) (hj : j < 2 ^ 53) (h : a.val + b.val = j) :
    (a.add b).val = j :=
  roundRatio_exact_of_val _ _ j (by positivity) hj (by rw [Float64.add_ratio, h])

/-- The quotient of two `float64` differs from the exact quotient by at most
its fraction `2 ^ -53`. -/
theorem Float64.div_error (a b : Float64) (hb : 0 < b.val) :
    |(a.div b).val - a.val / b.val| ≤ a.val / b.val / 2 ^ 53 := by
  have hnum := Float64.num_pos_of_val b hb
  have h := roundRatio_error (a.num * 2 ^ b.exp) (b.num * 2 ^ a.exp)
    (Nat.mul_pos hnum (by positivity))
  rw [Float64.div_ratio a b hnum] at h
  exact h

theorem Float64.div_exact (a b : Float64) (j : Nat) (hb : 0 < b.val) (hj : j < 2 ^ 53)
    (h : a.val / b.val = j) : (a.div b).val = j := by
  have hnum := Float64.num_pos_of_val b hb
  exact roundRatio_exact_of_val _ _ j (Nat.mul_pos hnum (by positivity)) hj
    (by rw [Float64.div_ratio a b hnum, h])

/-- The whole part of a `float64` between two consecutive whole numbers. -/
theorem Float64.toInt_eq (a : Float64) (K : Nat) (h1 : (K : ℚ) ≤ a.val) (h2 : a.val < K + 1) :
    a.toInt = K := by
  unfold Float64.toInt
  congr 1
  unfold Float64.val at h1 h2
  have hp : (0 : ℚ) < 2 ^ a.exp := by positivity
  rw [le_div_iff₀ hp] at h1
  rw [div_lt_iff₀ hp] at h2
  apply Nat.div_eq_of_lt_le
  · exact_mod_cast h1
  · exact_mod_cast h2

/-- For a duration of whole milliseconds below `2 ^ 63` nanoseconds the
`float64` computation `int(d.Hours() / 24)` yields the whole number of days. -/
theorem nights_of_duration (d : Nat) (hms : 1000000 ∣ d) (hrange : d < 2 ^ 63) :
    ((Hours d).div (Float64.ofNat 24)).toInt = ((d / (24 * hour) : Nat) : Int) := by
  have hH : hour = 3600000000000 := by decide
  have hD : 24 * hour = 86400000000000 := by decide
  obtain ⟨e, he⟩ := hms
  unfold Hours
  rw [hD, hH]
  have hdecomp : d = 3600000000000 * (d / 3600000000000) + d % 3600000000000 :=
    (Nat.div_add_mod d _).symm
  have hnsec : d % 3600000000000 < 3600000000000 := Nat.mod_lt _ (by norm_num)
  have hhourN : d / 3600000000000 < 2 ^ 22 := by omega
  have hK : d / 86400000000000 < 2 ^ 53 := by omega
  have a1 : (Float64.ofNat (d / 3600000000000)).val = (d / 3600000000000 : ℕ) :=
    Float64.ofNat_val _ (lt_trans hhourN (by norm_num))
  have a2 : (Float64.ofNat (d % 3600000000000)).val = (d % 3600000000000 : ℕ) :=
    Float64.ofNat_val _ (lt_trans hnsec (by norm_num))
  have a3 : (Float64.ofNat 3600000000000).val = 3600000000000 := by
    have := Float64.ofNat_val 3600000000000 (by norm_num)
    exact_mod_cast this
  have a24 : (Float64.ofNat 24).val = 24 := by
    have := Float64.ofNat_val 24 (by norm_num)
    exact_mod_cast this
  have hdK : d = 86400000000000 * (d / 86400000000000) + d % 86400000000000 :=
    (Nat.div_add_mod d _).symm
  generalize hf1 : (Float64.ofNat (d % 3600000000000)).div (Float64.ofNat 3600000000000) = f1
  generalize hx2 : (Float64.ofNat (d / 3600000000000)).add f1 = x2
  by_cases hA : d % 86400000000000 = 0
  · have hn0 : d % 3600000000000 = 0 := by omega
    have hh24 : d / 3600000000000 = 24 * (d / 86400000000000) := by omega
    have v1 : f1.val = ((0 : ℕ) : ℚ) := by
      rw [← hf1]
      apply Float64.div_exact _ _ 0 (by rw [a3]; norm_num) (by norm_num)
      rw [a2, hn0]
      simp
    have v2 : x2.val = ((d / 3600000000000 : ℕ) : ℚ) := by
      rw [← hx2]
      apply Float64.add_exact _ _ _ (lt_trans hhourN (by norm_num))
      rw [a1, v1]
      simp
    have v3 : (x2.div (Float64.ofNat 24)).val = ((d / 86400000000000 : ℕ) : ℚ) := by
      apply Float64.div_exact _ _ _ (by rw [a24]; norm_num) hK
      rw [v2, a24, hh24]
      push_cast
      field_simp
    apply Float64.toInt_eq
    · rw [v3]
    · rw [v3]; linarith
  · have hρ1 : 1000000 ≤ d % 86400000000000 := by omega
    have hρ2 : d % 86400000000000 + 1000000 ≤ 86400000000000 := by omega
    have hρ1Q : (1000000 : ℚ) ≤ ((d % 86400000000000 : ℕ) : ℚ) := by exact_mod_cast hρ1
    have hρ2Q : ((d % 86400000000000 : ℕ) : ℚ) + 1000000 ≤ 86400000000000 := by
      exact_mod_cast hρ2
    have hnsecQ : ((d % 3600000000000 : ℕ) : ℚ) < 3600000000000 := by exact_mod_cast hnsec
    have hnsec0 : (0 : ℚ) ≤ ((d % 3600000000000 : ℕ) : ℚ) := by positivity
    have hhourQ : ((d / 3600000000000 : ℕ) : ℚ) ≤ 4194304 := by
      have : d / 3600000000000 ≤ 4194304 := by omega
      exact_mod_cast this
    have hhour0 : (0 : ℚ) ≤ ((d / 3600000000000 : ℕ) : ℚ) := by positivity
    have hrel : (3600000000000 : ℚ) * ((d / 3600000000000 : ℕ) : ℚ) +
          ((d % 3600000000000 : ℕ) : ℚ) =
        86400000000000 * ((d / 86400000000000 : ℕ) : ℚ) + ((d % 86400000000000 : ℕ) : ℚ) := by
      have h1 : 3600000000000 * (d / 3600000000000) + d % 3600000000000 =
          86400000000000 * (d / 86400000000000) + d % 86400000000000 := by
        rw [← hdecomp, ← hdK]
      exact_mod_cast h1
    have e1 := Float64.div_error (Float64.ofNat (d % 3600000000000))
      (Float64.ofNat 3600000000000) (by rw [a3]; norm_num)
    rw [hf1, a2, a3, abs_le] at e1
    have e2 := Float64.add_error (Float64.ofNat (d / 3600000000000)) f1
    rw [hx2, a1, abs_le] at e2
    have e3 := Float64.div_error x2 (Float64.ofNat 24) (by rw [a24]; norm_num)
    rw [a24, abs_le] at e3
    have hp : ((2 : ℚ) ^ 53) = 9007199254740992 := by norm_num
    rw [hp] at e1 e2 e3
    obtain ⟨e1a, e1b⟩ := e1
    obtain ⟨e2a, e2b⟩ := e2
    obtain ⟨e3a, e3b⟩ := e3
    apply Float64.toInt_eq
    · generalize (x2.div (Float64.ofNat 24)).val = D at *
      generalize ((d % 3600000000000 : ℕ) : ℚ) = nsec at *
      generalize ((d / 3600000000000 : ℕ) : ℚ) = hourN at *
      generalize ((d % 86400000000000 : ℕ) : ℚ) = ρ at *
      generalize ((d / 86400000000000 : ℕ) : ℚ) = K at *
      generalize f1.val = f at *
      generalize x2.val = X at *
      linarith
    · generalize (x2.div (Float64.ofNat 24)).val = D at *
      generalize ((d % 3600000000000 : ℕ) : ℚ) = nsec at *
      generalize ((d / 3600000000000 : ℕ) : ℚ) = hourN at *
      generalize ((d % 86400000000000 : ℕ) : ℚ) = ρ at *
      generalize ((d / 86400000000000 : ℕ) : ℚ) = K at *
      generalize f1.val = f at *
      generalize x2.val = X at *
      linarith

set_option maxRecDepth 100000 in
/-- C21 as claimed fails: for a check-out one nanosecond short of 171 days
after the check-in (4104 hours) the `float64` sum of `Hours` rounds up to 4104
and `calculateNights` returns 171, while the whole number of days is 170; one
millisecond short of 171 days it returns 170. For a check-out 150000 days after
the check-in the difference exceeds the largest `time.Duration`, `Sub` yields
that duration and `calculateNights` returns 106751. -/
theorem calculateNights_rounds_up :
    calculateNights (some 0) (some (4104 * hour - 1)) = 171 ∧
    max 1 (((4104 * hour - 1 - 0) / (24 * hour) : Nat) : Int) = 170 ∧
    calculateNights (some 0) (some (4104 * hour - 1000000)) = 170 ∧
    calculateNights (some 0) (some (150000 * (24 * hour))) = 106751 ∧
    max 1 (((150000 * (24 * hour) - 0) / (24 * hour) : Nat) : Int) = 150000 := by
  decide

/-- C21, amended: `calculateNights` returns the stay in whole days, at least
one night, for the instants that the store holds. For a check-in and a
check-out on whole milliseconds, the check-out not before the check-in and less
than `2 ^ 63` nanoseconds (about 292 years) after it, the result is the larger
of 1 and the whole number of days between them, so a check-out on the day of
the check-in gives 1. The result is 0 when the check-out is before the
check-in and when one of the two is nil. -/
theorem calculateNights_whole_days (ci co : Time) :
    (ci ≤ co → 1000000 ∣ ci → 1000000 ∣ co → co - ci < 2 ^ 63 →
      calculateNights (some ci) (some co) =
        max 1 (((co - ci) / (24 * hour) : Nat) : Int)) ∧
    (co < ci → calculateNights (some ci) (some co) = 0) ∧
    calculateNights none (some co) = 0 ∧ calculateNights (some ci) none = 0 ∧
    calculateNights none none = 0 := by
  refine ⟨?_, ?_, rfl, rfl, rfl⟩
  · intro hle hci hco hrange
    have hmin : min (co - ci) maxDuration = co - ci :=
      Nat.min_eq_left (Nat.le_sub_one_of_lt hrange)
    unfold calculateNights
    simp only [not_lt.mpr hle, if_false, hmin]
    rw [nights_of_duration (co - ci) (Nat.dvd_sub' hco hci) hrange]
    split <;> omega
  · intro hlt
    unfold calculateNights
    simp only [hlt, if_true]

theorem calculateNights_whole_days_witness :
    calculateNights (some (5 * hour)) (some (4109 * hour - 1000000)) =
      max 1 (((4109 * hour - 1000000 - 5 * hour) / (24 * hour) : Nat) : Int) ∧
    calculateNights (some (5 * hour)) (some (4 * hour)) = 0 :=
  ⟨(calculateNights_whole_days (5 * hour) (4109 * hour - 1000000)).1 (by decide) (by decide)
      (by decide) (by decide),
    (calculateNights_whole_days (5 * hour) (4 * hour)).2.1 (by decide)⟩

/-! ## The code helpers on text outside ASCII -/

theorem utf8Size_ascii (c : Char) (h : c.toNat ≤ 0x7F) : c.utf8Size = 1 := by
  unfold Char.utf8Size
  have : c.val ≤ UInt32.ofNatCore 0x7F (by decide) := by
    show c.val.toNat ≤ 0x7F
    exact h
  simp only [this, if_true]

theorem utf8EncodeChar_ascii (c : Char) (h : c.toNat ≤ 0x7F) : utf8EncodeChar c = [c.toNat] := by
  unfold utf8EncodeChar
  simp only [if_pos h]

theorem utf8Encode_ascii : ∀ (l : List Char), (∀ c ∈ l, c.toNat ≤ 0x7F) →
    utf8Encode l = l.map Char.toNat
  | [], _ => rfl
  | c :: cs, h => by
    have ih := utf8Encode_ascii cs (fun x hx => h x (List.mem_cons_of_mem _ hx))
    unfold utf8Encode at ih ⊢
    rw [List.flatMap_cons, ih, utf8EncodeChar_ascii c (h c (List.mem_cons_self _ _))]
    rfl

theorem unicodeToUpper_ascii (upper : Char → Char) (c : Char) (h : c.toNat ≤ 0x7F) :
    unicodeToUpper upper c = toUpperChar c := by
  unfold unicodeToUpper toUpperChar
  have h1 : ¬ c.toNat = 0x131 := by omega
  have h2 : ¬ c.toNat = 0x17F := by omega
  rw [if_pos h, if_neg h1, if_neg h2]

theorem toUpperChar_ascii (c : Char) (h : c.toNat ≤ 0x7F) : (toUpperChar c).toNat ≤ 0x7F := by
  have ha : 'a'.toNat = 97 := rfl
  have hz : 'z'.toNat = 122 := rfl
  unfold toUpperChar
  have h1 : ¬ c.toNat = 0x131 := by omega
  have h2 : ¬ c.toNat = 0x17F := by omega
  rw [if_neg h1, if_neg h2, ha, hz]
  split
  · rename_i h3
    have hv : (c.toNat - 32).isValidChar := by
      left
      omega
    have : (Char.ofNat (c.toNat - 32)).toNat = c.toNat - 32 := by
      unfold Char.ofNat
      rw [dif_pos hv]
      rfl
    rw [this]
    omega
  · exact h

theorem trimSpaceChars_subset (l : List Char) : ∀ c ∈ trimSpaceChars l, c ∈ l := by
  intro c hc
  unfold trimSpaceChars at hc
  have h1 := (List.dropWhile_sublist isSpace).subset (List.mem_reverse.mp hc)
  exact (List.dropWhile_sublist isSpace).subset (List.mem_reverse.mp h1)

theorem ToUpperWith_ascii (upper : Char → Char) (s : String) (h : ∀ c ∈ s.data, c.toNat ≤ 0x7F) :
    ToUpperWith upper s = ToUpper s ∧ ∀ c ∈ (ToUpper s).data, c.toNat ≤ 0x7F := by
  constructor
  · unfold ToUpperWith ToUpper
    congr 1
    exact List.map_congr_left (fun c hc => unicodeToUpper_ascii upper c (h c hc))
  · intro c hc
    unfold ToUpper at hc
    obtain ⟨a, ha, rfl⟩ := List.mem_map.mp hc
    exact toUpperChar_ascii a (h a ha)

/-- On ASCII text the definitions that the services use are the functions on any
text: `ToUpper`, `NormalizeCheckinCode` and `GenerateFormattedCheckinCode` do not
consult the case table there, and the result of the formatter is text, whose
bytes are the result on any text. -/
theorem GenerateFormattedCheckinCode_ascii (upper : Char → Char) (raw : String)
    (h : ∀ c ∈ raw.data, c.toNat ≤ 0x7F) :
    ToUpperWith upper raw = ToUpper raw ∧
    NormalizeCheckinCodeWith upper raw = NormalizeCheckinCode raw ∧
    GenerateFormattedCheckinCodeWith upper raw =
      (match GenerateFormattedCheckinCode raw with
        | .ok code => .ok (utf8Encode code.data)
        | .error err => .error err) := by
  have ht : ∀ c ∈ (TrimSpace raw).data, c.toNat ≤ 0x7F :=
    fun c hc => h c (trimSpaceChars_subset _ c hc)
  obtain ⟨e1, e2⟩ := ToUpperWith_ascii upper (TrimSpace raw) ht
  refine ⟨(ToUpperWith_ascii upper raw h).1, ?_, ?_⟩
  · unfold NormalizeCheckinCodeWith NormalizeCheckinCode
    rw [e1]
  · unfold GenerateFormattedCheckinCodeWith GenerateFormattedCheckinCode
    simp only [e1]
    have hf : ∀ c ∈ (ToUpper (TrimSpace raw)).data.filter (fun c => decide (c ≠ '-')),
        c.toNat ≤ 0x7F := fun c hc => e2 c (List.mem_of_mem_filter hc)
    have hsz : ∀ c ∈ (ToUpper (TrimSpace raw)).data.filter (fun c => decide (c ≠ '-')),
        c.utf8Size = 1 := fun c hc => utf8Size_ascii c (hf c hc)
    rw [utf8Encode_ascii _ hf, goLen_ascii _ hsz, takeBytes_ascii _ _ hsz,
      dropBytes_ascii _ _ hsz, List.length_map]
    split
    · rfl
    · have hf2 : ∀ c ∈ List.take 4 ((ToUpper (TrimSpace raw)).data.filter
            (fun c => decide (c ≠ '-'))) ++ '-' :: List.drop 4
            ((ToUpper (TrimSpace raw)).data.filter (fun c => decide (c ≠ '-'))),
          c.toNat ≤ 0x7F := by
        intro c hc
        rcases List.mem_append.mp hc with hc | hc
        · exact hf c (List.mem_of_mem_take hc)
        · rcases List.mem_cons.mp hc with hc | hc
          · rw [hc]; decide
          · exact hf c (List.mem_of_mem_drop hc)
      simp only [utf8Encode_ascii _ hf2, List.map_append, List.map_cons, List.map_take,
        List.map_drop]

theorem checkinCharset_ascii : ∀ c ∈ checkinCharset, c.toNat ≤ 0x7F := by decide

/-- C27: the two forms of a check-in code, with the functions on any text and
for every case table `upper` of the library. For `raw` of 8 characters of the
alphabet `A`-`Z`, `0`-`9`, `GenerateFormattedCheckinCode(raw)` returns the Go
string of the first four characters, a hyphen and the last four;
`IsValidCheckinCodeFormat` accepts that string and `NormalizeCheckinCode` takes
it back to `raw`. For every input, inside ASCII or not, whose upper-cased,
trimmed form without hyphens does not have 8 bytes,
`GenerateFormattedCheckinCode` returns the error `raw must be length 8`. -/
theorem checkin_code_round_trip (upper : Char → Char) (raw : String) :
    (raw.data.length = 8 → (∀ c ∈ raw.data, c ∈ checkinCharset) →
      GenerateFormattedCheckinCodeWith upper raw =
        .ok (utf8Encode (raw.data.take 4 ++ '-' :: raw.data.drop 4)) ∧
      IsValidCheckinCodeFormat ⟨raw.data.take 4 ++ '-' :: raw.data.drop 4⟩ = true ∧
      NormalizeCheckinCodeWith upper ⟨raw.data.take 4 ++ '-' :: raw.data.drop 4⟩ = raw) ∧
    ((utf8Encode ((ToUpperWith upper (TrimSpace raw)).data.filter (fun c => c ≠ '-'))).length ≠ 8 →
      GenerateFormattedCheckinCodeWith upper raw = .error (.new "raw must be length 8")) := by
  constructor
  · intro h8 hc
    obtain ⟨h1, h2⟩ := GenerateFormattedCheckinCode_ok raw h8 hc
    have hasc : ∀ c ∈ raw.data, c.toNat ≤ 0x7F := fun c h => checkinCharset_ascii c (hc c h)
    have hasc2 : ∀ c ∈ raw.data.take 4 ++ '-' :: raw.data.drop 4, c.toNat ≤ 0x7F := by
      intro c h
      rcases List.mem_append.mp h with h | h
      · exact hasc c (List.mem_of_mem_take h)
      · rcases List.mem_cons.mp h with h | h
        · rw [h]; decide
        · exact hasc c (List.mem_of_mem_drop h)
    refine ⟨?_, ?_, ?_⟩
    · rw [(GenerateFormattedCheckinCode_ascii upper raw hasc).2.2, h1]
    · have hsp : ∀ c ∈ raw.data.take 4 ++ '-' :: raw.data.drop 4, isSpace c = false := by
        intro c h
        rcases List.mem_append.mp h with h | h
        · exact (checkinCharset_facts c (hc c (List.mem_of_mem_take h))).1
        · rcases List.mem_cons.mp h with h | h
          · rw [h]; decide
          · exact (checkinCharset_facts c (hc c (List.mem_of_mem_drop h))).1
      have hal : ∀ c ∈ raw.data, isAlnum c = true := fun c h => checkinCharset_alnum c (hc c h)
      have hne : (⟨raw.data.take 4 ++ '-' :: raw.data.drop 4⟩ : String) ≠ "" := by
        intro e
        have := congrArg String.data e
        simp at this
      unfold IsValidCheckinCodeFormat TrimSpace
      rw [if_neg hne]
      simp only [trimSpaceChars_id _ hsp]
      have hl4 : (raw.data.take 4).length = 4 := by simp [h8]
      have hlen : (raw.data.take 4 ++ '-' :: raw.data.drop 4).length = 9 := by
        simp [h8]
      have htake : (raw.data.take 4 ++ '-' :: raw.data.drop 4).take 4 = raw.data.take 4 := by
        rw [List.take_append_of_le_length (by rw [hl4])]
        rw [List.take_of_length_le (by rw [hl4])]
      have hdrop : (raw.data.take 4 ++ '-' :: raw.data.drop 4).drop 5 = raw.data.drop 4 := by
        rw [List.drop_append_eq_append_drop, hl4]
        simp [List.drop_of_length_le, hl4]
      have hget : (raw.data.take 4 ++ '-' :: raw.data.drop 4).getD 4 ' ' = '-' := by
        rw [List.getD_eq_getElem?_getD, List.getElem?_append_right (by rw [hl4]), hl4]
        simp
      rw [hlen, htake, hdrop, hget]
      have a1 : (raw.data.take 4).all isAlnum = true :=
        List.all_eq_true.mpr (fun c h => hal c (List.mem_of_mem_take h))
      have a2 : (raw.data.drop 4).all isAlnum = true :=
        List.all_eq_true.mpr (fun c h => hal c (List.mem_of_mem_drop h))
      rw [a1, a2]
      simp
    · rw [(GenerateFormattedCheckinCode_ascii upper _ hasc2).2.1, h2]
  · intro h
    unfold GenerateFormattedCheckinCodeWith
    simp only
    rw [if_pos h]

theorem checkin_code_round_trip_witness :
    (GenerateFormattedCheckinCodeWith upperTurnedA "DINSX27C" = .ok (utf8Encode "DINS-X27C".data) ∧
      IsValidCheckinCodeFormat "DINS-X27C" = true ∧
      NormalizeCheckinCodeWith upperTurnedA "DINS-X27C" = "DINSX27C") ∧
    GenerateFormattedCheckinCodeWith upperTurnedA
      ⟨[Char.ofNat 0x250, 'a', 'b', 'c', 'd', 'e', 'f']⟩ = .error (.new "raw must be length 8") :=
  ⟨(checkin_code_round_trip upperTurnedA "DINSX27C").1 (by decide) (by decide),
    (checkin_code_round_trip upperTurnedA ⟨[Char.ofNat 0x250, 'a', 'b', 'c', 'd', 'e', 'f']⟩).2
      (by decide)⟩

end HotelBackend
